import Mathlib

/-! HELICS communication layer: stream (TCP) and queue (IPC) transports.

A shallow embedding of `src/helics/core/tcp/TcpComms.cpp`,
`src/helics/core/ipc/IpcComms.cpp`, `src/helics/common/delayedDestructor.hpp`
and `VectorSubscription2d` of `src/helics/application_api/Subscriptions.hpp`.

Conventions of the embedding:

* C++ `int` values are of type `Int`.  Where the embedded code computes with
  them (`++start` in `findOpenPort`, the port block derived from an assigned
  port, the loop bounds and the subscript of `VectorSubscription2d`, the
  conversion of a duration count to `int`), every operation is followed by
  `toInt32`, the two's complement wrap-around to 32 bits.  Two counters are
  left exact: `++PortNumber` in the bind loop of the rx thread, which differs
  from the `int` only past the port 2147483647, and `cumsleep` in the port
  negotiation, which the time-out bounds.
* `std::set<int>` is `Finset Int`; `std::map<int, H>` is a key-ordered
  association list (`RouteTable H`).
* A pointer that may be null (`brokerConnection`) is an `Option`; a call
  through the null pointer ends the loop that makes it (`LoopState.aborted`).
* Effects on the outside world (sends, queue pushes, closes, status changes,
  callbacks) are recorded, in program order, in a trace of events.
-/

namespace helics

/-! ## Port allocation (`TcpComms::findOpenPort`) -/

/-- `static const int BEGIN_OPEN_PORT_RANGE = 24228;` -/
def BEGIN_OPEN_PORT_RANGE : Int := 24228

/-- `static const int BEGIN_OPEN_PORT_RANGE_SUBBROKER = 24328;` -/
def BEGIN_OPEN_PORT_RANGE_SUBBROKER : Int := 24328

/-- `static const int DEFAULT_TCP_BROKER_PORT_NUMBER = 24160;` -/
def DEFAULT_TCP_BROKER_PORT_NUMBER : Int := 24160

/-- The members of `TcpComms` read or written by `findOpenPort` and
`generateReplyToIncomingMessage`. -/
structure TcpComms where
  PortNumber : Int
  openPortStart : Int
  hasBroker : Bool
  usedPortNumbers : Finset Int
  deriving DecidableEq

/-- The value an `int` holds after an operation whose exact result is `x`:
`x` modulo 2^32, taken in the range of `int` (two's complement wrap-around,
which is what the compiled code does on overflow).  The same function gives
the conversion of a `long long` to `int`. -/
def toInt32 (x : Int) : Int :=
  (x + 2147483648) % 4294967296 - 2147483648

/-- The loop `while (usedPortNumbers.find (start) != usedPortNumbers.end ()) ++start;`,
with `++start` on an `int`.  The first argument bounds the number of
iterations; `findOpenPort` passes `usedPortNumbers.size() + 1`, which the loop
does not exhaust while fewer than 2^32 ports are in use
(`findOpenPortLoop_fresh`); with every `int` in use the loop of the source
never ends. -/
def findOpenPortLoop (used : Finset Int) : Nat → Int → Int
  | 0, start => start
  | fuel + 1, start =>
    if start ∈ used then findOpenPortLoop used fuel (toInt32 (start + 1)) else start

/-- The value of the local `start` of `findOpenPort` after `k` increments. -/
def portVisited (start : Int) (k : Nat) : Int :=
  if k = 0 then start else toInt32 (start + (k : Int))

/-- The value of the local `start` of `findOpenPort` before its loop. -/
def TcpComms.initialStart (c : TcpComms) : Int :=
  if c.openPortStart < 0 then
    (if c.hasBroker then BEGIN_OPEN_PORT_RANGE_SUBBROKER else BEGIN_OPEN_PORT_RANGE)
  else c.openPortStart

/-- `int TcpComms::findOpenPort ()`: the returned port and the object afterwards. -/
def TcpComms.findOpenPort (c : TcpComms) : Int × TcpComms :=
  let start := findOpenPortLoop c.usedPortNumbers (c.usedPortNumbers.card + 1) c.initialStart
  (start, { c with usedPortNumbers := insert start c.usedPortNumbers })

/-- One call of `findOpenPort` as seen by an observer: the in-use set before
the call and the port returned. -/
structure PortCall where
  usedBefore : Finset Int
  port : Int

/-- A sequence of `findOpenPort` calls on one endpoint.  Between calls other
code may change `openPortStart` (`setAutomaticPortStartPort`, the rx loop) and
`hasBroker` (the tx loop); element `i` of `settings` gives their values at call
`i`.  `usedPortNumbers` is only touched by `findOpenPort`. -/
def TcpComms.findOpenPortCalls : TcpComms → List (Int × Bool) → List PortCall × TcpComms
  | c, [] => ([], c)
  | c, (ops, hb) :: rest =>
    let c0 := { c with openPortStart := ops, hasBroker := hb }
    let r := c0.findOpenPort
    let rs := TcpComms.findOpenPortCalls r.2 rest
    (⟨c0.usedPortNumbers, r.1⟩ :: rs.1, rs.2)

/-! ## Action messages -/

/-- Modelled from the spec: the action tags of `ActionMessage.hpp`, which is
not among the sources.  The tags named by the transports are constructors of
their own; `cmd_other` stands for every other tag. -/
inductive action_t
  | cmd_ignore
  | cmd_error
  | cmd_init_grant
  | cmd_protocol
  | cmd_protocol_priority
  | cmd_protocol_big
  | cmd_other (code : Int)
  deriving DecidableEq, Repr

/-- Modelled from the spec: the fields of an action message ("`action`,
`message_id`, `source_id`, `source_handle`, `dest_id`, `index`, and `payload`").
`TcpComms.cpp` reads the sub-command from `messageID`, `IpcComms.cpp` from
`index`. -/
structure ActionMessage where
  action : action_t
  messageID : Int
  source_id : Int
  source_handle : Int
  dest_id : Int
  index : Int
  payload : String
  deriving DecidableEq, Repr

/-- The constructor `ActionMessage (action)`: the tag is set, every other field
is zero or empty. -/
def ActionMessage.ofAction (a : action_t) : ActionMessage :=
  { action := a, messageID := 0, source_id := 0, source_handle := 0, dest_id := 0,
    index := 0, payload := "" }

/-- Modelled from the spec: `isProtocolCommand(m)` holds when the action equals
`CMD_PROTOCOL` or `CMD_PROTOCOL_PRIORITY` or `CMD_PROTOCOL_BIG`
(the function is declared in `ActionMessage.hpp`, not among the sources). -/
def isProtocolCommand (m : ActionMessage) : Bool :=
  m.action = action_t.cmd_protocol || m.action = action_t.cmd_protocol_priority
    || m.action = action_t.cmd_protocol_big

/-- The values of the protocol sub-command macros, which are defined in headers
that are not among the sources.  They are parameters of the embedding.  A C++
`switch` does not compile with two equal case labels, so the labels that share
a `switch` in the sources are distinct:
`switch_reply` is the switch of `generateReplyToIncomingMessage`,
`switch_rx` the first switch of `TcpComms::queue_rx_function`,
`switch_tx` the switch of `TcpComms::queue_tx_function`. -/
structure ProtocolIds where
  CLOSE_RECEIVER : Int
  DISCONNECT : Int
  NEW_ROUTE : Int
  QUERY_PORTS : Int
  REQUEST_PORTS : Int
  PORT_DEFINITIONS : Int
  switch_reply : QUERY_PORTS ≠ REQUEST_PORTS
  switch_rx : PORT_DEFINITIONS ≠ CLOSE_RECEIVER ∧ PORT_DEFINITIONS ≠ DISCONNECT
    ∧ CLOSE_RECEIVER ≠ DISCONNECT
  switch_tx : NEW_ROUTE ≠ CLOSE_RECEIVER ∧ NEW_ROUTE ≠ DISCONNECT

/-- One admissible assignment of sub-command values, used to evaluate the
embedding on concrete inputs. -/
def exampleIds : ProtocolIds :=
  { CLOSE_RECEIVER := 1, DISCONNECT := 2, NEW_ROUTE := 3, QUERY_PORTS := 4,
    REQUEST_PORTS := 5, PORT_DEFINITIONS := 6,
    switch_reply := by decide, switch_rx := by decide, switch_tx := by decide }

/-- `#define SET_TO_OPERATING 135111` (`IpcComms.cpp`). -/
def SET_TO_OPERATING : Int := 135111

/-- `ActionMessage TcpComms::generateReplyToIncomingMessage (ActionMessage &M)`:
the reply and the object afterwards. -/
def TcpComms.generateReplyToIncomingMessage (ids : ProtocolIds) (c : TcpComms)
    (M : ActionMessage) : ActionMessage × TcpComms :=
  if isProtocolCommand M = true then
    if M.messageID = ids.QUERY_PORTS then
      ({ ActionMessage.ofAction action_t.cmd_protocol with
          messageID := ids.PORT_DEFINITIONS, source_id := c.PortNumber }, c)
    else if M.messageID = ids.REQUEST_PORTS then
      let r := c.findOpenPort
      ({ ActionMessage.ofAction action_t.cmd_protocol with
          messageID := ids.PORT_DEFINITIONS, source_id := r.2.PortNumber,
          source_handle := r.1 }, r.2)
    else (ActionMessage.ofAction action_t.cmd_ignore, c)
  else (ActionMessage.ofAction action_t.cmd_ignore, c)

/-! ## Status and route tables -/

/-- Modelled from the spec: the status enum ("exactly these states: `startup`,
`connected`, `error`, `terminated`, `reconnecting`"). -/
inductive connection_status
  | startup
  | connected
  | error
  | terminated
  | reconnecting
  deriving DecidableEq, Repr

/-- A `std::map<int, H>`: the entries in ascending key order, which is the
order a range-for visits them in. -/
abbrev RouteTable (H : Type) := List (Int × H)

/-- `routes.find (route_id)`: the handle stored under the key, if any. -/
def RouteTable.find {H : Type} : RouteTable H → Int → Option H
  | [], _ => none
  | (k, h) :: rest, key => if k = key then some h else RouteTable.find rest key

/-- Insertion of a new entry at its place in the key order. -/
def RouteTable.insertOrdered {H : Type} (key : Int) (h : H) : RouteTable H → RouteTable H
  | [] => [(key, h)]
  | (k, v) :: rest =>
    if key < k then (key, h) :: (k, v) :: rest
    else (k, v) :: RouteTable.insertOrdered key h rest

/-- `routes.emplace (key, handle)`: inserts when the key is absent and does
nothing when it is present. -/
def RouteTable.emplace {H : Type} (key : Int) (h : H) (t : RouteTable H) : RouteTable H :=
  match RouteTable.find t key with
  | some _ => t
  | none => RouteTable.insertOrdered key h t

/-- Where a tx loop stands: popping the queue, left through its regular exit,
or stopped because the process died there (a failed `assert`, or a call
through a null pointer). -/
inductive LoopState
  | running
  | finished
  | aborted
  deriving DecidableEq, Repr

/-! ## The tx loop of the stream transport (`TcpComms::queue_tx_function`) -/

/-- A `TcpConnection::pointer`: the connection made by call number `serial` of
`TcpConnection::create` in the tx loop, to the address `address`. -/
structure TcpConnection where
  serial : Nat
  address : String
  deriving DecidableEq, Repr

/-- The effects of the stream transport on the world outside the loop.
`send` is the call `conn->send (m.packetize ())`; when it throws, the
`system_error` is caught on the spot and at most logged, and the loop goes on
as after a send that succeeded. -/
inductive TcpEvent
  | send (conn : TcpConnection) (m : ActionMessage)
  | rxPush (m : ActionMessage)
  | close (conn : TcpConnection)
  | setTxStatus (status : connection_status)
  | callback (m : ActionMessage)
  deriving DecidableEq, Repr

/-- What the tx loop of the stream transport cannot decide by itself:
whether call number `n` of `TcpConnection::create`, for the route payload
given, returns (`true`) or throws, and whether the translation unit was
compiled with `assert` enabled (`NDEBUG` not defined). -/
structure TcpTxEnv where
  createSucceeds : Nat → String → Bool
  assertsEnabled : Bool

/-- The state of `TcpComms::queue_tx_function` from `while (true)` on:
`hasBroker`, the locals `brokerConnection` (`none`: the null pointer, which is
what it still is when `establishBrokerConnection` returned true after the
creation threw, and when there is no broker) and `routes`, the number of
`TcpConnection::create` calls made for routes so far, the rx status as
`getRxStatus ()` reports it, the tx status, and the trace of effects. -/
structure TcpTx where
  hasBroker : Bool
  brokerConnection : Option TcpConnection
  routes : RouteTable TcpConnection
  created : Nat
  rxStatus : connection_status
  txStatus : connection_status
  trace : List TcpEvent
  loop : LoopState
  deriving DecidableEq, Repr

/-- Append one effect to the trace. -/
def TcpTx.emit (s : TcpTx) (e : TcpEvent) : TcpTx :=
  { s with trace := s.trace ++ [e] }

/-- The message `TcpComms::closeReceiver ()` pushes to `rxMessageQueue`. -/
def TcpComms.closeReceiverMessage (ids : ProtocolIds) : ActionMessage :=
  { ActionMessage.ofAction action_t.cmd_protocol with messageID := ids.CLOSE_RECEIVER }

/-- The call `brokerConnection->send (cmd.packetize ())`: with a null
`brokerConnection` it goes through a null pointer and the process dies
there. -/
def TcpComms.sendToBroker (s : TcpTx) (cmd : ActionMessage) : TcpTx :=
  match s.brokerConnection with
  | some broker => s.emit (TcpEvent.send broker cmd)
  | none => { s with loop := LoopState.aborted }

/-- The dispatch part of the loop body: `if (route_id == 0) ... else if
(route_id == -1) ... else ...`. -/
def TcpComms.txDispatch (env : TcpTxEnv) (s : TcpTx) (route_id : Int)
    (cmd : ActionMessage) : TcpTx :=
  if route_id = 0 then
    if s.hasBroker = true then TcpComms.sendToBroker s cmd else s
  else if route_id = -1 then
    s.emit (TcpEvent.rxPush cmd)
  else
    match RouteTable.find s.routes route_id with
    | some conn => s.emit (TcpEvent.send conn cmd)
    | none =>
      if s.hasBroker = true then TcpComms.sendToBroker s cmd
      else if env.assertsEnabled = true then { s with loop := LoopState.aborted }
      else s

/-- The code after the label `CLOSE_TX_LOOP`. -/
def TcpComms.txClose (ids : ProtocolIds) (s : TcpTx) : TcpTx :=
  let s1 : TcpTx :=
    { s with trace := s.trace ++ s.routes.map (fun rt => TcpEvent.close rt.2), routes := [] }
  let s2 : TcpTx :=
    if s1.rxStatus = connection_status.connected then
      s1.emit (TcpEvent.rxPush (TcpComms.closeReceiverMessage ids))
    else s1
  { s2 with trace := s2.trace ++ [TcpEvent.setTxStatus connection_status.terminated],
            txStatus := connection_status.terminated,
            loop := LoopState.finished }

/-- One iteration of `while (true)` for the popped pair `(route_id, cmd)`;
`goto CLOSE_TX_LOOP` runs the code after the label. -/
def TcpComms.txStep (ids : ProtocolIds) (env : TcpTxEnv) (s : TcpTx)
    (item : Int × ActionMessage) : TcpTx :=
  let route_id := item.1
  let cmd := item.2
  if isProtocolCommand cmd = true ∧ route_id = -1 then
    if cmd.messageID = ids.NEW_ROUTE then
      if env.createSucceeds s.created cmd.payload = true then
        { s with created := s.created + 1,
                 routes := RouteTable.emplace cmd.dest_id ⟨s.created, cmd.payload⟩ s.routes }
      else { s with created := s.created + 1 }
    else if cmd.messageID = ids.CLOSE_RECEIVER then
      s.emit (TcpEvent.rxPush cmd)
    else if cmd.messageID = ids.DISCONNECT then
      TcpComms.txClose ids s
    else TcpComms.txDispatch env s route_id cmd
  else TcpComms.txDispatch env s route_id cmd

/-- `TcpComms::queue_tx_function` from `while (true)` on, fed the items
`txQueue.pop ()` returns, in order.  A loop that is not running pops nothing;
when the items run out the loop is left blocked in `pop`. -/
def TcpComms.queue_tx_function (ids : ProtocolIds) (env : TcpTxEnv) :
    TcpTx → List (Int × ActionMessage) → TcpTx
  | s, [] => s
  | s, item :: rest =>
    if s.loop = LoopState.running then
      TcpComms.queue_tx_function ids env (TcpComms.txStep ids env s item) rest
    else s

/-! ## The tx loop of the queue transport (`IpcComms::queue_tx_function`) -/

/-- A `sendToQueue` that was connected: the queue opened by call number
`serial` of `connect` for a route, under the name `target`. -/
structure sendToQueue where
  serial : Nat
  target : String
  deriving DecidableEq, Repr

/-- The effects of the queue transport's tx loop. -/
inductive IpcEvent
  | sendMessage (queue : sendToQueue) (m : ActionMessage) (priority : Int)
  | callback (m : ActionMessage)
  deriving DecidableEq, Repr

/-- What the tx loop of the queue transport cannot decide by itself: whether
call number `n` of `newQueue.connect (payload, false, 3)` returns true, and
`isPriorityCommand`, which is declared in a header that is not among the
sources. -/
structure IpcTxEnv where
  connectSucceeds : Nat → String → Bool
  isPriorityCommand : ActionMessage → Bool

/-- The state of `IpcComms::queue_tx_function` from `while (1)` on: the locals
`hasBroker`, `brokerQueue`, `rxQueue`, `routes` and `operating`, the number of
route `connect` calls so far, `tx_status`, and the trace of effects. -/
structure IpcTx where
  hasBroker : Bool
  brokerQueue : sendToQueue
  rxQueue : sendToQueue
  routes : RouteTable sendToQueue
  operating : Bool
  attempts : Nat
  tx_status : connection_status
  trace : List IpcEvent
  loop : LoopState
  deriving DecidableEq, Repr

/-- Append one effect to the trace. -/
def IpcTx.emit (s : IpcTx) (e : IpcEvent) : IpcTx :=
  { s with trace := s.trace ++ [e] }

/-- The message `op` built for a `CMD_INIT_GRANT`: `ActionMessage op (CMD_PROTOCOL);
op.index = SET_TO_OPERATING;`. -/
def IpcComms.setToOperatingMessage : ActionMessage :=
  { ActionMessage.ofAction action_t.cmd_protocol with index := SET_TO_OPERATING }

/-- The block `if (cmd.action () == CMD_INIT_GRANT) { if (!operating) ... }`. -/
def IpcComms.txSignalOperating (s : IpcTx) (cmd : ActionMessage) : IpcTx :=
  if cmd.action = action_t.cmd_init_grant then
    if s.operating = false then
      s.emit (IpcEvent.sendMessage s.rxQueue IpcComms.setToOperatingMessage 3)
    else s
  else s

/-- The dispatch part of the loop body, with `priority` already computed. -/
def IpcComms.txDispatch (s : IpcTx) (route_id : Int) (cmd : ActionMessage)
    (priority : Int) : IpcTx :=
  if route_id = 0 then
    if s.hasBroker = true then s.emit (IpcEvent.sendMessage s.brokerQueue cmd priority) else s
  else if route_id = -1 then
    s.emit (IpcEvent.sendMessage s.rxQueue cmd priority)
  else
    match RouteTable.find s.routes route_id with
    | some queue => s.emit (IpcEvent.sendMessage queue cmd priority)
    | none =>
      if s.hasBroker = true then s.emit (IpcEvent.sendMessage s.brokerQueue cmd priority)
      else s

/-- The loop body from `if (cmd.action () == CMD_INIT_GRANT)` to its end. -/
def IpcComms.txForward (env : IpcTxEnv) (s : IpcTx) (route_id : Int)
    (cmd : ActionMessage) : IpcTx :=
  let s1 := IpcComms.txSignalOperating s cmd
  let priority : Int := if env.isPriorityCommand cmd = true then 3 else 1
  IpcComms.txDispatch s1 route_id cmd priority

/-- One iteration of `while (1)` for the popped pair `(route_id, cmd)`. -/
def IpcComms.txStep (ids : ProtocolIds) (env : IpcTxEnv) (s : IpcTx)
    (item : Int × ActionMessage) : IpcTx :=
  let route_id := item.1
  let cmd := item.2
  if (cmd.action = action_t.cmd_protocol ∨ cmd.action = action_t.cmd_protocol_priority)
      ∧ route_id = -1 then
    if cmd.index = ids.NEW_ROUTE then
      if env.connectSucceeds s.attempts cmd.payload = true then
        { s with attempts := s.attempts + 1,
                 routes := RouteTable.emplace cmd.dest_id ⟨s.attempts, cmd.payload⟩ s.routes }
      else { s with attempts := s.attempts + 1 }
    else if cmd.index = ids.DISCONNECT then
      { s with tx_status := connection_status.terminated, loop := LoopState.finished }
    else IpcComms.txForward env s route_id cmd
  else IpcComms.txForward env s route_id cmd

/-- `IpcComms::queue_tx_function` from `while (1)` on, fed the items
`txQueue.pop ()` returns, in order. -/
def IpcComms.queue_tx_function (ids : ProtocolIds) (env : IpcTxEnv) :
    IpcTx → List (Int × ActionMessage) → IpcTx
  | s, [] => s
  | s, item :: rest =>
    if s.loop = LoopState.running then
      IpcComms.queue_tx_function ids env (IpcComms.txStep ids env s item) rest
    else s

/-- The popped pair is one the stream transport's loop handles itself: a
protocol command on route -1 whose sub-command is a case label of the switch
(`NEW_ROUTE` and `CLOSE_RECEIVER` set `processed`, `DISCONNECT` leaves the
loop). -/
def TcpComms.handledLocally (ids : ProtocolIds) (route_id : Int) (cmd : ActionMessage) : Prop :=
  isProtocolCommand cmd = true ∧ route_id = -1 ∧
    (cmd.messageID = ids.NEW_ROUTE ∨ cmd.messageID = ids.CLOSE_RECEIVER
      ∨ cmd.messageID = ids.DISCONNECT)

instance TcpComms.handledLocally.decidable (ids : ProtocolIds) (route_id : Int)
    (cmd : ActionMessage) : Decidable (TcpComms.handledLocally ids route_id cmd) := by
  unfold TcpComms.handledLocally
  infer_instance

/-- The popped pair is one the queue transport's loop handles itself: a
`CMD_PROTOCOL` or `CMD_PROTOCOL_PRIORITY` command on route -1 whose `index` is a
case label of the switch (`NEW_ROUTE` continues, `DISCONNECT` returns). -/
def IpcComms.handledLocally (ids : ProtocolIds) (route_id : Int) (cmd : ActionMessage) : Prop :=
  (cmd.action = action_t.cmd_protocol ∨ cmd.action = action_t.cmd_protocol_priority) ∧
    route_id = -1 ∧ (cmd.index = ids.NEW_ROUTE ∨ cmd.index = ids.DISCONNECT)

instance IpcComms.handledLocally.decidable (ids : ProtocolIds) (route_id : Int)
    (cmd : ActionMessage) : Decidable (IpcComms.handledLocally ids route_id cmd) := by
  unfold IpcComms.handledLocally
  infer_instance

/-! ## Concrete inputs -/

/-- A `NEW_ROUTE` command as `addRoute (route_id, address)` forms it:
`CMD_PROTOCOL`, sub-command `NEW_ROUTE`, `dest_id` and `payload` set. -/
def newRouteCommand (ids : ProtocolIds) (route_id : Int) (address : String) : ActionMessage :=
  { ActionMessage.ofAction action_t.cmd_protocol with
    messageID := ids.NEW_ROUTE, index := ids.NEW_ROUTE, dest_id := route_id,
    payload := address }

/-- A `DISCONNECT` command with the action tag given. -/
def disconnectCommand (ids : ProtocolIds) (a : action_t) : ActionMessage :=
  { ActionMessage.ofAction a with messageID := ids.DISCONNECT, index := ids.DISCONNECT }

/-- A message that is no protocol command, with the payload given. -/
def dataMessage (text : String) : ActionMessage :=
  { ActionMessage.ofAction (action_t.cmd_other 500) with payload := text }

/-- An environment of the stream transport in which only the first
`TcpConnection::create` of the loop succeeds. -/
def firstCreateOnly (asserts : Bool) : TcpTxEnv :=
  { createSucceeds := fun n _ => decide (n = 0), assertsEnabled := asserts }

/-- An environment of the queue transport in which only the first route
`connect` succeeds and no command has priority. -/
def firstConnectOnly : IpcTxEnv :=
  { connectSucceeds := fun n _ => decide (n = 0), isPriorityCommand := fun _ => false }

/-- A stream-transport tx loop that has just entered `while (true)` with an
empty route table; with a broker, `brokerConnection` is the connection made to
it, and without one it is null. -/
def freshTcpTx (hasBroker : Bool) (rxStatus : connection_status) : TcpTx :=
  { hasBroker := hasBroker,
    brokerConnection := if hasBroker = true then some ⟨1000, "localhost:24160"⟩ else none,
    routes := [],
    created := 0, rxStatus := rxStatus, txStatus := connection_status.connected,
    trace := [], loop := LoopState.running }

/-- A queue-transport tx loop that has just entered `while (1)` with an empty
route table; `brokerQueue` is only meaningful with a broker. -/
def freshIpcTx (hasBroker : Bool) : IpcTx :=
  { hasBroker := hasBroker, brokerQueue := ⟨1000, "broker"⟩, rxQueue := ⟨1001, "local"⟩,
    routes := [], operating := false, attempts := 0,
    tx_status := connection_status.connected, trace := [], loop := LoopState.running }

/-! ## The rx loop of the stream transport (`TcpComms::queue_rx_function`) -/

/-- The effects of `TcpComms::queue_rx_function`, and the assignments it makes
to `PortNumber` (`PortNumber = mp;` and `++PortNumber;`), in program order. -/
inductive TcpRxEvent
  | portNumberSet (port : Int)
  | serverCreate (port : Int)
  | serverClose
  | serverStart
  | setRxStatus (status : connection_status)
  deriving DecidableEq, Repr

/-- Where `TcpComms::queue_rx_function` stands: in `while (PortNumber < 0)`,
between that loop and `server->start ()`, in `while (loopRunning)`, or
returned. -/
inductive RxPhase
  | waiting
  | binding
  | serving
  | exited
  deriving DecidableEq, Repr

/-- What the bind loop `while (!server->isReady ())` cannot decide by itself.
Each element stands for one evaluation of `server->isReady ()` that gave
false, and holds what `server->reConnect (connectionTimeout)` returns if that
iteration calls it; after the last element `isReady ()` gives true.  (A server
that never becomes ready keeps the function in the bind loop for ever.) -/
structure TcpRxEnv where
  failedBinds : List Bool

/-- The members `TcpComms::queue_rx_function` reads or writes, the trace of its
effects, and where it stands. -/
structure TcpRx where
  PortNumber : Int
  openPortStart : Int
  autoPortNumber : Bool
  hasBroker : Bool
  disconnecting : Bool
  rxStatus : connection_status
  trace : List TcpRxEvent
  phase : RxPhase
  deriving DecidableEq, Repr

/-- The value given to `openPortStart` when a port `mp` is assigned while
`openPortStart` is negative; every operation is one on `int`. -/
def TcpComms.derivedOpenPortStart (mp : Int) : Int :=
  if mp < BEGIN_OPEN_PORT_RANGE then BEGIN_OPEN_PORT_RANGE
  else if mp < BEGIN_OPEN_PORT_RANGE_SUBBROKER then
    toInt32 (BEGIN_OPEN_PORT_RANGE_SUBBROKER + toInt32 (toInt32 (mp - BEGIN_OPEN_PORT_RANGE) * 10))
  else
    toInt32
      (toInt32 (BEGIN_OPEN_PORT_RANGE_SUBBROKER +
        toInt32 (toInt32 (mp - BEGIN_OPEN_PORT_RANGE_SUBBROKER) * 10)) + 10)

/-- The test `while (PortNumber < 0)`: stay in the loop or go on to the bind. -/
def TcpComms.rxWaitTest (s : TcpRx) : TcpRx :=
  { s with phase := if s.PortNumber < 0 then RxPhase.waiting else RxPhase.binding }

/-- One iteration of `while (PortNumber < 0)` for the message popped from
`rxMessageQueue`, followed by the loop test. -/
def TcpComms.rxWaitStep (ids : ProtocolIds) (s : TcpRx) (message : ActionMessage) : TcpRx :=
  if isProtocolCommand message = true then
    if message.messageID = ids.PORT_DEFINITIONS then
      let mp := message.source_handle
      TcpComms.rxWaitTest
        { s with
          openPortStart :=
            if s.openPortStart < 0 then TcpComms.derivedOpenPortStart mp else s.openPortStart,
          PortNumber := mp,
          trace := s.trace ++ [TcpRxEvent.portNumberSet mp] }
    else if message.messageID = ids.CLOSE_RECEIVER ∨ message.messageID = ids.DISCONNECT then
      { s with disconnecting := true,
               rxStatus := connection_status.terminated,
               trace := s.trace ++ [TcpRxEvent.setRxStatus connection_status.terminated],
               phase := RxPhase.exited }
    else TcpComms.rxWaitTest s
  else TcpComms.rxWaitTest s

/-- The loop `while (!server->isReady ())` and, when it is left with a ready
server, `server->start (); setRxStatus (connection_status::connected);`. -/
def TcpComms.rxBindLoop : List Bool → TcpRx → TcpRx
  | [], s =>
    { s with trace := s.trace ++
               [TcpRxEvent.serverStart, TcpRxEvent.setRxStatus connection_status.connected],
             rxStatus := connection_status.connected,
             phase := RxPhase.serving }
  | reConnected :: rest, s =>
    if s.autoPortNumber = true ∧ s.hasBroker = true then
      TcpComms.rxBindLoop rest
        { s with PortNumber := s.PortNumber + 1,
                 trace := s.trace ++
                   [TcpRxEvent.serverClose, TcpRxEvent.portNumberSet (s.PortNumber + 1),
                    TcpRxEvent.serverCreate (s.PortNumber + 1)] }
    else if reConnected = true then TcpComms.rxBindLoop rest s
    else
      { s with trace := s.trace ++
                 [TcpRxEvent.serverClose, TcpRxEvent.setRxStatus connection_status.error],
               rxStatus := connection_status.error,
               phase := RxPhase.exited }

/-- The code between the two message loops: the test `if (PortNumber < 0)`,
the creation of the server, the bind loop and the start of the server. -/
def TcpComms.rxBind (env : TcpRxEnv) (s : TcpRx) : TcpRx :=
  if s.PortNumber < 0 then
    { s with trace := s.trace ++ [TcpRxEvent.setRxStatus connection_status.error],
             rxStatus := connection_status.error,
             phase := RxPhase.exited }
  else
    TcpComms.rxBindLoop env.failedBinds
      { s with trace := s.trace ++ [TcpRxEvent.serverCreate s.PortNumber] }

/-- One iteration of `while (loopRunning)` for the message popped from
`rxMessageQueue`; when `loopRunning` becomes false the code after the loop
runs. -/
def TcpComms.rxServeStep (ids : ProtocolIds) (s : TcpRx) (message : ActionMessage) : TcpRx :=
  if isProtocolCommand message = true ∧
      (message.messageID = ids.CLOSE_RECEIVER ∨ message.messageID = ids.DISCONNECT) then
    { s with disconnecting := true,
             trace := s.trace ++
               [TcpRxEvent.serverClose, TcpRxEvent.setRxStatus connection_status.terminated],
             rxStatus := connection_status.terminated,
             phase := RxPhase.exited }
  else s

/-- Run the code between the loops when the first loop has been left. -/
def TcpComms.rxSettle (env : TcpRxEnv) (s : TcpRx) : TcpRx :=
  if s.phase = RxPhase.binding then TcpComms.rxBind env s else s

/-- The two message loops of `queue_rx_function`, fed the messages
`rxMessageQueue.pop ()` returns, in order. -/
def TcpComms.rxLoops (ids : ProtocolIds) (env : TcpRxEnv) :
    TcpRx → List ActionMessage → TcpRx
  | s, [] => s
  | s, message :: rest =>
    match s.phase with
    | RxPhase.waiting =>
      TcpComms.rxLoops ids env (TcpComms.rxSettle env (TcpComms.rxWaitStep ids s message)) rest
    | RxPhase.serving => TcpComms.rxLoops ids env (TcpComms.rxServeStep ids s message) rest
    | RxPhase.binding => s
    | RxPhase.exited => s

/-- `void TcpComms::queue_rx_function ()`: entered with the members of `s`
(its `phase` is set by the first loop test), fed the messages popped from
`rxMessageQueue`. -/
def TcpComms.queue_rx_function (ids : ProtocolIds) (env : TcpRxEnv) (s : TcpRx)
    (messages : List ActionMessage) : TcpRx :=
  TcpComms.rxLoops ids env (TcpComms.rxSettle env (TcpComms.rxWaitTest s)) messages

/-- The values assigned to `PortNumber`, in order. -/
def TcpRxEvent.assignedPorts : List TcpRxEvent → List Int
  | [] => []
  | TcpRxEvent.portNumberSet p :: rest => p :: TcpRxEvent.assignedPorts rest
  | _ :: rest => TcpRxEvent.assignedPorts rest

/-- The message is a protocol command with sub-command `CLOSE_RECEIVER` or
`DISCONNECT`. -/
def TcpComms.isCloseCommand (ids : ProtocolIds) (m : ActionMessage) : Prop :=
  isProtocolCommand m = true ∧
    (m.messageID = ids.CLOSE_RECEIVER ∨ m.messageID = ids.DISCONNECT)

instance TcpComms.isCloseCommand.decidable (ids : ProtocolIds) (m : ActionMessage) :
    Decidable (TcpComms.isCloseCommand ids m) := by
  unfold TcpComms.isCloseCommand
  infer_instance

/-- A `PORT_DEFINITIONS` reply as a broker forms it. -/
def portDefinitions (ids : ProtocolIds) (own assigned : Int) : ActionMessage :=
  { ActionMessage.ofAction action_t.cmd_protocol with
    messageID := ids.PORT_DEFINITIONS, source_id := own, source_handle := assigned }

/-- An endpoint entering `queue_rx_function` with no port yet. -/
def freshTcpRx (autoPortNumber hasBroker : Bool) : TcpRx :=
  { PortNumber := -1, openPortStart := -1, autoPortNumber := autoPortNumber,
    hasBroker := hasBroker, disconnecting := false, rxStatus := connection_status.startup,
    trace := [], phase := RxPhase.waiting }

/-- The message is a protocol command with sub-command `PORT_DEFINITIONS`. -/
def TcpComms.isPortDefinitions (ids : ProtocolIds) (m : ActionMessage) : Bool :=
  isProtocolCommand m && decide (m.messageID = ids.PORT_DEFINITIONS)

/-- The increments `++PortNumber` of `count` failed binds, starting above
`port`. -/
def TcpComms.retriedPorts (port : Int) : Nat → List Int
  | 0 => []
  | count + 1 => (port + 1) :: TcpComms.retriedPorts (port + 1) count

/-! ## The rx loop of the queue transport (`IpcComms::queue_rx_function`) -/

/-- Modelled from the spec: the states of the shared-memory state object
("`startup → operating → closing`"); `queue_state_t` is declared in
`IpcQueueHelper.h`, which is not among the sources. -/
inductive queue_state_t
  | startup
  | operating
  | closing
  deriving DecidableEq, Repr

/-- The effects of `IpcComms::queue_rx_function`: `rxQueue.changeState (..)`
and `ActionCallback (..)`. -/
inductive IpcRxEvent
  | changeState (state : queue_state_t)
  | callback (m : ActionMessage)
  deriving DecidableEq, Repr

/-- What `rxQueue.connect (..)` returns, and `rxQueue.getError ()`. -/
structure IpcRxEnv where
  connected : Bool
  connectError : String

/-- The local `operating` of `IpcComms::queue_rx_function`, `rx_status`, the
trace of effects, and whether the function is still in `while (1)`. -/
structure IpcRx where
  operating : Bool
  rx_status : connection_status
  trace : List IpcRxEvent
  loop : LoopState
  deriving DecidableEq, Repr

/-- The block `if (!operating) { rxQueue.changeState (queue_state_t::operating);
operating = true; }`. -/
def IpcComms.rxSetOperating (s : IpcRx) : IpcRx :=
  if s.operating = false then
    { s with trace := s.trace ++ [IpcRxEvent.changeState queue_state_t.operating],
             operating := true }
  else s

/-- One iteration of `while (1)` for the message `rxQueue.getMessage ()`
returns; `break` runs the two statements after the loop. -/
def IpcComms.rxStep (ids : ProtocolIds) (s : IpcRx) (cmd : ActionMessage) : IpcRx :=
  if cmd.action = action_t.cmd_protocol ∨ cmd.action = action_t.cmd_protocol_big then
    if cmd.index = ids.CLOSE_RECEIVER then
      { s with trace := s.trace ++ [IpcRxEvent.changeState queue_state_t.closing],
               rx_status := connection_status.terminated,
               loop := LoopState.finished }
    else if cmd.index = SET_TO_OPERATING then IpcComms.rxSetOperating s
    else s
  else
    let s1 := if cmd.action = action_t.cmd_init_grant then IpcComms.rxSetOperating s else s
    { s1 with trace := s1.trace ++ [IpcRxEvent.callback cmd] }

/-- The loop `while (1)` fed the messages read from the queue, in order. -/
def IpcComms.rxLoop (ids : ProtocolIds) : IpcRx → List ActionMessage → IpcRx
  | s, [] => s
  | s, cmd :: rest =>
    if s.loop = LoopState.running then IpcComms.rxLoop ids (IpcComms.rxStep ids s cmd) rest
    else s

/-- `void IpcComms::queue_rx_function ()`, entered with the status and trace
of `s`, fed the messages read from the queue. -/
def IpcComms.queue_rx_function (ids : ProtocolIds) (env : IpcRxEnv) (s : IpcRx)
    (messages : List ActionMessage) : IpcRx :=
  if env.connected = false then
    { s with trace := s.trace ++
               [IpcRxEvent.callback
                  { ActionMessage.ofAction action_t.cmd_error with payload := env.connectError },
                IpcRxEvent.changeState queue_state_t.closing],
             rx_status := connection_status.error,
             loop := LoopState.finished }
  else
    IpcComms.rxLoop ids
      { s with rx_status := connection_status.connected, operating := false,
               loop := LoopState.running } messages

/-- The states the shared state object was changed to, in order. -/
def IpcRxEvent.stateChanges : List IpcRxEvent → List queue_state_t
  | [] => []
  | IpcRxEvent.changeState st :: rest => st :: IpcRxEvent.stateChanges rest
  | IpcRxEvent.callback _ :: rest => IpcRxEvent.stateChanges rest

/-- The message makes the rx loop of the queue transport leave: a
`CMD_PROTOCOL` or `CMD_PROTOCOL_BIG` command with index `CLOSE_RECEIVER`. -/
def IpcComms.closesReceiver (ids : ProtocolIds) (cmd : ActionMessage) : Prop :=
  (cmd.action = action_t.cmd_protocol ∨ cmd.action = action_t.cmd_protocol_big) ∧
    cmd.index = ids.CLOSE_RECEIVER

instance IpcComms.closesReceiver.decidable (ids : ProtocolIds) (cmd : ActionMessage) :
    Decidable (IpcComms.closesReceiver ids cmd) := by
  unfold IpcComms.closesReceiver
  infer_instance

/-- The message reaches the block that sets the shared state to operating: a
`CMD_PROTOCOL` or `CMD_PROTOCOL_BIG` command with index `SET_TO_OPERATING`
(and not `CLOSE_RECEIVER`), or a `CMD_INIT_GRANT`. -/
def IpcComms.signalsOperating (ids : ProtocolIds) (cmd : ActionMessage) : Prop :=
  ((cmd.action = action_t.cmd_protocol ∨ cmd.action = action_t.cmd_protocol_big) ∧
      cmd.index ≠ ids.CLOSE_RECEIVER ∧ cmd.index = SET_TO_OPERATING) ∨
    cmd.action = action_t.cmd_init_grant

instance IpcComms.signalsOperating.decidable (ids : ProtocolIds) (cmd : ActionMessage) :
    Decidable (IpcComms.signalsOperating ids cmd) := by
  unfold IpcComms.signalsOperating
  infer_instance

/-- A receiver of the queue transport about to enter `queue_rx_function`. -/
def freshIpcRx : IpcRx :=
  { operating := false, rx_status := connection_status.startup, trace := [],
    loop := LoopState.running }

/-- A `CLOSE_RECEIVER` command with the action tag given. -/
def closeReceiverCommand (ids : ProtocolIds) (a : action_t) : ActionMessage :=
  { ActionMessage.ofAction a with messageID := ids.CLOSE_RECEIVER, index := ids.CLOSE_RECEIVER }

/-- A `SET_TO_OPERATING` command with the action tag given. -/
def setToOperatingCommand (a : action_t) : ActionMessage :=
  { ActionMessage.ofAction a with index := SET_TO_OPERATING }

/-! ## The wait for the receiver in `IpcComms::queue_tx_function` -/

/-- The effects of the start-up part of `IpcComms::queue_tx_function`:
`std::this_thread::sleep_for (std::chrono::milliseconds (n))` and
`ActionCallback (..)`. -/
inductive IpcSetupEvent
  | sleep (ms : Int)
  | callback (m : ActionMessage)
  deriving DecidableEq, Repr

/-- The local `sleep_counter`, `tx_status`, the trace of effects, and whether
the function has returned from inside the wait loop. -/
structure IpcTxWait where
  sleep_counter : Int
  tx_status : connection_status
  trace : List IpcSetupEvent
  returned : Bool
  deriving DecidableEq, Repr

/-- The message built when the receiver does not come up: `ActionMessage err
(CMD_ERROR); err.payload = "Unable to link with receiver";`. -/
def IpcComms.linkError : ActionMessage :=
  { ActionMessage.ofAction action_t.cmd_error with payload := "Unable to link with receiver" }

/-- The loop `while (rx_status == connection_status::startup)`.  `rxStatusAt k`
is the value of `rx_status`, which the rx thread writes, at loop test number
`k`; the first argument bounds the number of iterations. -/
def IpcComms.txWaitLoop (rxStatusAt : Nat → connection_status) :
    Nat → Nat → IpcTxWait → IpcTxWait
  | 0, _, s => s
  | fuel + 1, k, s =>
    if rxStatusAt k = connection_status.startup then
      if s.sleep_counter * 2 > 1700 then
        { s with trace := s.trace ++
                   [IpcSetupEvent.sleep s.sleep_counter, IpcSetupEvent.callback IpcComms.linkError],
                 sleep_counter := s.sleep_counter * 2,
                 tx_status := connection_status.error,
                 returned := true }
      else
        IpcComms.txWaitLoop rxStatusAt fuel (k + 1)
          { s with trace := s.trace ++ [IpcSetupEvent.sleep s.sleep_counter],
                   sleep_counter := s.sleep_counter * 2 }
    else s

/-- `sleep_counter = 50;` and the wait loop.  Six iterations are all the loop
can make from 50 (`txWaitLoop_fuel`). -/
def IpcComms.txWaitForReceiver (rxStatusAt : Nat → connection_status) (s : IpcTxWait) :
    IpcTxWait :=
  IpcComms.txWaitLoop rxStatusAt 6 0 { s with sleep_counter := 50 }

/-- The lengths of the sleeps in a trace, in order. -/
def IpcSetupEvent.sleeps : List IpcSetupEvent → List Int
  | [] => []
  | IpcSetupEvent.sleep ms :: rest => ms :: IpcSetupEvent.sleeps rest
  | IpcSetupEvent.callback _ :: rest => IpcSetupEvent.sleeps rest

/-- The tx loop of the queue transport about to wait for its receiver. -/
def freshIpcTxWait : IpcTxWait :=
  { sleep_counter := 50, tx_status := connection_status.startup, trace := [],
    returned := false }

/-! ## Inbound data of the stream transport (`TcpComms::dataReceive`) -/

/-- What `dataReceive` takes from outside.  Modelled from the spec:
`depacketize` "returns `(message, bytes_consumed)`" for the bytes it is offered
(`ActionMessage::depacketize` is not among the sources).  `hasCallback` is the
test `if (ActionCallback)`. -/
structure TcpRecvEnv where
  depacketize : List Nat → ActionMessage × Nat
  hasCallback : Bool

/-- The object `dataReceive` works on, the trace of its effects, and a record
of the frames it has processed, each with the byte count `depacketize`
reported for it. -/
structure TcpRecv where
  comms : TcpComms
  trace : List TcpEvent
  frames : List (ActionMessage × Nat)
  deriving DecidableEq

/-- The body of the loop of `dataReceive` after `if (used == 0) break;`, for
the frame `m`.  A `send` that throws is caught and ignored. -/
def TcpComms.receiveFrame (ids : ProtocolIds) (env : TcpRecvEnv) (connection : TcpConnection)
    (s : TcpRecv) (m : ActionMessage) (used : Nat) : TcpRecv :=
  if isProtocolCommand m = true then
    let rep := s.comms.generateReplyToIncomingMessage ids m
    if rep.1.action ≠ action_t.cmd_ignore then
      { comms := rep.2, trace := s.trace ++ [TcpEvent.send connection rep.1],
        frames := s.frames ++ [(m, used)] }
    else
      { comms := rep.2, trace := s.trace ++ [TcpEvent.rxPush m],
        frames := s.frames ++ [(m, used)] }
  else if env.hasCallback = true then
    { s with trace := s.trace ++ [TcpEvent.callback m], frames := s.frames ++ [(m, used)] }
  else { s with frames := s.frames ++ [(m, used)] }

/-- The loop `while (used_total < bytes_received)` of `dataReceive`; `data` is
the buffer of `bytes_received` bytes.  The first argument bounds the number of
iterations; `dataReceive` passes `bytes_received`, which the loop never
exhausts (`dataReceiveLoop_fuel`). -/
def TcpComms.dataReceiveLoop (ids : ProtocolIds) (env : TcpRecvEnv) (connection : TcpConnection)
    (data : List Nat) : Nat → Nat → TcpRecv → Nat × TcpRecv
  | 0, used_total, s => (used_total, s)
  | fuel + 1, used_total, s =>
    if used_total < data.length then
      if (env.depacketize (data.drop used_total)).2 = 0 then (used_total, s)
      else
        TcpComms.dataReceiveLoop ids env connection data fuel
          (used_total + (env.depacketize (data.drop used_total)).2)
          (TcpComms.receiveFrame ids env connection s
            (env.depacketize (data.drop used_total)).1
            (env.depacketize (data.drop used_total)).2)
    else (used_total, s)

/-- `size_t TcpComms::dataReceive (connection, data, bytes_received)`: the
value returned and the state afterwards. -/
def TcpComms.dataReceive (ids : ProtocolIds) (env : TcpRecvEnv) (connection : TcpConnection)
    (data : List Nat) (s : TcpRecv) : Nat × TcpRecv :=
  TcpComms.dataReceiveLoop ids env connection data data.length 0 s

/-- The frames are what successive calls of `depacketize` report from offset
`offset` on, each call starting where the previous frame ended, inside the
buffer, and reporting a count other than 0. -/
def TcpComms.framesFrom (depacketize : List Nat → ActionMessage × Nat) (data : List Nat) :
    Nat → List (ActionMessage × Nat) → Prop
  | _, [] => True
  | offset, frame :: rest =>
    offset < data.length ∧ depacketize (data.drop offset) = frame ∧ frame.2 ≠ 0 ∧
      TcpComms.framesFrom depacketize data (offset + frame.2) rest

/-- The messages handed to `ActionCallback`, in order. -/
def TcpEvent.callbacks : List TcpEvent → List ActionMessage
  | [] => []
  | TcpEvent.callback m :: rest => m :: TcpEvent.callbacks rest
  | _ :: rest => TcpEvent.callbacks rest

/-- The messages pushed onto `rxMessageQueue`, in order. -/
def TcpEvent.pushes : List TcpEvent → List ActionMessage
  | [] => []
  | TcpEvent.rxPush m :: rest => m :: TcpEvent.pushes rest
  | _ :: rest => TcpEvent.pushes rest

/-- The messages sent, with the connection each was sent on, in order. -/
def TcpEvent.sends : List TcpEvent → List (TcpConnection × ActionMessage)
  | [] => []
  | TcpEvent.send conn m :: rest => (conn, m) :: TcpEvent.sends rest
  | _ :: rest => TcpEvent.sends rest

/-- The frame is a protocol command that `generateReplyToIncomingMessage`
answers: sub-command `QUERY_PORTS` or `REQUEST_PORTS`. -/
def TcpComms.isAnswered (ids : ProtocolIds) (m : ActionMessage) : Bool :=
  isProtocolCommand m &&
    (decide (m.messageID = ids.QUERY_PORTS) || decide (m.messageID = ids.REQUEST_PORTS))

/-- A `depacketize` for examples: a frame is one length byte `n` followed by
`n - 1` bytes, the first of which tells the kind of message (1: `QUERY_PORTS`
protocol command, 2: protocol command with the unknown sub-command 99,
anything else: a data message); an incomplete frame reports 0. -/
def exampleDepacketize (ids : ProtocolIds) : List Nat → ActionMessage × Nat
  | [] => (ActionMessage.ofAction action_t.cmd_ignore, 0)
  | n :: rest =>
    if n = 0 ∨ rest.length + 1 < n then (ActionMessage.ofAction action_t.cmd_ignore, 0)
    else
      match rest.head? with
      | some 1 =>
        ({ ActionMessage.ofAction action_t.cmd_protocol with messageID := ids.QUERY_PORTS }, n)
      | some 2 => ({ ActionMessage.ofAction action_t.cmd_protocol with messageID := 99 }, n)
      | _ => ({ ActionMessage.ofAction (action_t.cmd_other 500) with source_id := n }, n)

/-- An endpoint on port 24160 about to receive data. -/
def freshTcpRecv : TcpRecv :=
  { comms := ⟨24160, -1, false, ∅⟩, trace := [], frames := [] }

/-! ## The start of the stream transport's tx loop
(`TcpComms::establishBrokerConnection` and the head of `queue_tx_function`) -/

/-- The effects of the start of `TcpComms::queue_tx_function`, in program
order. -/
inductive TcpSetupEvent
  | createBroker (target : String) (port : Int)
  | sendBroker (m : ActionMessage)
  | asyncReceive
  | sleep (ms : Int)
  | rxPush (m : ActionMessage)
  | cancel
  | logError (text : String)
  | setTxStatus (status : connection_status)
  | callback (m : ActionMessage)
  deriving DecidableEq, Repr

/-- What `establishBrokerConnection` cannot decide by itself: whether
`TcpConnection::create` throws (with the text of `e.what ()`), what
`waitUntilConnected (connectionTimeout)` returns, whether the first `send`
throws (with the text of `error.what ()`), the value of `PortNumber`, which
the rx thread assigns, at test number `k` of `while (PortNumber < 0)`, and what
`txQueue.try_pop ()` returns in poll number `k`. -/
structure BrokerEnv where
  createThrows : Bool
  createError : String
  connects : Bool
  sendThrows : Bool
  sendError : String
  portNumberAt : Nat → Int
  tryPop : Nat → Option (Int × ActionMessage)

/-- The members the start of `queue_tx_function` reads or writes, its local
`brokerConnection` (`none`: the null pointer), and the trace of effects. -/
structure TcpSetup where
  brokerTarget : String
  brokerPort : Int
  PortNumber : Int
  connectionTimeout : Int
  hasBroker : Bool
  brokerConnection : Option TcpConnection
  txStatus : connection_status
  trace : List TcpSetupEvent
  deriving DecidableEq, Repr

/-- Append effects to the trace. -/
def TcpSetup.emit (s : TcpSetup) (events : List TcpSetupEvent) : TcpSetup :=
  { s with trace := s.trace ++ events }

/-- `setTxStatus (status)`. -/
def TcpSetup.setTxStatus (s : TcpSetup) (status : connection_status) : TcpSetup :=
  { s with trace := s.trace ++ [TcpSetupEvent.setTxStatus status], txStatus := status }

/-- The handling of `auto mess = txQueue.try_pop ();` in the negotiation loop:
the state, and whether a `DISCONNECT` was popped. -/
def TcpComms.negotiationPop (ids : ProtocolIds) (s : TcpSetup)
    (mess : Option (Int × ActionMessage)) : TcpSetup × Bool :=
  match mess with
  | none => (s, false)
  | some item =>
    if isProtocolCommand item.2 = true then
      if item.2.messageID = ids.PORT_DEFINITIONS then
        (s.emit [TcpSetupEvent.rxPush item.2], false)
      else if item.2.messageID = ids.DISCONNECT then (s, true)
      else (s, false)
    else (s, false)

/-- The loop `while (PortNumber < 0)` of `establishBrokerConnection`: the
value returned when the function returns from inside the loop (`false`), or
`true` when the loop is left, and the state.  The arguments are a bound on the
number of iterations, the number of the poll, and `cumsleep`. -/
def TcpComms.negotiationLoop (ids : ProtocolIds) (env : BrokerEnv) :
    Nat → Nat → Int → TcpSetup → Bool × TcpSetup
  | 0, _, _, s => (true, s)
  | fuel + 1, k, cumsleep, s =>
    if env.portNumberAt k < 0 then
      let r := TcpComms.negotiationPop ids (s.emit [TcpSetupEvent.sleep 100]) (env.tryPop k)
      if r.2 = true then
        (false, (r.1.emit [TcpSetupEvent.cancel]).setTxStatus connection_status.terminated)
      else if cumsleep + 100 ≥ s.connectionTimeout then
        (false,
          (r.1.emit [TcpSetupEvent.cancel,
              TcpSetupEvent.logError "port number query to broker timed out"]).setTxStatus
            connection_status.terminated)
      else TcpComms.negotiationLoop ids env fuel (k + 1) (cumsleep + 100) r.1
    else (true, { s with PortNumber := env.portNumberAt k })

/-- The `REQUEST_PORTS` message sent to the broker. -/
def TcpComms.requestPortsMessage (ids : ProtocolIds) : ActionMessage :=
  { ActionMessage.ofAction action_t.cmd_protocol_priority with messageID := ids.REQUEST_PORTS }

/-- The number of polls after which the negotiation loop has certainly
returned: `cumsleep` reaches `connectionTimeout` by then. -/
def TcpComms.negotiationBound (connectionTimeout : Int) : Nat :=
  connectionTimeout.toNat / 100 + 1

/-- `bool TcpComms::establishBrokerConnection (ioserv, brokerConnection)`: the
value returned and the state afterwards. -/
def TcpComms.establishBrokerConnection (ids : ProtocolIds) (env : BrokerEnv) (s : TcpSetup) :
    Bool × TcpSetup :=
  let s0 : TcpSetup :=
    if s.brokerPort < 0 then { s with brokerPort := DEFAULT_TCP_BROKER_PORT_NUMBER } else s
  if env.createThrows = true then
    (true, s0.emit [TcpSetupEvent.logError env.createError])
  else
    let s1 : TcpSetup :=
      { s0 with brokerConnection := some ⟨0, s0.brokerTarget⟩,
                trace := s0.trace ++ [TcpSetupEvent.createBroker s0.brokerTarget s0.brokerPort] }
    if env.connects = false then
      (false,
        (s1.emit [TcpSetupEvent.logError "initial connection to broker timed out"]).setTxStatus
          connection_status.terminated)
    else if s1.PortNumber ≤ 0 then
      if env.sendThrows = true then
        (false,
          (s1.emit [TcpSetupEvent.sendBroker (TcpComms.requestPortsMessage ids),
              TcpSetupEvent.logError ("error in initial send to broker " ++ env.sendError)]
            ).setTxStatus connection_status.terminated)
      else
        TcpComms.negotiationLoop ids env (TcpComms.negotiationBound s1.connectionTimeout) 0 0
          (s1.emit [TcpSetupEvent.sendBroker (TcpComms.requestPortsMessage ids),
            TcpSetupEvent.asyncReceive])
    else (true, s1)

/-- `TcpComms::queue_tx_function` up to `while (true)`: whether the loop is
entered, and the state. -/
def TcpComms.queue_tx_setup (ids : ProtocolIds) (env : BrokerEnv) (s : TcpSetup) :
    Bool × TcpSetup :=
  let s1 : TcpSetup := if s.brokerTarget ≠ "" then { s with hasBroker := true } else s
  if s1.hasBroker = true then
    let r := TcpComms.establishBrokerConnection ids env s1
    if r.1 = false then (false, r.2)
    else (true, r.2.setTxStatus connection_status.connected)
  else
    let s2 : TcpSetup :=
      if s1.PortNumber < 0 then
        { s1 with PortNumber := DEFAULT_TCP_BROKER_PORT_NUMBER,
                  trace := s1.trace ++
                    [TcpSetupEvent.rxPush
                      { ActionMessage.ofAction action_t.cmd_protocol with
                        messageID := ids.PORT_DEFINITIONS,
                        source_handle := DEFAULT_TCP_BROKER_PORT_NUMBER }] }
      else s1
    (true, s2.setTxStatus connection_status.connected)

/-- The state in which `queue_tx_function` enters `while (true)` after its
start: `hasBroker` and the local `brokerConnection` as the start left them, an
empty route table, and the rx status `getRxStatus ()` reports. -/
def TcpSetup.enterLoop (s : TcpSetup) (rxStatus : connection_status) : TcpTx :=
  { hasBroker := s.hasBroker, brokerConnection := s.brokerConnection, routes := [],
    created := 0, rxStatus := rxStatus, txStatus := s.txStatus, trace := [],
    loop := LoopState.running }

/-- The messages handed to `ActionCallback` in a trace. -/
def TcpSetupEvent.callbacks : List TcpSetupEvent → List ActionMessage
  | [] => []
  | TcpSetupEvent.callback m :: rest => m :: TcpSetupEvent.callbacks rest
  | _ :: rest => TcpSetupEvent.callbacks rest

/-- A broker that accepts the connection and the request and never replies:
`PortNumber` stays negative and nothing is ever popped from `txQueue`. -/
def silentBroker : BrokerEnv :=
  { createThrows := false, createError := "", connects := true, sendThrows := false,
    sendError := "", portNumberAt := fun _ => -1, tryPop := fun _ => none }

/-- An endpoint with a broker target and no port, about to run
`queue_tx_function`. -/
def freshTcpSetup (connectionTimeout : Int) : TcpSetup :=
  { brokerTarget := "localhost", brokerPort := -1, PortNumber := -1,
    connectionTimeout := connectionTimeout, hasBroker := false, brokerConnection := none,
    txStatus := connection_status.startup, trace := [] }

/-- The messages handed to `ActionCallback` in a trace of the queue
transport's rx loop, in order. -/
def IpcRxEvent.callbacks : List IpcRxEvent → List ActionMessage
  | [] => []
  | IpcRxEvent.callback m :: rest => m :: IpcRxEvent.callbacks rest
  | IpcRxEvent.changeState _ :: rest => IpcRxEvent.callbacks rest

/-- The test at the head of the body of `while (1)`:
`(cmd.action () == CMD_PROTOCOL) || (cmd.action () == CMD_PROTOCOL_BIG)`. -/
def IpcComms.rxTakesForProtocol (cmd : ActionMessage) : Bool :=
  decide (cmd.action = action_t.cmd_protocol ∨ cmd.action = action_t.cmd_protocol_big)

/-- The messages `rxQueue.getMessage ()` hands to the loop before it is left:
those up to and including the first that closes the receiver. -/
def IpcComms.messagesRead (ids : ProtocolIds) : List ActionMessage → List ActionMessage
  | [] => []
  | cmd :: rest =>
    if IpcComms.closesReceiver ids cmd then [cmd] else cmd :: IpcComms.messagesRead ids rest

/-- A broker address at which `TcpConnection::create` throws. -/
def unreachableBroker : BrokerEnv :=
  { silentBroker with createThrows := true, createError := "resolve: Host not found" }

/-! ## Two-dimensional vector subscriptions (`VectorSubscription2d`) -/

/-- A subscription as the constructor of `VectorSubscription2d` obtains it:
whether `registerRequiredSubscriptionIndexed` or
`registerOptionalSubscriptionIndexed` made it, and the two indices it was made
for.  (`subscription_id_t` itself is declared outside the sources.) -/
structure subscription_id_t where
  required : Bool
  ind_x : Int
  ind_y : Int
  deriving DecidableEq, Repr

/-- The loop `for (auto ind_y = startIndex_y; ind_y < startIndex_y + count_y;
++ind_y) { ...; ids.push_back (id); }` from the value `ind_y` on, for the row
`ind_x`; `endY` is the value of `startIndex_y + count_y`, and the first
argument bounds the number of iterations. -/
def VectorSubscription2d.loopY (required : Bool) (ind_x endY : Int) :
    Nat → Int → List subscription_id_t → List subscription_id_t
  | 0, _, ids => ids
  | fuel + 1, ind_y, ids =>
    if ind_y < endY then
      VectorSubscription2d.loopY required ind_x endY fuel (toInt32 (ind_y + 1))
        (ids ++ [⟨required, ind_x, ind_y⟩])
    else ids

/-- The loop `for (auto ind_x = startIndex_x; ind_x < startIndex_x + count_x;
++ind_x)` around the loop over `ind_y`, from the value `ind_x` on; `endX` is
the value of `startIndex_x + count_x`, and the first argument bounds the number
of iterations.  The sum `startIndex_y + count_y` is one of `int`s; the inner
loop makes as many iterations as lie between `startIndex_y` and that sum. -/
def VectorSubscription2d.loopX (required : Bool) (endX startIndex_y count_y : Int) :
    Nat → Int → List subscription_id_t → List subscription_id_t
  | 0, _, ids => ids
  | fuel + 1, ind_x, ids =>
    if ind_x < endX then
      VectorSubscription2d.loopX required endX startIndex_y count_y fuel (toInt32 (ind_x + 1))
        (VectorSubscription2d.loopY required ind_x (toInt32 (startIndex_y + count_y))
          (toInt32 (startIndex_y + count_y) - startIndex_y).toNat startIndex_y ids)
    else ids

/-- The members of `VectorSubscription2d` the index arithmetic uses: `ids` and
`indices` (a `std::array<int, 4>`). -/
structure VectorSubscription2d where
  ids : List subscription_id_t
  indices : Fin 4 → Int

/-- The constructor `VectorSubscription2d (required, valueFed, name,
startIndex_x, count_x, startIndex_y, count_y, defValue, units)`: the
subscriptions pushed to `ids` by the nested loops, and `indices`.  The sum
`startIndex_x + count_x` is one of `int`s; the outer loop makes as many
iterations as lie between `startIndex_x` and that sum. -/
def VectorSubscription2d.create (required : Bool)
    (startIndex_x count_x startIndex_y count_y : Int) : VectorSubscription2d :=
  { ids := VectorSubscription2d.loopX required (toInt32 (startIndex_x + count_x)) startIndex_y
      count_y (toInt32 (startIndex_x + count_x) - startIndex_x).toNat startIndex_x [],
    indices := fun i =>
      match i with
      | 0 => startIndex_x
      | 1 => count_x
      | 2 => startIndex_y
      | 3 => count_y }

/-- The subscript of `vals` in `at (index_x, index_y)`:
`(index_x - indices[0]) * indices[3] + (index_y - indices[2])`, every operation
one on `int`. -/
def VectorSubscription2d.atIndex (v : VectorSubscription2d) (index_x index_y : Int) : Int :=
  toInt32 (toInt32 (toInt32 (index_x - v.indices 0) * v.indices 3) +
    toInt32 (index_y - v.indices 2))

/-- The subscriptions one run of the loop over `ind_y` pushes. -/
def VectorSubscription2d.row (required : Bool) (ind_x startIndex_y : Int) (n : Nat) :
    List subscription_id_t :=
  (List.range n).map (fun (k : Nat) => (⟨required, ind_x, startIndex_y + (k : Int)⟩ : subscription_id_t))

/-! ## The property setters of the stream transport (`TcpComms::loadNetworkInfo`,
`setBrokerPort`, `setPortNumber`, `setAutomaticPortStartPort`) -/

/-- The members of `NetworkBrokerData` that `TcpComms::loadNetworkInfo`
reads. -/
structure NetworkBrokerData where
  brokerPort : Int
  portNumber : Int
  portStart : Int
  reuse_address : Bool
  deriving DecidableEq, Repr

/-- The values of `interface_networks` the setters tell apart:
`interface_networks::local` and any other (the `default:` label). -/
inductive interface_networks
  | local_
  | other
  deriving DecidableEq, Repr

/-- The members of the base class `CommsInterface` that
`TcpComms::loadNetworkInfo` reads or writes. -/
structure CommsInterface where
  brokerTarget_ : String
  localTarget_ : String
  interfaceNetwork : interface_networks
  deriving DecidableEq, Repr

/-- The calls the setters make into the base class, in program order:
`CommsInterface::loadNetworkInfo (netInfo)`, `propertyLock ()` and
`propertyUnLock ()`. -/
inductive PropertyEvent
  | baseLoadNetworkInfo
  | propertyLock
  | propertyUnLock
  deriving DecidableEq, Repr

/-- What the setters take from outside `TcpComms.cpp`: the answer of
`propertyLock ()`, what `CommsInterface::loadNetworkInfo` does to the members of
the base class, and the helpers `stripProtocol` and
`generateMatchingInterfaceAddress`. -/
structure PropertyEnv where
  propertyLock : Bool
  baseLoadNetworkInfo : NetworkBrokerData → CommsInterface → CommsInterface
  stripProtocol : String → String
  generateMatchingInterfaceAddress : String → interface_networks → String

/-- The members the setters of `TcpComms` write, the base-class members they
use, and the trace of their calls into the base class. -/
structure TcpProperties where
  base : CommsInterface
  brokerPort : Int
  PortNumber : Int
  openPortStart : Int
  autoPortNumber : Bool
  reuse_address : Bool
  trace : List PropertyEvent
  deriving DecidableEq, Repr

/-- The value given to `localTarget_` by `TcpComms::loadNetworkInfo`, from the
stripped `brokerTarget_`. -/
def TcpComms.chooseLocalTarget (env : PropertyEnv) (base : CommsInterface) : String :=
  if base.localTarget_ = "" then
    if base.brokerTarget_ = "127.0.0.1" ∨ base.brokerTarget_ = "localhost" then "localhost"
    else if base.brokerTarget_ = "" then
      match base.interfaceNetwork with
      | interface_networks.local_ => "localhost"
      | _ => "*"
    else env.generateMatchingInterfaceAddress base.brokerTarget_ base.interfaceNetwork
  else env.stripProtocol base.localTarget_

/-- `void TcpComms::loadNetworkInfo (const NetworkBrokerData &netInfo)`. -/
def TcpComms.loadNetworkInfo (env : PropertyEnv) (netInfo : NetworkBrokerData)
    (c : TcpProperties) : TcpProperties :=
  let c0 : TcpProperties :=
    { c with base := env.baseLoadNetworkInfo netInfo c.base,
             trace := c.trace ++ [PropertyEvent.baseLoadNetworkInfo, PropertyEvent.propertyLock] }
  if env.propertyLock = false then c0
  else
    let stripped : CommsInterface :=
      { c0.base with brokerTarget_ := env.stripProtocol c0.base.brokerTarget_ }
    { c0 with
      brokerPort := netInfo.brokerPort,
      PortNumber := netInfo.portNumber,
      base := { stripped with localTarget_ := TcpComms.chooseLocalTarget env stripped },
      openPortStart := if netInfo.portStart > 0 then netInfo.portStart else c0.openPortStart,
      autoPortNumber := if netInfo.portNumber > 0 then false else c0.autoPortNumber,
      reuse_address := netInfo.reuse_address,
      trace := c0.trace ++ [PropertyEvent.propertyUnLock] }

/-- `void TcpComms::setBrokerPort (int brokerPortNumber)`. -/
def TcpComms.setBrokerPort (env : PropertyEnv) (brokerPortNumber : Int) (c : TcpProperties) :
    TcpProperties :=
  if env.propertyLock = true then
    { c with brokerPort := brokerPortNumber,
             trace := c.trace ++ [PropertyEvent.propertyLock, PropertyEvent.propertyUnLock] }
  else { c with trace := c.trace ++ [PropertyEvent.propertyLock] }

/-- `void TcpComms::setPortNumber (int localPortNumber)`. -/
def TcpComms.setPortNumber (env : PropertyEnv) (localPortNumber : Int) (c : TcpProperties) :
    TcpProperties :=
  if env.propertyLock = true then
    { c with PortNumber := localPortNumber,
             autoPortNumber := if localPortNumber > 0 then false else c.autoPortNumber,
             trace := c.trace ++ [PropertyEvent.propertyLock, PropertyEvent.propertyUnLock] }
  else { c with trace := c.trace ++ [PropertyEvent.propertyLock] }

/-- `void TcpComms::setAutomaticPortStartPort (int startingPort)`. -/
def TcpComms.setAutomaticPortStartPort (env : PropertyEnv) (startingPort : Int)
    (c : TcpProperties) : TcpProperties :=
  if env.propertyLock = true then
    { c with openPortStart := startingPort,
             trace := c.trace ++ [PropertyEvent.propertyLock, PropertyEvent.propertyUnLock] }
  else { c with trace := c.trace ++ [PropertyEvent.propertyLock] }

/-- The five members the property lock guards in `TcpComms`. -/
def TcpProperties.guarded (c : TcpProperties) : Int × Int × Int × Bool × Bool :=
  (c.brokerPort, c.PortNumber, c.openPortStart, c.autoPortNumber, c.reuse_address)

/-- The number of calls of `propertyUnLock ()` in a trace. -/
def PropertyEvent.unlocks (trace : List PropertyEvent) : Nat :=
  trace.count PropertyEvent.propertyUnLock

/-- The helpers and the base-class loader of an endpoint whose addresses carry
no protocol prefix: all three leave their argument as it is. -/
def plainProperties (lock : Bool) : PropertyEnv :=
  { propertyLock := lock, baseLoadNetworkInfo := fun _ base => base,
    stripProtocol := fun target => target,
    generateMatchingInterfaceAddress := fun target _ => target }

/-- A newly constructed `TcpComms`, with the broker address given. -/
def freshTcpProperties (brokerTarget : String) : TcpProperties :=
  { base := { brokerTarget_ := brokerTarget, localTarget_ := "",
              interfaceNetwork := interface_networks.local_ },
    brokerPort := -1, PortNumber := -1, openPortStart := -1, autoPortNumber := true,
    reuse_address := false, trace := [] }

/-! ## Delayed destruction (`DelayedDestructor`) -/

/-- The effects of `DelayedDestructor`, in program order: a call of
`destroyObjects ()`, `destructionLock` taken and released, `deleteFunc (element)`
for the object an element points to, `ElementsToBeDestroyed.size ()` read for
the value returned, `std::this_thread::sleep_for` and
`std::this_thread::yield`. -/
inductive DestructorEvent
  | destroyObjects
  | lock
  | unlock
  | callBeforeDelete (object : Nat)
  | size (count : Nat)
  | sleep (ms : Int)
  | yield
  deriving DecidableEq, Repr

/-- What the rest of the program does to the objects held: `use_count t x` is
the number of `shared_ptr` that own the object `x` (the one in
`ElementsToBeDestroyed` included, the copies local to `destroyObjects ()` left
out) at the moment the counts are read for the `t`-th time, `isTripped t` is
what `tripDetect.isTripped ()` answers after `t` such reads, and `added t` are
the objects handed over with `addObjectsToBeDestroyed` (by other threads, or by
the hook) between `lock.unlock ()` and `lock.lock ()` of the scan that read the
counts for the `t`-th time first, in the order they were pushed. -/
structure Holders where
  use_count : Nat → Nat → Nat
  isTripped : Nat → Bool
  added : Nat → List Nat

/-- The members of `DelayedDestructor<X>`: the elements, each a `shared_ptr`
given by the number of the object it points to, whether
`callBeforeDeleteFunction` holds a function, the number of times the counts
have been read, and the trace of effects. -/
structure DelayedDestructor where
  ElementsToBeDestroyed : List Nat
  callBeforeDeleteFunction : Bool
  reads : Nat
  trace : List DestructorEvent
  deriving DecidableEq, Repr

/-- The loop `for (auto &element : ElementsToBeDestroyed) { if
(element.use_count () == 1) { ecall.push_back (element); } }` over the elements
left, with the `ecall` built so far: a copy in `ecall` adds one to the count of
its object. -/
def DelayedDestructor.collect (w : Holders) (t : Nat) : List Nat → List Nat → List Nat
  | [], ecall => ecall
  | element :: rest, ecall =>
    if w.use_count t element + ecall.count element = 1 then
      DelayedDestructor.collect w t rest (ecall ++ [element])
    else DelayedDestructor.collect w t rest ecall

/-- `size_t destroyObjects ()`: the value returned and the state afterwards.
`std::remove_if` with `erase` keeps, in order, the elements whose count is not
`<= 1`; the copies in `ecall` still count then.  While the lock is released
for the calls of the hook, `addObjectsToBeDestroyed` pushes what is handed over
to the back of the elements. -/
def DelayedDestructor.destroyObjects (w : Holders) (d : DelayedDestructor) :
    Nat × DelayedDestructor :=
  if d.ElementsToBeDestroyed ≠ [] then
    let ecall := DelayedDestructor.collect w d.reads d.ElementsToBeDestroyed []
    let kept := d.ElementsToBeDestroyed.filter
      (fun element => !decide (w.use_count (d.reads + 1) element + ecall.count element ≤ 1))
    let after := kept ++ w.added d.reads
    (after.length,
      { d with
        ElementsToBeDestroyed := after,
        reads := d.reads + 2,
        trace := d.trace ++
          [DestructorEvent.destroyObjects, DestructorEvent.lock, DestructorEvent.unlock] ++
          (if d.callBeforeDeleteFunction = true then ecall.map DestructorEvent.callBeforeDelete
           else []) ++
          [DestructorEvent.lock, DestructorEvent.size after.length, DestructorEvent.unlock] })
  else
    (0,
      { d with
        trace := d.trace ++
          [DestructorEvent.destroyObjects, DestructorEvent.lock, DestructorEvent.size 0,
           DestructorEvent.unlock] })

/-- The loop of `~DelayedDestructor ()` from the test `while
(!ElementsToBeDestroyed.empty ())` on, with the value of `ii`: the final `ii`
and state, or `none` when the bound on the number of tests (the first
argument) is used up. -/
def DelayedDestructor.destructorLoop (w : Holders) :
    Nat → Int → DelayedDestructor → Option (Int × DelayedDestructor)
  | 0, _, _ => none
  | fuel + 1, ii, d =>
    if d.ElementsToBeDestroyed ≠ [] then
      let d1 := (DelayedDestructor.destroyObjects w d).2
      if d1.ElementsToBeDestroyed ≠ [] then
        if w.isTripped d1.reads = true then some (ii + 1, d1)
        else if ii + 1 > 4 then some (ii + 1, (DelayedDestructor.destroyObjects w d1).2)
        else if (ii + 1) % 2 = 0 then
          DelayedDestructor.destructorLoop w fuel (ii + 1)
            { d1 with trace := d1.trace ++ [DestructorEvent.sleep 100] }
        else
          DelayedDestructor.destructorLoop w fuel (ii + 1)
            { d1 with trace := d1.trace ++ [DestructorEvent.yield] }
      else DelayedDestructor.destructorLoop w fuel (ii + 1) d1
    else some (ii, d)

/-- The body of `~DelayedDestructor ()`: the final `ii` and the state when it
returns; six loop tests are allowed. -/
def DelayedDestructor.destructor (w : Holders) (d : DelayedDestructor) :
    Option (Int × DelayedDestructor) :=
  DelayedDestructor.destructorLoop w 6 0 d

/-- The loop `while ((!ElementsToBeDestroyed.empty ()) && (cnt < delayCount))`
of `destroyObjects (delay)` from its test on, with the value of `cnt`: the state
when the loop is left, or `none` when the bound on the number of tests (the
first argument) is used up. -/
def DelayedDestructor.timedLoop (w : Holders) (delayTime delayCount : Int) :
    Nat → Int → DelayedDestructor → Option DelayedDestructor
  | 0, _, _ => none
  | fuel + 1, cnt, d =>
    if d.ElementsToBeDestroyed ≠ [] ∧ cnt < delayCount then
      let d1 : DelayedDestructor :=
        if cnt > 0 then
          { d with trace := d.trace ++
              [DestructorEvent.unlock, DestructorEvent.sleep delayTime, DestructorEvent.lock] }
        else d
      let d2 : DelayedDestructor :=
        if d1.ElementsToBeDestroyed ≠ [] then
          let r := (DelayedDestructor.destroyObjects w
            { d1 with trace := d1.trace ++ [DestructorEvent.unlock] }).2
          { r with trace := r.trace ++ [DestructorEvent.lock] }
        else d1
      DelayedDestructor.timedLoop w delayTime delayCount fuel (cnt + 1) d2
    else some d

/-- The value given to `delayTime` for a delay in milliseconds. -/
def DelayedDestructor.delayTime (delay : Int) : Int :=
  if delay < 100 then delay else 50

/-- The value given to `delayCount` for a delay in milliseconds. -/
def DelayedDestructor.delayCount (delay : Int) : Int :=
  if delay < 100 then 1 else toInt32 (delay / 50)

/-- `size_t destroyObjects (std::chrono::milliseconds delay)`, with the delay in
milliseconds: the value returned and the state afterwards. -/
def DelayedDestructor.destroyObjectsDelay (w : Holders) (delay : Int) (d : DelayedDestructor) :
    Option (Nat × DelayedDestructor) :=
  match DelayedDestructor.timedLoop w (DelayedDestructor.delayTime delay)
      (DelayedDestructor.delayCount delay) ((DelayedDestructor.delayCount delay).toNat + 1) 0
      { d with trace := d.trace ++ [DestructorEvent.lock] } with
  | none => none
  | some r =>
    some (r.ElementsToBeDestroyed.length,
      { r with trace := r.trace ++
          [DestructorEvent.size r.ElementsToBeDestroyed.length, DestructorEvent.unlock] })

/-- Whether every `deleteFunc (element)` of a trace is made with
`destructionLock` released and every `size ()` is read with it held, given
whether the lock is held at the start. -/
def DestructorEvent.disciplined : Bool → List DestructorEvent → Bool
  | _, [] => true
  | held, DestructorEvent.lock :: rest => !held && DestructorEvent.disciplined true rest
  | held, DestructorEvent.unlock :: rest => held && DestructorEvent.disciplined false rest
  | held, DestructorEvent.callBeforeDelete _ :: rest =>
    !held && DestructorEvent.disciplined held rest
  | held, DestructorEvent.size _ :: rest => held && DestructorEvent.disciplined held rest
  | held, _ :: rest => DestructorEvent.disciplined held rest

/-- The number of calls of `destroyObjects ()` in a trace. -/
def DestructorEvent.scans (trace : List DestructorEvent) : Nat :=
  trace.count DestructorEvent.destroyObjects

/-- The sleeps and yields of a trace, in order. -/
def DestructorEvent.waits : List DestructorEvent → List DestructorEvent
  | [] => []
  | DestructorEvent.sleep ms :: rest => DestructorEvent.sleep ms :: DestructorEvent.waits rest
  | DestructorEvent.yield :: rest => DestructorEvent.yield :: DestructorEvent.waits rest
  | _ :: rest => DestructorEvent.waits rest

/-- The scans and sleeps of a trace, in order. -/
def DestructorEvent.schedule : List DestructorEvent → List DestructorEvent
  | [] => []
  | DestructorEvent.sleep ms :: rest => DestructorEvent.sleep ms :: DestructorEvent.schedule rest
  | DestructorEvent.destroyObjects :: rest =>
    DestructorEvent.destroyObjects :: DestructorEvent.schedule rest
  | _ :: rest => DestructorEvent.schedule rest

/-- The milliseconds slept in a trace. -/
def DestructorEvent.sleepTotal : List DestructorEvent → Int
  | [] => 0
  | DestructorEvent.sleep ms :: rest => ms + DestructorEvent.sleepTotal rest
  | _ :: rest => DestructorEvent.sleepTotal rest

/-- A sleep of `delayTime` and a scan, `n` times over. -/
def DelayedDestructor.slices (delayTime : Int) : Nat → List DestructorEvent
  | 0 => []
  | n + 1 =>
    DestructorEvent.sleep delayTime :: DestructorEvent.destroyObjects ::
      DelayedDestructor.slices delayTime n

/-- A run of `n` scans with a sleep of `delayTime` before each but the
first. -/
def DelayedDestructor.timedSchedule (delayTime : Int) : Nat → List DestructorEvent
  | 0 => []
  | n + 1 => DestructorEvent.destroyObjects :: DelayedDestructor.slices delayTime n

/-- A program in which nothing but the `DelayedDestructor` owns any object,
the tripwire is not tripped, and nothing is handed over during a scan. -/
def soleHolder : Holders :=
  { use_count := fun _ _ => 1, isTripped := fun _ => false, added := fun _ => [] }

/-- A program in which the objects with an odd number are owned elsewhere too
until the counts have been read `release` times, the tripwire is tripped from
read number `trip` on, and nothing is handed over during a scan. -/
def oddHeldUntil (release trip : Nat) : Holders :=
  { use_count := fun t x => if x % 2 = 1 ∧ t < release then 2 else 1,
    isTripped := fun t => decide (trip ≤ t),
    added := fun _ => [] }

/-- A program in which every object is owned elsewhere too, the tripwire is not
tripped, and another thread hands over the objects given, with
`addObjectsToBeDestroyed`, during the first scan. -/
def handingOver (objects : List Nat) : Holders :=
  { use_count := fun _ _ => 2, isTripped := fun _ => false,
    added := fun t => if t = 0 then objects else [] }

/-- A `DelayedDestructor` that has been handed the objects given. -/
def holding (objects : List Nat) (hook : Bool) : DelayedDestructor :=
  { ElementsToBeDestroyed := objects, callBeforeDeleteFunction := hook, reads := 0, trace := [] }

/-- The waits between the scans of `~DelayedDestructor ()` when no scan empties
the list: a yield after the first and third, a sleep of 100 ms after the
second and fourth. -/
def DelayedDestructor.backoff : List DestructorEvent :=
  [DestructorEvent.yield, DestructorEvent.sleep 100, DestructorEvent.yield,
   DestructorEvent.sleep 100]

/-! ## Port allocation: lemmas -/

/-- An exact result within the range of `int` is not changed by the
wrap-around. -/
theorem toInt32_of_range (x : Int) (h1 : -2147483648 ≤ x) (h2 : x ≤ 2147483647) :
    toInt32 x = x := by
  unfold toInt32
  omega

/-- The wrapped value is in the range of `int`. -/
theorem toInt32_range (x : Int) : -2147483648 ≤ toInt32 x ∧ toInt32 x ≤ 2147483647 := by
  unfold toInt32
  omega

/-- What the loop computes while some port from `start` up to the largest
`int` is free: no increment overflows, and the result is the least free port
from `start` on. -/
theorem findOpenPortLoop_spec (used : Finset Int) (q : Int) (hq : q ∉ used)
    (hmax : q ≤ 2147483647) :
    ∀ (fuel : Nat) (start : Int),
      -2147483648 ≤ start → start ≤ q →
      (used.filter (fun x => start ≤ x)).card ≤ fuel →
      start ≤ findOpenPortLoop used fuel start ∧
      findOpenPortLoop used fuel start ≤ q ∧
      findOpenPortLoop used fuel start ∉ used ∧
      ∀ p, start ≤ p → p < findOpenPortLoop used fuel start → p ∈ used := by
  intro fuel
  induction fuel with
  | zero =>
    intro start _ hsq h
    have hempty : used.filter (fun x => start ≤ x) = ∅ :=
      Finset.card_eq_zero.mp (Nat.le_zero.mp h)
    have hnot : start ∉ used := by
      intro hm
      have : start ∈ used.filter (fun x => start ≤ x) :=
        Finset.mem_filter.mpr ⟨hm, le_refl _⟩
      rw [hempty] at this
      exact absurd this (Finset.not_mem_empty _)
    refine ⟨le_refl _, hsq, hnot, ?_⟩
    intro p h1 h2
    simp only [findOpenPortLoop] at h2
    omega
  | succ n ih =>
    intro start hmin hsq h
    by_cases hm : start ∈ used
    · have hne : start ≠ q := fun e => hq (e ▸ hm)
      have hnext : toInt32 (start + 1) = start + 1 :=
        toInt32_of_range _ (by omega) (by omega)
      have hsub : used.filter (fun x => start + 1 ≤ x)
          ⊂ used.filter (fun x => start ≤ x) := by
        refine (Finset.ssubset_iff_of_subset ?_).mpr ⟨start, ?_, ?_⟩
        · intro x hx
          rw [Finset.mem_filter] at hx ⊢
          exact ⟨hx.1, by omega⟩
        · exact Finset.mem_filter.mpr ⟨hm, le_refl _⟩
        · intro hx
          have := (Finset.mem_filter.mp hx).2
          omega
      have hcard := Finset.card_lt_card hsub
      have hih := ih (start + 1) (by omega) (by omega) (by omega)
      have e : findOpenPortLoop used (n + 1) start = findOpenPortLoop used n (start + 1) := by
        simp only [findOpenPortLoop, hm, if_true, hnext]
      rw [e]
      refine ⟨by omega, hih.2.1, hih.2.2.1, ?_⟩
      intro p h1 h2
      by_cases hp : p = start
      · rw [hp]; exact hm
      · exact hih.2.2.2 p (by omega) h2
    · have e : findOpenPortLoop used (n + 1) start = start := by
        simp only [findOpenPortLoop, hm, if_false]
      rw [e]
      refine ⟨le_refl _, hsq, hm, ?_⟩
      intro p h1 h2
      omega

/-- One increment of the local `start`. -/
theorem portVisited_succ (start : Int) (k : Nat) :
    toInt32 (portVisited start k + 1) = portVisited start (k + 1) := by
  unfold portVisited
  by_cases hk : k = 0
  · subst hk
    simp
  · rw [if_neg hk, if_neg (Nat.succ_ne_zero k)]
    unfold toInt32
    push_cast
    omega

/-- Fewer than 2^32 successive values of the local `start` are pairwise
distinct. -/
theorem portVisited_injective (start : Int) (i j : Nat) (hij : i < j) (hj : j < 4294967296) :
    portVisited start i ≠ portVisited start j := by
  unfold portVisited
  have hj0 : ¬ j = 0 := by omega
  rw [if_neg hj0]
  by_cases hi : i = 0
  · rw [if_pos hi]
    unfold toInt32
    omega
  · rw [if_neg hi]
    unfold toInt32
    omega

/-- The loop walks through the successive values of `start` and stops at the
first that is not in use, or when the bound is used up. -/
theorem findOpenPortLoop_walk (used : Finset Int) (start : Int) :
    ∀ (fuel k : Nat),
      ∃ j, k ≤ j ∧ j ≤ k + fuel ∧
        findOpenPortLoop used fuel (portVisited start k) = portVisited start j ∧
        (∀ i, k ≤ i → i < j → portVisited start i ∈ used) ∧
        (j < k + fuel → portVisited start j ∉ used) := by
  intro fuel
  induction fuel with
  | zero =>
    intro k
    exact ⟨k, le_refl _, le_refl _, rfl, fun i h1 h2 => by omega, fun h => by omega⟩
  | succ n ih =>
    intro k
    by_cases hm : portVisited start k ∈ used
    · obtain ⟨j, h1, h2, h3, h4, h5⟩ := ih (k + 1)
      refine ⟨j, by omega, by omega, ?_, ?_, fun h => h5 (by omega)⟩
      · simp only [findOpenPortLoop, hm, if_true, portVisited_succ]
        exact h3
      · intro i hi1 hi2
        by_cases hik : i = k
        · rw [hik]; exact hm
        · exact h4 i (by omega) hi2
    · refine ⟨k, le_refl _, by omega, ?_, fun i h1 h2 => by omega, fun _ => hm⟩
      simp only [findOpenPortLoop, hm, if_false]

/-- While fewer than 2^32 ports are in use, the bound `findOpenPort` passes is
not used up: the loop returns a port that is not in use. -/
theorem findOpenPortLoop_fresh (used : Finset Int) (start : Int)
    (hroom : used.card < 4294967296) :
    findOpenPortLoop used (used.card + 1) start ∉ used := by
  obtain ⟨j, _, h2, h3, h4, h5⟩ := findOpenPortLoop_walk used start (used.card + 1) 0
  have h0 : portVisited start 0 = start := by simp [portVisited]
  rw [h0] at h3
  rw [h3]
  by_contra hin
  have hj : j = used.card + 1 := by
    by_contra hne
    exact h5 (by omega) hin
  have hall : ∀ i ∈ Finset.range (used.card + 1), portVisited start i ∈ used := by
    intro i hi
    rw [Finset.mem_range] at hi
    exact h4 i (Nat.zero_le _) (by omega)
  have hinj : Set.InjOn (portVisited start) (Finset.range (used.card + 1) : Set Nat) := by
    intro a ha b hb hab
    have ha2 : a < used.card + 1 := by simpa using ha
    have hb2 : b < used.card + 1 := by simpa using hb
    by_contra hne
    rcases Nat.lt_or_gt_of_ne hne with hlt | hgt
    · exact portVisited_injective start a b hlt (by omega) hab
    · exact portVisited_injective start b a hgt (by omega) hab.symm
  have hcard := Finset.card_le_card_of_injOn (portVisited start) hall hinj
  rw [Finset.card_range] at hcard
  omega

/-- The local `start` of `findOpenPort` is never negative before the loop. -/
theorem initialStart_nonneg (c : TcpComms) : 0 ≤ c.initialStart := by
  unfold TcpComms.initialStart BEGIN_OPEN_PORT_RANGE_SUBBROKER BEGIN_OPEN_PORT_RANGE
  split_ifs <;> omega

/-- The result of `findOpenPort` while some port `q` from the initial `start`
up to the largest `int` is free. -/
theorem findOpenPort_loop_result (c : TcpComms) (q : Int) (hq : q ∉ c.usedPortNumbers)
    (hstart : c.initialStart ≤ q) (hmax : q ≤ 2147483647) :
    c.initialStart ≤ c.findOpenPort.1 ∧
    c.findOpenPort.1 ≤ q ∧
    c.findOpenPort.1 ∉ c.usedPortNumbers ∧
    ∀ p, c.initialStart ≤ p → p < c.findOpenPort.1 → p ∈ c.usedPortNumbers := by
  have hf : (c.usedPortNumbers.filter (fun x => c.initialStart ≤ x)).card
      ≤ c.usedPortNumbers.card := Finset.card_le_card (Finset.filter_subset _ _)
  have h0 := initialStart_nonneg c
  exact findOpenPortLoop_spec c.usedPortNumbers q hq hmax (c.usedPortNumbers.card + 1)
    c.initialStart (by omega) hstart (by omega)

/-- While fewer than 2^32 ports are in use, `findOpenPort` returns a port that
is not in use. -/
theorem findOpenPort_fresh (c : TcpComms) (hroom : c.usedPortNumbers.card < 4294967296) :
    c.findOpenPort.1 ∉ c.usedPortNumbers :=
  findOpenPortLoop_fresh c.usedPortNumbers c.initialStart hroom

theorem findOpenPort_used (c : TcpComms) :
    c.findOpenPort.2.usedPortNumbers = insert c.findOpenPort.1 c.usedPortNumbers := rfl

theorem findOpenPort_settings (c : TcpComms) :
    c.findOpenPort.2.openPortStart = c.openPortStart ∧
    c.findOpenPort.2.hasBroker = c.hasBroker ∧
    c.findOpenPort.2.PortNumber = c.PortNumber := ⟨rfl, rfl, rfl⟩

/-- Every call of a sequence starts from a superset of the set the sequence
started from, and, while the set has room, returns a port outside the set it
started from. -/
theorem findOpenPortCalls_fresh (settings : List (Int × Bool)) :
    ∀ (c : TcpComms) (call : PortCall),
      c.usedPortNumbers.card + settings.length ≤ 4294967296 →
      call ∈ (c.findOpenPortCalls settings).1 →
      c.usedPortNumbers ⊆ call.usedBefore ∧ call.port ∉ call.usedBefore := by
  induction settings with
  | nil => intro c call _ h; simp [TcpComms.findOpenPortCalls] at h
  | cons s rest ih =>
    intro c call hroom h
    obtain ⟨ops, hb⟩ := s
    simp only [List.length_cons] at hroom
    simp only [TcpComms.findOpenPortCalls, List.mem_cons] at h
    rcases h with h | h
    · subst h
      exact ⟨Finset.Subset.refl _,
        findOpenPort_fresh { c with openPortStart := ops, hasBroker := hb } (by
          show c.usedPortNumbers.card < 4294967296
          omega)⟩
    · have hcard : (TcpComms.findOpenPort
          { c with openPortStart := ops, hasBroker := hb }).2.usedPortNumbers.card
          ≤ c.usedPortNumbers.card + 1 := by
        rw [findOpenPort_used]
        exact Finset.card_insert_le _ _
      obtain ⟨h1, h2⟩ := ih _ call (by omega) h
      refine ⟨?_, h2⟩
      intro x hx
      apply h1
      rw [findOpenPort_used]
      exact Finset.mem_insert_of_mem hx

/-! ## Port allocation: the claims -/

/-- C1: for every initial in-use set and every sequence of `findOpenPort`
calls on one endpoint, whatever `openPortStart` and `hasBroker` are at each
call, every call returns, the returned ports are pairwise distinct, and none of
them was in the in-use set before the call that returned it (nor in the initial
set).  The set is taken to have room for the calls: with all 2^32 values of
`int` in use the loop of `findOpenPort` never ends and no port is returned. -/
theorem C1_findOpenPort_never_repeats (c : TcpComms) (settings : List (Int × Bool))
    (hroom : c.usedPortNumbers.card + settings.length ≤ 4294967296) :
    (c.findOpenPortCalls settings).1.length = settings.length ∧
    ((c.findOpenPortCalls settings).1.map PortCall.port).Nodup ∧
    ∀ call ∈ (c.findOpenPortCalls settings).1,
      call.port ∉ call.usedBefore ∧ call.port ∉ c.usedPortNumbers := by
  refine ⟨?_, ?_, ?_⟩
  · clear hroom
    induction settings generalizing c with
    | nil => rfl
    | cons s rest ih =>
      obtain ⟨ops, hb⟩ := s
      simp only [TcpComms.findOpenPortCalls, List.length_cons, ih]
  · induction settings generalizing c with
    | nil => simp [TcpComms.findOpenPortCalls]
    | cons s rest ih =>
      obtain ⟨ops, hb⟩ := s
      simp only [List.length_cons] at hroom
      have hcard : (TcpComms.findOpenPort
          { c with openPortStart := ops, hasBroker := hb }).2.usedPortNumbers.card
          ≤ c.usedPortNumbers.card + 1 := by
        rw [findOpenPort_used]
        exact Finset.card_insert_le _ _
      simp only [TcpComms.findOpenPortCalls, List.map_cons, List.nodup_cons]
      refine ⟨?_, ih _ (by omega)⟩
      intro hmem
      obtain ⟨call, hcall, hport⟩ := List.mem_map.mp hmem
      obtain ⟨h1, h2⟩ := findOpenPortCalls_fresh rest _ call (by omega) hcall
      apply h2
      apply h1
      rw [findOpenPort_used, hport]
      exact Finset.mem_insert_self _ _
  · intro call hcall
    obtain ⟨h1, h2⟩ := findOpenPortCalls_fresh settings c call hroom hcall
    exact ⟨h2, fun hin => h2 (h1 hin)⟩

/-- C1 at a concrete input: three calls on an endpoint that already handed out
24228, the second made as a sub-broker and the third with `openPortStart` set
to 24228, return 24229, 24328 and 24230. -/
theorem C1_findOpenPort_never_repeats_witness :
    ((TcpComms.findOpenPortCalls ⟨24160, -1, false, {24228}⟩
        [(-1, false), (-1, true), (24228, false)]).1.map PortCall.port).Nodup ∧
    (TcpComms.findOpenPortCalls ⟨24160, -1, false, {24228}⟩
        [(-1, false), (-1, true), (24228, false)]).1.map PortCall.port
      = [24229, 24328, 24230] :=
  ⟨(C1_findOpenPort_never_repeats ⟨24160, -1, false, {24228}⟩
      [(-1, false), (-1, true), (24228, false)] (by decide)).2.1,
   by decide⟩

/-- C2, as the claim states it, fails at the top of the range of `int`: with
`openPortStart` 2147483647 and that port in use, `++start` wraps around and
`findOpenPort` returns -2147483648, which is below `start`. -/
theorem C2_findOpenPort_least_free_counterexample :
    TcpComms.initialStart ⟨24160, 2147483647, false, {2147483647}⟩ = 2147483647 ∧
    (TcpComms.findOpenPort ⟨24160, 2147483647, false, {2147483647}⟩).1 = -2147483648 ∧
    ¬ (TcpComms.initialStart ⟨24160, 2147483647, false, {2147483647}⟩ ≤
        (TcpComms.findOpenPort ⟨24160, 2147483647, false, {2147483647}⟩).1) := by
  decide

/-- C2, amended: when some port `q` from `start` up to 2147483647 is not in
`usedPortNumbers`, `findOpenPort` returns the smallest port `p >= start` that
is not in `usedPortNumbers`, where `start` is `openPortStart` when
`openPortStart >= 0` and otherwise 24328 if the endpoint has a broker and 24228
if it has none; afterwards `usedPortNumbers` is exactly the old set plus `p`
(the other members are untouched).  With an empty set and a negative
`openPortStart` it returns 24228 for a top-level endpoint and 24328 for a
sub-broker. -/
theorem C2_findOpenPort_least_free (c : TcpComms) (q : Int)
    (hq : q ∉ c.usedPortNumbers) (hstart : c.initialStart ≤ q) (hmax : q ≤ 2147483647) :
    (c.initialStart =
      if 0 ≤ c.openPortStart then c.openPortStart
      else if c.hasBroker = true then 24328 else 24228) ∧
    c.initialStart ≤ c.findOpenPort.1 ∧
    c.findOpenPort.1 ∉ c.usedPortNumbers ∧
    (∀ p, c.initialStart ≤ p → p ∉ c.usedPortNumbers → c.findOpenPort.1 ≤ p) ∧
    c.findOpenPort.2 = { c with usedPortNumbers := insert c.findOpenPort.1 c.usedPortNumbers } ∧
    (∀ pn ops : Int, ops < 0 →
      (TcpComms.findOpenPort ⟨pn, ops, false, ∅⟩).1 = 24228 ∧
      (TcpComms.findOpenPort ⟨pn, ops, true, ∅⟩).1 = 24328) := by
  obtain ⟨h1, _, h2, h3⟩ := findOpenPort_loop_result c q hq hstart hmax
  refine ⟨?_, h1, h2, ?_, rfl, ?_⟩
  · unfold TcpComms.initialStart BEGIN_OPEN_PORT_RANGE_SUBBROKER BEGIN_OPEN_PORT_RANGE
    by_cases h : c.openPortStart < 0
    · have h0 : ¬ (0 ≤ c.openPortStart) := by omega
      simp only [h, h0, if_true, if_false]
    · have h0 : 0 ≤ c.openPortStart := by omega
      simp only [h, h0, if_true, if_false]
  · intro p hp hnot
    by_contra hlt
    exact hnot (h3 p hp (by omega))
  · intro pn ops hops
    simp [TcpComms.findOpenPort, TcpComms.initialStart, findOpenPortLoop, hops,
      BEGIN_OPEN_PORT_RANGE_SUBBROKER, BEGIN_OPEN_PORT_RANGE]

/-- C2 (amended) at a concrete input: with 24228 and 24229 in use and port
24231 free, a top-level endpoint gets 24230, the least free port. -/
theorem C2_findOpenPort_least_free_witness :
    (TcpComms.findOpenPort ⟨24160, -1, false, {24228, 24229}⟩).1 = 24230 ∧
    (∀ p, TcpComms.initialStart ⟨24160, -1, false, {24228, 24229}⟩ ≤ p →
      p ∉ ({24228, 24229} : Finset Int) →
      (TcpComms.findOpenPort ⟨24160, -1, false, {24228, 24229}⟩).1 ≤ p) :=
  ⟨by decide,
   (C2_findOpenPort_least_free ⟨24160, -1, false, {24228, 24229}⟩ 24231
      (by decide) (by decide) (by decide)).2.2.2.1⟩

/-- C3, as the claim states it, fails at the top of the range of `int`: with
`openPortStart` 2147483647 and nothing in use, the first call returns
2147483647 and the second, after `++start` has wrapped around, returns
-2147483648. -/
theorem C3_findOpenPort_monotonic_counterexample :
    (TcpComms.findOpenPort ⟨24160, 2147483647, false, ∅⟩).1 = 2147483647 ∧
    (TcpComms.findOpenPort
      (TcpComms.findOpenPort ⟨24160, 2147483647, false, ∅⟩).2).1 = -2147483648 ∧
    ¬ ((TcpComms.findOpenPort ⟨24160, 2147483647, false, ∅⟩).1 <
        (TcpComms.findOpenPort
          (TcpComms.findOpenPort ⟨24160, 2147483647, false, ∅⟩).2).1) := by
  decide

/-- C3, amended: port allocation is monotonic while the range of `int` is not
exhausted: for every initial in-use set in which two ports `q1 < q2` from
`start` up to 2147483647 are free, when `openPortStart` and `hasBroker` do not
change in between, two successive `findOpenPort` calls return `p1` then `p2`
with `p2 > p1`. -/
theorem C3_findOpenPort_monotonic (c : TcpComms) (q1 q2 : Int)
    (h1 : q1 ∉ c.usedPortNumbers) (h2 : q2 ∉ c.usedPortNumbers)
    (hstart : c.initialStart ≤ q1) (hlt : q1 < q2) (hmax : q2 ≤ 2147483647) :
    c.findOpenPort.1 < c.findOpenPort.2.findOpenPort.1 := by
  obtain ⟨f1, f2, f3, f4⟩ := findOpenPort_loop_result c q1 h1 hstart (by omega)
  have hstart2 : c.findOpenPort.2.initialStart = c.initialStart := rfl
  have hq2 : q2 ∉ c.findOpenPort.2.usedPortNumbers := by
    rw [findOpenPort_used, Finset.mem_insert]
    intro h
    rcases h with h | h
    · omega
    · exact h2 h
  obtain ⟨g1, _, g3, _⟩ := findOpenPort_loop_result c.findOpenPort.2 q2 hq2
    (by rw [hstart2]; omega) hmax
  rw [hstart2] at g1
  rw [findOpenPort_used] at g3
  by_contra hle
  apply g3
  rcases lt_or_eq_of_le (not_lt.mp hle) with hl | heq
  · exact Finset.mem_insert_of_mem (f4 _ g1 hl)
  · rw [heq]; exact Finset.mem_insert_self _ _

/-- C3 (amended) at a concrete input: with 24228 in use, two calls on a
top-level endpoint return 24229 and then 24230. -/
theorem C3_findOpenPort_monotonic_witness :
    (TcpComms.findOpenPort ⟨24160, -1, false, {24228}⟩).1 <
      (TcpComms.findOpenPort (TcpComms.findOpenPort ⟨24160, -1, false, {24228}⟩).2).1 :=
  C3_findOpenPort_monotonic ⟨24160, -1, false, {24228}⟩ 24229 24230
    (by decide) (by decide) (by decide) (by decide) (by decide)

/-! ## Port negotiation replies: the claim -/

/-- C4: for every protocol command `M` with sub-command `REQUEST_PORTS`,
`generateReplyToIncomingMessage` returns a `CMD_PROTOCOL` message with
sub-command `PORT_DEFINITIONS` whose `source_id` is the endpoint's own
`PortNumber` and whose `source_handle` is the port just allocated by
`findOpenPort` (fresh, while fewer than 2^32 ports are in use, and now a member
of `usedPortNumbers`); for `QUERY_PORTS`
it returns `PORT_DEFINITIONS` with `source_id = PortNumber` and allocates
nothing; for every other message it returns `CMD_IGNORE` and leaves
`usedPortNumbers` (the whole object) unchanged. -/
theorem C4_generateReplyToIncomingMessage (ids : ProtocolIds) (c : TcpComms)
    (M : ActionMessage) :
    (isProtocolCommand M = true → M.messageID = ids.REQUEST_PORTS →
      (c.generateReplyToIncomingMessage ids M).1.action = action_t.cmd_protocol ∧
      (c.generateReplyToIncomingMessage ids M).1.messageID = ids.PORT_DEFINITIONS ∧
      (c.generateReplyToIncomingMessage ids M).1.source_id = c.PortNumber ∧
      (c.generateReplyToIncomingMessage ids M).1.source_handle = c.findOpenPort.1 ∧
      (c.usedPortNumbers.card < 4294967296 →
        (c.generateReplyToIncomingMessage ids M).1.source_handle ∉ c.usedPortNumbers) ∧
      (c.generateReplyToIncomingMessage ids M).2.usedPortNumbers =
        insert (c.generateReplyToIncomingMessage ids M).1.source_handle c.usedPortNumbers ∧
      (c.generateReplyToIncomingMessage ids M).2 = c.findOpenPort.2) ∧
    (isProtocolCommand M = true → M.messageID = ids.QUERY_PORTS →
      (c.generateReplyToIncomingMessage ids M).1.action = action_t.cmd_protocol ∧
      (c.generateReplyToIncomingMessage ids M).1.messageID = ids.PORT_DEFINITIONS ∧
      (c.generateReplyToIncomingMessage ids M).1.source_id = c.PortNumber ∧
      (c.generateReplyToIncomingMessage ids M).2 = c) ∧
    (¬ (isProtocolCommand M = true ∧
          (M.messageID = ids.QUERY_PORTS ∨ M.messageID = ids.REQUEST_PORTS)) →
      (c.generateReplyToIncomingMessage ids M).1.action = action_t.cmd_ignore ∧
      (c.generateReplyToIncomingMessage ids M).2 = c) := by
  refine ⟨?_, ?_, ?_⟩
  · intro hp hid
    have e : c.generateReplyToIncomingMessage ids M =
        ({ ActionMessage.ofAction action_t.cmd_protocol with
            messageID := ids.PORT_DEFINITIONS, source_id := c.findOpenPort.2.PortNumber,
            source_handle := c.findOpenPort.1 }, c.findOpenPort.2) := by
      simp only [TcpComms.generateReplyToIncomingMessage, hp, hid, if_true]
      rw [if_neg (fun h => ids.switch_reply h.symm)]
    rw [e]
    exact ⟨rfl, rfl, rfl, rfl, fun hroom => findOpenPort_fresh c hroom, rfl, rfl⟩
  · intro hp hid
    have e : c.generateReplyToIncomingMessage ids M =
        ({ ActionMessage.ofAction action_t.cmd_protocol with
            messageID := ids.PORT_DEFINITIONS, source_id := c.PortNumber }, c) := by
      simp only [TcpComms.generateReplyToIncomingMessage, hp, hid, if_true]
    rw [e]
    exact ⟨rfl, rfl, rfl, rfl⟩
  · intro h
    have e : c.generateReplyToIncomingMessage ids M =
        (ActionMessage.ofAction action_t.cmd_ignore, c) := by
      unfold TcpComms.generateReplyToIncomingMessage
      by_cases hp : isProtocolCommand M = true
      · have h1 : ¬ (M.messageID = ids.QUERY_PORTS) := fun h1 => h ⟨hp, Or.inl h1⟩
        have h2 : ¬ (M.messageID = ids.REQUEST_PORTS) := fun h2 => h ⟨hp, Or.inr h2⟩
        simp only [hp, h1, h2, if_true, if_false]
      · rw [if_neg hp]
    rw [e]
    exact ⟨rfl, rfl⟩

/-- C4 at a concrete input: an endpoint on port 24160 that already handed out
24228 answers a priority `REQUEST_PORTS` with port 24229. -/
theorem C4_generateReplyToIncomingMessage_witness :
    ((TcpComms.generateReplyToIncomingMessage exampleIds ⟨24160, -1, false, {24228}⟩
        { ActionMessage.ofAction action_t.cmd_protocol_priority with messageID := 5 }).1.action
        = action_t.cmd_protocol ∧
      (TcpComms.generateReplyToIncomingMessage exampleIds ⟨24160, -1, false, {24228}⟩
        { ActionMessage.ofAction action_t.cmd_protocol_priority with messageID := 5 }).1.messageID
        = 6) ∧
    (TcpComms.generateReplyToIncomingMessage exampleIds ⟨24160, -1, false, {24228}⟩
        { ActionMessage.ofAction action_t.cmd_protocol_priority with messageID := 5 }).1.source_handle
        = 24229 ∧
    (TcpComms.generateReplyToIncomingMessage exampleIds ⟨24160, -1, false, {24228}⟩
        { ActionMessage.ofAction action_t.cmd_protocol_priority with messageID := 5 }).2.usedPortNumbers
        = {24228, 24229} := by
  have h := (C4_generateReplyToIncomingMessage exampleIds ⟨24160, -1, false, {24228}⟩
    { ActionMessage.ofAction action_t.cmd_protocol_priority with messageID := 5 }).1
    (by decide) (by decide)
  exact ⟨⟨h.1, h.2.1⟩, by decide, by decide⟩

/-! ## Route tables and tx loops: lemmas -/

/-- `emplace` on a key that is present does nothing. -/
theorem RouteTable.emplace_of_find_some {H : Type} (key : Int) (v h : H)
    (t : RouteTable H) (hf : RouteTable.find t key = some h) :
    RouteTable.emplace key v t = t := by
  simp only [RouteTable.emplace, hf]

/-- Insertion does not disturb the other keys. -/
theorem RouteTable.find_insertOrdered_ne {H : Type} (key id : Int) (v : H) (hne : id ≠ key) :
    ∀ t : RouteTable H,
      RouteTable.find (RouteTable.insertOrdered key v t) id = RouteTable.find t id := by
  intro t
  induction t with
  | nil =>
    have : ¬ (key = id) := fun e => hne e.symm
    simp [RouteTable.insertOrdered, RouteTable.find, this]
  | cons e rest ih =>
    obtain ⟨k, w⟩ := e
    have hkey : ¬ (key = id) := fun e => hne e.symm
    by_cases hlt : key < k
    · simp only [RouteTable.insertOrdered, hlt, if_true, RouteTable.find, hkey, if_false]
    · simp only [RouteTable.insertOrdered, hlt, if_false, RouteTable.find, ih]

/-- Insertion stores the handle under the key when the key was absent. -/
theorem RouteTable.find_insertOrdered_self {H : Type} (key : Int) (v : H) :
    ∀ t : RouteTable H, RouteTable.find t key = none →
      RouteTable.find (RouteTable.insertOrdered key v t) key = some v := by
  intro t
  induction t with
  | nil => intro _; simp [RouteTable.insertOrdered, RouteTable.find]
  | cons e rest ih =>
    obtain ⟨k, w⟩ := e
    intro hf
    by_cases hk : k = key
    · simp [RouteTable.find, hk] at hf
    · simp only [RouteTable.find, hk, if_false] at hf
      by_cases hlt : key < k
      · simp only [RouteTable.insertOrdered, hlt, if_true, RouteTable.find]
      · simp only [RouteTable.insertOrdered, hlt, if_false, RouteTable.find, hk, ih hf]

/-- A handle that is installed stays installed across `emplace`, whatever key
is emplaced. -/
theorem RouteTable.find_emplace_of_find_some {H : Type} (key id : Int) (v h : H)
    (t : RouteTable H) (hf : RouteTable.find t id = some h) :
    RouteTable.find (RouteTable.emplace key v t) id = some h := by
  unfold RouteTable.emplace
  cases hk : RouteTable.find t key with
  | some w => exact hf
  | none =>
    have hne : id ≠ key := by
      intro e
      rw [e, hk] at hf
      exact Option.noConfusion hf
    simp only [RouteTable.find_insertOrdered_ne key id v hne t, hf]

/-- A loop that is not running pops nothing. -/
theorem tcp_tx_stopped (ids : ProtocolIds) (env : TcpTxEnv) (s : TcpTx)
    (items : List (Int × ActionMessage)) (h : s.loop ≠ LoopState.running) :
    TcpComms.queue_tx_function ids env s items = s := by
  cases items with
  | nil => rfl
  | cons item rest => simp only [TcpComms.queue_tx_function, h, if_false]

/-- Feeding the loop two batches of items, one after the other. -/
theorem tcp_tx_append (ids : ProtocolIds) (env : TcpTxEnv)
    (before after : List (Int × ActionMessage)) :
    ∀ s : TcpTx,
      TcpComms.queue_tx_function ids env s (before ++ after) =
        TcpComms.queue_tx_function ids env (TcpComms.queue_tx_function ids env s before) after := by
  induction before with
  | nil => intro s; rfl
  | cons item rest ih =>
    intro s
    by_cases h : s.loop = LoopState.running
    · simp only [List.cons_append, TcpComms.queue_tx_function, h, if_true]
      exact ih _
    · simp only [List.cons_append, TcpComms.queue_tx_function, h, if_false]
      exact (tcp_tx_stopped ids env s after h).symm

/-- A loop that is not running pops nothing. -/
theorem ipc_tx_stopped (ids : ProtocolIds) (env : IpcTxEnv) (s : IpcTx)
    (items : List (Int × ActionMessage)) (h : s.loop ≠ LoopState.running) :
    IpcComms.queue_tx_function ids env s items = s := by
  cases items with
  | nil => rfl
  | cons item rest => simp only [IpcComms.queue_tx_function, h, if_false]

/-- Feeding the loop two batches of items, one after the other. -/
theorem ipc_tx_append (ids : ProtocolIds) (env : IpcTxEnv)
    (before after : List (Int × ActionMessage)) :
    ∀ s : IpcTx,
      IpcComms.queue_tx_function ids env s (before ++ after) =
        IpcComms.queue_tx_function ids env (IpcComms.queue_tx_function ids env s before) after := by
  induction before with
  | nil => intro s; rfl
  | cons item rest ih =>
    intro s
    by_cases h : s.loop = LoopState.running
    · simp only [List.cons_append, IpcComms.queue_tx_function, h, if_true]
      exact ih _
    · simp only [List.cons_append, IpcComms.queue_tx_function, h, if_false]
      exact (ipc_tx_stopped ids env s after h).symm

/-- The route table after the dispatch part is the one before. -/
theorem tcp_txDispatch_routes (env : TcpTxEnv) (s : TcpTx) (route_id : Int)
    (cmd : ActionMessage) : (TcpComms.txDispatch env s route_id cmd).routes = s.routes := by
  have hb : (TcpComms.sendToBroker s cmd).routes = s.routes := by
    unfold TcpComms.sendToBroker
    split <;> rfl
  unfold TcpComms.txDispatch
  split
  · split
    · exact hb
    · rfl
  · split
    · rfl
    · split
      · rfl
      · split
        · exact hb
        · split <;> rfl

/-- The route table after the forwarding part is the one before. -/
theorem ipc_txForward_routes (env : IpcTxEnv) (s : IpcTx) (route_id : Int)
    (cmd : ActionMessage) : (IpcComms.txForward env s route_id cmd).routes = s.routes := by
  have h1 : (IpcComms.txSignalOperating s cmd).routes = s.routes := by
    unfold IpcComms.txSignalOperating
    split
    · split <;> rfl
    · rfl
  unfold IpcComms.txForward IpcComms.txDispatch
  simp only
  rw [← h1]
  split
  · split <;> rfl
  · split
    · rfl
    · split
      · rfl
      · split <;> rfl

/-- The state after the code at `CLOSE_TX_LOOP`, spelled out. -/
theorem tcp_txClose_eq (ids : ProtocolIds) (s : TcpTx) :
    TcpComms.txClose ids s =
      { s with
        trace := s.trace ++ s.routes.map (fun rt => TcpEvent.close rt.2)
          ++ (if s.rxStatus = connection_status.connected then
                [TcpEvent.rxPush (TcpComms.closeReceiverMessage ids)] else [])
          ++ [TcpEvent.setTxStatus connection_status.terminated],
        routes := [],
        txStatus := connection_status.terminated,
        loop := LoopState.finished } := by
  unfold TcpComms.txClose
  by_cases h : s.rxStatus = connection_status.connected
  · simp [h, TcpTx.emit]
  · simp [h]

/-- One iteration of the stream transport's loop keeps every installed handle,
unless it leaves the loop through `CLOSE_TX_LOOP`, which empties the table. -/
theorem tcp_txStep_find (ids : ProtocolIds) (env : TcpTxEnv) (s : TcpTx)
    (item : Int × ActionMessage) (id : Int) (h : TcpConnection)
    (hf : RouteTable.find s.routes id = some h) :
    RouteTable.find (TcpComms.txStep ids env s item).routes id = some h ∨
      ((TcpComms.txStep ids env s item).loop = LoopState.finished ∧
        (TcpComms.txStep ids env s item).routes = []) := by
  unfold TcpComms.txStep
  simp only
  split
  · split
    · split
      · exact Or.inl (RouteTable.find_emplace_of_find_some _ _ _ _ _ hf)
      · exact Or.inl hf
    · split
      · exact Or.inl hf
      · split
        · rw [tcp_txClose_eq]; exact Or.inr ⟨rfl, rfl⟩
        · rw [tcp_txDispatch_routes]; exact Or.inl hf
  · rw [tcp_txDispatch_routes]; exact Or.inl hf

/-- The same over any number of iterations. -/
theorem tcp_tx_find (ids : ProtocolIds) (env : TcpTxEnv)
    (id : Int) (h : TcpConnection) (items : List (Int × ActionMessage)) :
    ∀ s : TcpTx,
      (RouteTable.find s.routes id = some h ∨
        (s.loop = LoopState.finished ∧ s.routes = [])) →
      (RouteTable.find (TcpComms.queue_tx_function ids env s items).routes id = some h ∨
        ((TcpComms.queue_tx_function ids env s items).loop = LoopState.finished ∧
          (TcpComms.queue_tx_function ids env s items).routes = [])) := by
  induction items with
  | nil => intro s hs; exact hs
  | cons item rest ih =>
    intro s hs
    by_cases hr : s.loop = LoopState.running
    · simp only [TcpComms.queue_tx_function, hr, if_true]
      apply ih
      rcases hs with hf | ⟨hfin, _⟩
      · exact tcp_txStep_find ids env s item id h hf
      · rw [hr] at hfin; exact LoopState.noConfusion hfin
    · rw [tcp_tx_stopped ids env s _ hr]; exact hs

/-- One iteration of the queue transport's loop keeps every installed handle. -/
theorem ipc_txStep_find (ids : ProtocolIds) (env : IpcTxEnv) (s : IpcTx)
    (item : Int × ActionMessage) (id : Int) (h : sendToQueue)
    (hf : RouteTable.find s.routes id = some h) :
    RouteTable.find (IpcComms.txStep ids env s item).routes id = some h := by
  unfold IpcComms.txStep
  simp only
  split
  · split
    · split
      · exact RouteTable.find_emplace_of_find_some _ _ _ _ _ hf
      · exact hf
    · split
      · exact hf
      · rw [ipc_txForward_routes]; exact hf
  · rw [ipc_txForward_routes]; exact hf

/-- The same over any number of iterations. -/
theorem ipc_tx_find (ids : ProtocolIds) (env : IpcTxEnv)
    (id : Int) (h : sendToQueue) (items : List (Int × ActionMessage)) :
    ∀ s : IpcTx, RouteTable.find s.routes id = some h →
      RouteTable.find (IpcComms.queue_tx_function ids env s items).routes id = some h := by
  induction items with
  | nil => intro s hs; exact hs
  | cons item rest ih =>
    intro s hs
    by_cases hr : s.loop = LoopState.running
    · simp only [IpcComms.queue_tx_function, hr, if_true]
      exact ih _ (ipc_txStep_find ids env s item id h hs)
    · rw [ipc_tx_stopped ids env s _ hr]; exact hs

/-! ## Route installation: the claim -/

/-- C5: in both tx loops, processing a `NEW_ROUTE` protocol command on route -1
whose `dest_id` is already a key of the route table leaves the table unchanged,
so the handle stored under that id is still the first one installed.  Hence,
for any sequence of queued items, a handle found under a route id after some of
the items is the handle found under it after any further items: it is never
replaced (the stream transport empties the table when it leaves the loop
through `DISCONNECT`; until then, and always in the queue transport, the
handle stays installed). -/
theorem C5_route_handle_never_reassigned (ids : ProtocolIds) (tenv : TcpTxEnv)
    (ienv : IpcTxEnv) :
    (∀ (s : TcpTx) (cmd : ActionMessage) (h : TcpConnection),
      isProtocolCommand cmd = true → cmd.messageID = ids.NEW_ROUTE →
      RouteTable.find s.routes cmd.dest_id = some h →
      (TcpComms.txStep ids tenv s (-1, cmd)).routes = s.routes) ∧
    (∀ (s : IpcTx) (cmd : ActionMessage) (h : sendToQueue),
      isProtocolCommand cmd = true → cmd.index = ids.NEW_ROUTE →
      RouteTable.find s.routes cmd.dest_id = some h →
      (IpcComms.txStep ids ienv s (-1, cmd)).routes = s.routes) ∧
    (∀ (s : TcpTx) (before after : List (Int × ActionMessage)) (id : Int)
        (h : TcpConnection),
      RouteTable.find (TcpComms.queue_tx_function ids tenv s before).routes id = some h →
      (∀ h2, RouteTable.find
          (TcpComms.queue_tx_function ids tenv s (before ++ after)).routes id = some h2 →
        h2 = h) ∧
      (RouteTable.find
          (TcpComms.queue_tx_function ids tenv s (before ++ after)).routes id = some h ∨
        ((TcpComms.queue_tx_function ids tenv s (before ++ after)).loop = LoopState.finished ∧
          (TcpComms.queue_tx_function ids tenv s (before ++ after)).routes = []))) ∧
    (∀ (s : IpcTx) (before after : List (Int × ActionMessage)) (id : Int)
        (h : sendToQueue),
      RouteTable.find (IpcComms.queue_tx_function ids ienv s before).routes id = some h →
      RouteTable.find
        (IpcComms.queue_tx_function ids ienv s (before ++ after)).routes id = some h) := by
  refine ⟨?_, ?_, ?_, ?_⟩
  · intro s cmd h hp hid hf
    simp only [TcpComms.txStep, hp, hid, true_and, if_true]
    split
    · exact RouteTable.emplace_of_find_some _ _ h _ hf
    · rfl
  · intro s cmd h _ hid hf
    unfold IpcComms.txStep
    simp only [hid, if_true]
    split
    · split
      · exact RouteTable.emplace_of_find_some _ _ h _ hf
      · rfl
    · exact ipc_txForward_routes _ _ _ _
  · intro s before after id h hf
    have key := tcp_tx_find ids tenv id h after _ (Or.inl hf)
    rw [← tcp_tx_append] at key
    refine ⟨?_, key⟩
    intro h2 hf2
    rcases key with hk | ⟨_, hempty⟩
    · rw [hk] at hf2; exact (Option.some.inj hf2).symm
    · rw [hempty] at hf2; simp [RouteTable.find] at hf2
  · intro s before after id h hf
    rw [ipc_tx_append]
    exact ipc_tx_find ids ienv id h after _ hf

/-- C5 at a concrete input: a second `NEW_ROUTE` for route 7, whose connection
is created successfully, leaves the connection to `localhost:24201` installed. -/
theorem C5_route_handle_never_reassigned_witness :
    (TcpComms.txStep exampleIds ⟨fun _ _ => true, false⟩
      { freshTcpTx false connection_status.connected with
        routes := [(7, ⟨0, "localhost:24201"⟩)], created := 1 }
      (-1, newRouteCommand exampleIds 7 "localhost:24999")).routes
      = [(7, ⟨0, "localhost:24201"⟩)] :=
  (C5_route_handle_never_reassigned exampleIds ⟨fun _ _ => true, false⟩ firstConnectOnly).1
    { freshTcpTx false connection_status.connected with
      routes := [(7, ⟨0, "localhost:24201"⟩)], created := 1 }
    (newRouteCommand exampleIds 7 "localhost:24999") ⟨0, "localhost:24201"⟩
    (by decide) (by decide) (by decide)

/-! ## Dispatch: lemmas and claims -/

/-- A pair the stream transport's loop does not handle itself goes to the
dispatch part. -/
theorem tcp_txStep_forward (ids : ProtocolIds) (env : TcpTxEnv) (s : TcpTx) (route_id : Int)
    (cmd : ActionMessage) (h : ¬ TcpComms.handledLocally ids route_id cmd) :
    TcpComms.txStep ids env s (route_id, cmd) = TcpComms.txDispatch env s route_id cmd := by
  unfold TcpComms.txStep
  simp only
  by_cases hp : isProtocolCommand cmd = true ∧ route_id = -1
  · have h1 : ¬ cmd.messageID = ids.NEW_ROUTE := fun e => h ⟨hp.1, hp.2, Or.inl e⟩
    have h2 : ¬ cmd.messageID = ids.CLOSE_RECEIVER := fun e => h ⟨hp.1, hp.2, Or.inr (Or.inl e)⟩
    have h3 : ¬ cmd.messageID = ids.DISCONNECT := fun e => h ⟨hp.1, hp.2, Or.inr (Or.inr e)⟩
    rw [if_pos hp, if_neg h1, if_neg h2, if_neg h3]
  · rw [if_neg hp]

/-- A pair the queue transport's loop does not handle itself goes to the
forwarding part. -/
theorem ipc_txStep_forward (ids : ProtocolIds) (env : IpcTxEnv) (s : IpcTx) (route_id : Int)
    (cmd : ActionMessage) (h : ¬ IpcComms.handledLocally ids route_id cmd) :
    IpcComms.txStep ids env s (route_id, cmd) = IpcComms.txForward env s route_id cmd := by
  unfold IpcComms.txStep
  simp only
  by_cases hp : (cmd.action = action_t.cmd_protocol ∨ cmd.action = action_t.cmd_protocol_priority)
      ∧ route_id = -1
  · have h1 : ¬ cmd.index = ids.NEW_ROUTE := fun e => h ⟨hp.1, hp.2, Or.inl e⟩
    have h2 : ¬ cmd.index = ids.DISCONNECT := fun e => h ⟨hp.1, hp.2, Or.inr e⟩
    rw [if_pos hp, if_neg h1, if_neg h2]
  · rw [if_neg hp]

/-- The state after the `CMD_INIT_GRANT` block, spelled out. -/
theorem ipc_txSignalOperating_eq (s : IpcTx) (cmd : ActionMessage) :
    IpcComms.txSignalOperating s cmd =
      { s with trace := s.trace ++
          (if cmd.action = action_t.cmd_init_grant ∧ s.operating = false then
            [IpcEvent.sendMessage s.rxQueue IpcComms.setToOperatingMessage 3] else []) } := by
  unfold IpcComms.txSignalOperating
  by_cases h1 : cmd.action = action_t.cmd_init_grant
  · by_cases h2 : s.operating = false
    · rw [if_pos h1, if_pos h2, if_pos ⟨h1, h2⟩]
      rfl
    · rw [if_pos h1, if_neg h2, if_neg (fun h => h2 h.2), List.append_nil]
  · rw [if_neg h1, if_neg (fun h => h1 h.1), List.append_nil]

/-- C6, the defect: a stream-transport endpoint with a broker target whose
broker connection could not be created enters its tx loop with `hasBroker`
true and a null `brokerConnection` (`establishBrokerConnection` returns true
after the creation threw); for the first popped pair with `route_id == 0` the
loop calls `brokerConnection->send` through the null pointer: nothing is sent
and the process dies.  On every other state the claim holds.  In both tx
loops, for every popped `(route_id, cmd)` that is not handled locally: if
`route_id == 0` the message is sent to the broker handle when a broker exists
(in the stream transport: when the broker handle is not null) and to nothing
otherwise; if `route_id == -1` it is delivered to the local receiver
(`rxMessageQueue` for the stream transport, the local rx queue for the queue
transport); if `route_id` is any other value that is a key of the route table
it is sent on exactly that route's handle and on no other handle.  Nothing else
changes in the iteration; the queue transport sends at priority 3 or 1 and, for
a `CMD_INIT_GRANT`, first sends its `SET_TO_OPERATING` signal to the local rx
queue. -/
theorem C6_route_dispatch (ids : ProtocolIds) (tenv : TcpTxEnv) (ienv : IpcTxEnv) :
    ((TcpComms.queue_tx_setup exampleIds unreachableBroker (freshTcpSetup 4000)).1 = true ∧
      ((TcpComms.queue_tx_setup exampleIds unreachableBroker (freshTcpSetup 4000)).2.enterLoop
        connection_status.connected).hasBroker = true ∧
      ((TcpComms.queue_tx_setup exampleIds unreachableBroker (freshTcpSetup 4000)).2.enterLoop
        connection_status.connected).brokerConnection = none ∧
      ¬ TcpComms.handledLocally exampleIds 0 (dataMessage "hi") ∧
      (TcpComms.queue_tx_function exampleIds (firstCreateOnly false)
        ((TcpComms.queue_tx_setup exampleIds unreachableBroker (freshTcpSetup 4000)).2.enterLoop
          connection_status.connected)
        [(0, dataMessage "hi"), (-1, dataMessage "next")]).trace = [] ∧
      (TcpComms.queue_tx_function exampleIds (firstCreateOnly false)
        ((TcpComms.queue_tx_setup exampleIds unreachableBroker (freshTcpSetup 4000)).2.enterLoop
          connection_status.connected)
        [(0, dataMessage "hi"), (-1, dataMessage "next")]).loop = LoopState.aborted) ∧
    (∀ (s : TcpTx) (route_id : Int) (cmd : ActionMessage),
      ¬ TcpComms.handledLocally ids route_id cmd →
      (route_id = 0 → s.hasBroker = false →
        TcpComms.txStep ids tenv s (route_id, cmd) = s) ∧
      (route_id = 0 → s.hasBroker = true →
        ∀ broker : TcpConnection, s.brokerConnection = some broker →
        TcpComms.txStep ids tenv s (route_id, cmd) =
          { s with trace := s.trace ++ [TcpEvent.send broker cmd] }) ∧
      (route_id = 0 → s.hasBroker = true → s.brokerConnection = none →
        TcpComms.txStep ids tenv s (route_id, cmd) = { s with loop := LoopState.aborted }) ∧
      (route_id = -1 →
        TcpComms.txStep ids tenv s (route_id, cmd) =
          { s with trace := s.trace ++ [TcpEvent.rxPush cmd] }) ∧
      (∀ conn : TcpConnection, route_id ≠ 0 → route_id ≠ -1 →
        RouteTable.find s.routes route_id = some conn →
        TcpComms.txStep ids tenv s (route_id, cmd) =
          { s with trace := s.trace ++ [TcpEvent.send conn cmd] })) ∧
    (∀ (s : IpcTx) (route_id : Int) (cmd : ActionMessage),
      ¬ IpcComms.handledLocally ids route_id cmd →
      (route_id = 0 →
        IpcComms.txStep ids ienv s (route_id, cmd) =
          { s with trace := s.trace ++
              (if cmd.action = action_t.cmd_init_grant ∧ s.operating = false then
                [IpcEvent.sendMessage s.rxQueue IpcComms.setToOperatingMessage 3] else []) ++
              (if s.hasBroker = true then
                [IpcEvent.sendMessage s.brokerQueue cmd
                  (if ienv.isPriorityCommand cmd = true then 3 else 1)] else []) }) ∧
      (route_id = -1 →
        IpcComms.txStep ids ienv s (route_id, cmd) =
          { s with trace := s.trace ++
              (if cmd.action = action_t.cmd_init_grant ∧ s.operating = false then
                [IpcEvent.sendMessage s.rxQueue IpcComms.setToOperatingMessage 3] else []) ++
              [IpcEvent.sendMessage s.rxQueue cmd
                (if ienv.isPriorityCommand cmd = true then 3 else 1)] }) ∧
      (∀ queue : sendToQueue, route_id ≠ 0 → route_id ≠ -1 →
        RouteTable.find s.routes route_id = some queue →
        IpcComms.txStep ids ienv s (route_id, cmd) =
          { s with trace := s.trace ++
              (if cmd.action = action_t.cmd_init_grant ∧ s.operating = false then
                [IpcEvent.sendMessage s.rxQueue IpcComms.setToOperatingMessage 3] else []) ++
              [IpcEvent.sendMessage queue cmd
                (if ienv.isPriorityCommand cmd = true then 3 else 1)] })) := by
  refine ⟨by decide, ?_, ?_⟩
  · intro s route_id cmd hl
    rw [tcp_txStep_forward ids tenv s route_id cmd hl]
    refine ⟨?_, ?_, ?_, ?_, ?_⟩
    · intro h0 hb
      simp [TcpComms.txDispatch, h0, hb]
    · intro h0 hb broker hbr
      simp only [TcpComms.txDispatch, h0, hb, if_true, TcpComms.sendToBroker, hbr, TcpTx.emit]
    · intro h0 hb hbr
      simp only [TcpComms.txDispatch, h0, hb, if_true, TcpComms.sendToBroker, hbr]
    · intro h1
      subst h1
      simp [TcpComms.txDispatch, TcpTx.emit]
    · intro conn h0 h1 hf
      simp only [TcpComms.txDispatch, h0, h1, if_false, hf, TcpTx.emit]
  · intro s route_id cmd hl
    rw [ipc_txStep_forward ids ienv s route_id cmd hl]
    unfold IpcComms.txForward
    simp only
    rw [ipc_txSignalOperating_eq]
    refine ⟨?_, ?_, ?_⟩
    · intro h0
      by_cases hb : s.hasBroker = true
      · simp only [IpcComms.txDispatch, h0, hb, if_true, IpcTx.emit]
      · simp [IpcComms.txDispatch, h0, hb]
    · intro h1
      subst h1
      simp [IpcComms.txDispatch, IpcTx.emit]
    · intro queue h0 h1 hf
      simp only [IpcComms.txDispatch, h0, h1, if_false, hf, IpcTx.emit]

/-- A route id other than -1 is never handled locally by the stream
transport's loop. -/
theorem tcp_not_handledLocally (ids : ProtocolIds) (route_id : Int) (cmd : ActionMessage)
    (h : route_id ≠ -1) : ¬ TcpComms.handledLocally ids route_id cmd :=
  fun hl => h hl.2.1

/-- A route id other than -1 is never handled locally by the queue
transport's loop. -/
theorem ipc_not_handledLocally (ids : ProtocolIds) (route_id : Int) (cmd : ActionMessage)
    (h : route_id ≠ -1) : ¬ IpcComms.handledLocally ids route_id cmd :=
  fun hl => h hl.2.1

/-- C7, as the claim states it, fails for a stream transport compiled with
`assert` enabled: an endpoint without a broker pops a message for route 5,
which is not in the route table, and then a message for its own receiver.  The
`assert (false)` of the lookup-miss path stops the loop, so the second item is
never delivered, whereas a loop that dropped the first message and went on
would have pushed it to `rxMessageQueue`. -/
theorem C7_lookup_miss_counterexample :
    (freshTcpTx false connection_status.connected).hasBroker = false ∧
    RouteTable.find (freshTcpTx false connection_status.connected).routes 5 = none ∧
    (TcpComms.txStep exampleIds (firstCreateOnly true)
      (freshTcpTx false connection_status.connected) (5, dataMessage "a")).loop
      = LoopState.aborted ∧
    (TcpComms.queue_tx_function exampleIds (firstCreateOnly true)
      (freshTcpTx false connection_status.connected)
      [(5, dataMessage "a"), (-1, dataMessage "b")]).trace = [] ∧
    (TcpComms.queue_tx_function exampleIds (firstCreateOnly true)
      (freshTcpTx false connection_status.connected)
      [(-1, dataMessage "b")]).trace = [TcpEvent.rxPush (dataMessage "b")] ∧
    ¬ (TcpComms.queue_tx_function exampleIds (firstCreateOnly true)
        (freshTcpTx false connection_status.connected)
        [(5, dataMessage "a"), (-1, dataMessage "b")] =
       TcpComms.queue_tx_function exampleIds (firstCreateOnly true)
        (freshTcpTx false connection_status.connected)
        [(-1, dataMessage "b")]) := by
  decide

/-- C7, amended: in both tx loops, for every popped `(route_id, cmd)` with
`route_id` not 0, not -1 and not a key of the route table: with a broker (in
the stream transport: with a broker whose handle is not null) the message is
sent to the broker handle; without a broker, in the queue transport
and in a stream transport compiled without `assert`, the message is sent
nowhere, the route table is unchanged and the loop goes on to the next queued
item; in a stream transport compiled with `assert` the loop stops there and
processes no further item.  (For a `CMD_INIT_GRANT` the queue transport still
sends its `SET_TO_OPERATING` signal to the local rx queue first.) -/
theorem C7_lookup_miss (ids : ProtocolIds) (tenv : TcpTxEnv) (ienv : IpcTxEnv) :
    (∀ (s : TcpTx) (route_id : Int) (cmd : ActionMessage),
      route_id ≠ 0 → route_id ≠ -1 → RouteTable.find s.routes route_id = none →
      (s.hasBroker = true → ∀ broker : TcpConnection, s.brokerConnection = some broker →
        TcpComms.txStep ids tenv s (route_id, cmd) =
          { s with trace := s.trace ++ [TcpEvent.send broker cmd] }) ∧
      (s.hasBroker = false → tenv.assertsEnabled = false →
        TcpComms.txStep ids tenv s (route_id, cmd) = s ∧
        ∀ rest, TcpComms.queue_tx_function ids tenv s ((route_id, cmd) :: rest) =
          TcpComms.queue_tx_function ids tenv s rest) ∧
      (s.hasBroker = false → tenv.assertsEnabled = true →
        TcpComms.txStep ids tenv s (route_id, cmd) = { s with loop := LoopState.aborted } ∧
        ∀ rest, s.loop = LoopState.running →
          TcpComms.queue_tx_function ids tenv s ((route_id, cmd) :: rest) =
            { s with loop := LoopState.aborted })) ∧
    (∀ (s : IpcTx) (route_id : Int) (cmd : ActionMessage),
      route_id ≠ 0 → route_id ≠ -1 → RouteTable.find s.routes route_id = none →
      (s.hasBroker = true →
        IpcComms.txStep ids ienv s (route_id, cmd) =
          { s with trace := s.trace ++
              (if cmd.action = action_t.cmd_init_grant ∧ s.operating = false then
                [IpcEvent.sendMessage s.rxQueue IpcComms.setToOperatingMessage 3] else []) ++
              [IpcEvent.sendMessage s.brokerQueue cmd
                (if ienv.isPriorityCommand cmd = true then 3 else 1)] }) ∧
      (s.hasBroker = false →
        IpcComms.txStep ids ienv s (route_id, cmd) =
          { s with trace := s.trace ++
              (if cmd.action = action_t.cmd_init_grant ∧ s.operating = false then
                [IpcEvent.sendMessage s.rxQueue IpcComms.setToOperatingMessage 3] else []) } ∧
        ∀ rest, s.loop = LoopState.running →
          IpcComms.queue_tx_function ids ienv s ((route_id, cmd) :: rest) =
            IpcComms.queue_tx_function ids ienv
              { s with trace := s.trace ++
                  (if cmd.action = action_t.cmd_init_grant ∧ s.operating = false then
                    [IpcEvent.sendMessage s.rxQueue IpcComms.setToOperatingMessage 3]
                   else []) } rest)) := by
  refine ⟨?_, ?_⟩
  · intro s route_id cmd h0 h1 hf
    have hstep := tcp_txStep_forward ids tenv s route_id cmd
      (tcp_not_handledLocally ids route_id cmd h1)
    refine ⟨?_, ?_, ?_⟩
    · intro hb broker hbr
      rw [hstep]
      simp only [TcpComms.txDispatch, h0, h1, if_false, hf, hb, if_true,
        TcpComms.sendToBroker, hbr, TcpTx.emit]
    · intro hb ha
      have e : TcpComms.txStep ids tenv s (route_id, cmd) = s := by
        rw [hstep]
        simp [TcpComms.txDispatch, h0, h1, hf, hb, ha]
      refine ⟨e, ?_⟩
      intro rest
      by_cases hr : s.loop = LoopState.running
      · simp only [TcpComms.queue_tx_function, hr, if_true, e]
      · rw [tcp_tx_stopped ids tenv s _ hr, tcp_tx_stopped ids tenv s _ hr]
    · intro hb ha
      have e : TcpComms.txStep ids tenv s (route_id, cmd) =
          { s with loop := LoopState.aborted } := by
        rw [hstep]
        simp [TcpComms.txDispatch, h0, h1, hf, hb, ha]
      refine ⟨e, ?_⟩
      intro rest hr
      simp only [TcpComms.queue_tx_function, hr, if_true, e]
      exact tcp_tx_stopped ids tenv _ _ (by simp)
  · intro s route_id cmd h0 h1 hf
    have hstep := ipc_txStep_forward ids ienv s route_id cmd
      (ipc_not_handledLocally ids route_id cmd h1)
    refine ⟨?_, ?_⟩
    · intro hb
      rw [hstep]
      unfold IpcComms.txForward
      simp only
      rw [ipc_txSignalOperating_eq]
      simp only [IpcComms.txDispatch, h0, h1, if_false, hf, hb, if_true, IpcTx.emit]
    · intro hb
      have e : IpcComms.txStep ids ienv s (route_id, cmd) =
          { s with trace := s.trace ++
              (if cmd.action = action_t.cmd_init_grant ∧ s.operating = false then
                [IpcEvent.sendMessage s.rxQueue IpcComms.setToOperatingMessage 3] else []) } := by
        rw [hstep]
        unfold IpcComms.txForward
        simp only
        rw [ipc_txSignalOperating_eq]
        simp [IpcComms.txDispatch, h0, h1, hf, hb]
      refine ⟨e, ?_⟩
      intro rest hr
      simp only [IpcComms.queue_tx_function, hr, if_true, e]

/-- C7 (amended) at a concrete input: a stream transport compiled without
`assert` and without a broker drops the message for the unknown route 5 and
delivers the next item. -/
theorem C7_lookup_miss_witness :
    TcpComms.queue_tx_function exampleIds (firstCreateOnly false)
        (freshTcpTx false connection_status.connected)
        [(5, dataMessage "a"), (-1, dataMessage "b")] =
      TcpComms.queue_tx_function exampleIds (firstCreateOnly false)
        (freshTcpTx false connection_status.connected)
        [(-1, dataMessage "b")] :=
  (((C7_lookup_miss exampleIds (firstCreateOnly false) firstConnectOnly).1
    (freshTcpTx false connection_status.connected) 5 (dataMessage "a")
    (by decide) (by decide) (by decide)).2.1 (by decide) (by decide)).2
    [(-1, dataMessage "b")]

/-! ## Failed route creation: lemmas and claim -/

/-- With a broker whose handle is not null, a message for a route id that is
neither -1 nor a key of the route table goes to the broker connection (stream
transport). -/
theorem tcp_txStep_to_broker (ids : ProtocolIds) (env : TcpTxEnv) (s : TcpTx) (route_id : Int)
    (m : ActionMessage) (broker : TcpConnection) (h1 : route_id ≠ -1)
    (hb : s.hasBroker = true) (hbr : s.brokerConnection = some broker)
    (hf : RouteTable.find s.routes route_id = none) :
    TcpComms.txStep ids env s (route_id, m) =
      { s with trace := s.trace ++ [TcpEvent.send broker m] } := by
  rw [tcp_txStep_forward ids env s route_id m (tcp_not_handledLocally ids route_id m h1)]
  by_cases h0 : route_id = 0
  · simp only [TcpComms.txDispatch, h0, hb, if_true, TcpComms.sendToBroker, hbr, TcpTx.emit]
  · simp only [TcpComms.txDispatch, h0, h1, if_false, hf, hb, if_true, TcpComms.sendToBroker,
      hbr, TcpTx.emit]

/-- With a broker, a message for a route id that is neither -1 nor a key of
the route table goes to the broker queue (queue transport). -/
theorem ipc_txStep_to_broker (ids : ProtocolIds) (env : IpcTxEnv) (s : IpcTx) (route_id : Int)
    (m : ActionMessage) (h1 : route_id ≠ -1) (hb : s.hasBroker = true)
    (hf : RouteTable.find s.routes route_id = none) :
    IpcComms.txStep ids env s (route_id, m) =
      { s with trace := s.trace ++
          (if m.action = action_t.cmd_init_grant ∧ s.operating = false then
            [IpcEvent.sendMessage s.rxQueue IpcComms.setToOperatingMessage 3] else []) ++
          [IpcEvent.sendMessage s.brokerQueue m
            (if env.isPriorityCommand m = true then 3 else 1)] } := by
  rw [ipc_txStep_forward ids env s route_id m (ipc_not_handledLocally ids route_id m h1)]
  unfold IpcComms.txForward
  simp only
  rw [ipc_txSignalOperating_eq]
  by_cases h0 : route_id = 0
  · simp only [IpcComms.txDispatch, h0, hb, if_true, IpcTx.emit]
  · simp only [IpcComms.txDispatch, h0, h1, if_false, hf, hb, if_true, IpcTx.emit]

/-- A running stream-transport loop fed one more item performs one more
iteration. -/
theorem tcp_tx_snoc (ids : ProtocolIds) (env : TcpTxEnv) (s : TcpTx)
    (items : List (Int × ActionMessage)) (item : Int × ActionMessage)
    (hr : (TcpComms.queue_tx_function ids env s items).loop = LoopState.running) :
    TcpComms.queue_tx_function ids env s (items ++ [item]) =
      TcpComms.txStep ids env (TcpComms.queue_tx_function ids env s items) item := by
  rw [tcp_tx_append]
  simp only [TcpComms.queue_tx_function, hr, if_true]

/-- A running queue-transport loop fed one more item performs one more
iteration. -/
theorem ipc_tx_snoc (ids : ProtocolIds) (env : IpcTxEnv) (s : IpcTx)
    (items : List (Int × ActionMessage)) (item : Int × ActionMessage)
    (hr : (IpcComms.queue_tx_function ids env s items).loop = LoopState.running) :
    IpcComms.queue_tx_function ids env s (items ++ [item]) =
      IpcComms.txStep ids env (IpcComms.queue_tx_function ids env s items) item := by
  rw [ipc_tx_append]
  simp only [IpcComms.queue_tx_function, hr, if_true]

/-- C8, as the claim states it, fails when the id of the failed `NEW_ROUTE` is
already a key of the route table: route 7 is installed to `localhost:24201`, a
second `NEW_ROUTE` for 7 fails to connect, and the later message for route 7,
on an endpoint with a broker, is sent on the connection installed first and
not to the broker. -/
theorem C8_failed_route_counterexample :
    (freshTcpTx true connection_status.connected).hasBroker = true ∧
    (firstCreateOnly false).createSucceeds 1 "localhost:24999" = false ∧
    (TcpComms.queue_tx_function exampleIds (firstCreateOnly false)
      (freshTcpTx true connection_status.connected)
      [(-1, newRouteCommand exampleIds 7 "localhost:24201"),
       (-1, newRouteCommand exampleIds 7 "localhost:24999"),
       (7, dataMessage "hi")]).trace
      = [TcpEvent.send ⟨0, "localhost:24201"⟩ (dataMessage "hi")] ∧
    (freshTcpTx true connection_status.connected).brokerConnection
      = some ⟨1000, "localhost:24160"⟩ ∧
    TcpEvent.send ⟨1000, "localhost:24160"⟩ (dataMessage "hi") ∉
      (TcpComms.queue_tx_function exampleIds (firstCreateOnly false)
        (freshTcpTx true connection_status.connected)
        [(-1, newRouteCommand exampleIds 7 "localhost:24201"),
         (-1, newRouteCommand exampleIds 7 "localhost:24999"),
         (7, dataMessage "hi")]).trace := by
  decide

/-- C8, amended: in both tx loops, when opening the connection for a
`NEW_ROUTE` command fails (an exception in the stream transport, `connect`
returning false in the queue transport), the route table is left unchanged,
nothing is raised or reported to `ActionCallback` (the only change is the count
of connection attempts), and the loop continues; a later message for that
`dest_id`, on an endpoint with a broker, is sent to the broker handle provided
`dest_id` is not -1 and is not a key of the route table when that message is
popped (and, in the stream transport, the broker handle is not null). -/
theorem C8_failed_route (ids : ProtocolIds) (tenv : TcpTxEnv) (ienv : IpcTxEnv) :
    (∀ (s : TcpTx) (cmd : ActionMessage),
      isProtocolCommand cmd = true → cmd.messageID = ids.NEW_ROUTE →
      tenv.createSucceeds s.created cmd.payload = false →
      TcpComms.txStep ids tenv s (-1, cmd) = { s with created := s.created + 1 } ∧
      (∀ rest, s.loop = LoopState.running →
        TcpComms.queue_tx_function ids tenv s ((-1, cmd) :: rest) =
          TcpComms.queue_tx_function ids tenv { s with created := s.created + 1 } rest) ∧
      (∀ (between : List (Int × ActionMessage)) (m : ActionMessage) (broker : TcpConnection),
        (TcpComms.queue_tx_function ids tenv s ((-1, cmd) :: between)).loop
          = LoopState.running →
        (TcpComms.queue_tx_function ids tenv s ((-1, cmd) :: between)).hasBroker = true →
        (TcpComms.queue_tx_function ids tenv s ((-1, cmd) :: between)).brokerConnection
          = some broker →
        cmd.dest_id ≠ -1 →
        RouteTable.find
          (TcpComms.queue_tx_function ids tenv s ((-1, cmd) :: between)).routes cmd.dest_id
          = none →
        TcpComms.queue_tx_function ids tenv s ((-1, cmd) :: (between ++ [(cmd.dest_id, m)])) =
          { TcpComms.queue_tx_function ids tenv s ((-1, cmd) :: between) with
            trace := (TcpComms.queue_tx_function ids tenv s ((-1, cmd) :: between)).trace ++
              [TcpEvent.send broker m] })) ∧
    (∀ (s : IpcTx) (cmd : ActionMessage),
      (cmd.action = action_t.cmd_protocol ∨ cmd.action = action_t.cmd_protocol_priority) →
      cmd.index = ids.NEW_ROUTE →
      ienv.connectSucceeds s.attempts cmd.payload = false →
      IpcComms.txStep ids ienv s (-1, cmd) = { s with attempts := s.attempts + 1 } ∧
      (∀ rest, s.loop = LoopState.running →
        IpcComms.queue_tx_function ids ienv s ((-1, cmd) :: rest) =
          IpcComms.queue_tx_function ids ienv { s with attempts := s.attempts + 1 } rest) ∧
      (∀ (between : List (Int × ActionMessage)) (m : ActionMessage),
        (IpcComms.queue_tx_function ids ienv s ((-1, cmd) :: between)).loop
          = LoopState.running →
        (IpcComms.queue_tx_function ids ienv s ((-1, cmd) :: between)).hasBroker = true →
        cmd.dest_id ≠ -1 →
        RouteTable.find
          (IpcComms.queue_tx_function ids ienv s ((-1, cmd) :: between)).routes cmd.dest_id
          = none →
        IpcComms.queue_tx_function ids ienv s ((-1, cmd) :: (between ++ [(cmd.dest_id, m)])) =
          { IpcComms.queue_tx_function ids ienv s ((-1, cmd) :: between) with
            trace := (IpcComms.queue_tx_function ids ienv s ((-1, cmd) :: between)).trace ++
              (if m.action = action_t.cmd_init_grant ∧
                  (IpcComms.queue_tx_function ids ienv s ((-1, cmd) :: between)).operating
                    = false then
                [IpcEvent.sendMessage
                  (IpcComms.queue_tx_function ids ienv s ((-1, cmd) :: between)).rxQueue
                  IpcComms.setToOperatingMessage 3] else []) ++
              [IpcEvent.sendMessage
                (IpcComms.queue_tx_function ids ienv s ((-1, cmd) :: between)).brokerQueue m
                (if ienv.isPriorityCommand m = true then 3 else 1)] })) := by
  refine ⟨?_, ?_⟩
  · intro s cmd hp hid hfail
    have e : TcpComms.txStep ids tenv s (-1, cmd) = { s with created := s.created + 1 } := by
      simp [TcpComms.txStep, hp, hid, hfail]
    refine ⟨e, ?_, ?_⟩
    · intro rest hr
      simp only [TcpComms.queue_tx_function, hr, if_true, e]
    · intro between m broker hr hb hbr hd hf
      rw [← List.cons_append, tcp_tx_snoc ids tenv s _ _ hr]
      exact tcp_txStep_to_broker ids tenv _ _ m broker hd hb hbr hf
  · intro s cmd hp hid hfail
    have e : IpcComms.txStep ids ienv s (-1, cmd) = { s with attempts := s.attempts + 1 } := by
      simp [IpcComms.txStep, hp, hid, hfail]
    refine ⟨e, ?_, ?_⟩
    · intro rest hr
      simp only [IpcComms.queue_tx_function, hr, if_true, e]
    · intro between m hr hb hd hf
      rw [← List.cons_append, ipc_tx_snoc ids ienv s _ _ hr]
      exact ipc_txStep_to_broker ids ienv _ _ m hd hb hf

/-- C8 (amended) at a concrete input: route 7 is requested, the connection
fails, and the following message for route 7 goes to the broker. -/
theorem C8_failed_route_witness :
    TcpComms.queue_tx_function exampleIds ⟨fun _ _ => false, false⟩
        (freshTcpTx true connection_status.connected)
        ((-1, newRouteCommand exampleIds 7 "localhost:24201") :: ([] ++ [(7, dataMessage "hi")]))
      = { freshTcpTx true connection_status.connected with
          created := 1,
          trace := [TcpEvent.send ⟨1000, "localhost:24160"⟩ (dataMessage "hi")] } :=
  ((C8_failed_route exampleIds ⟨fun _ _ => false, false⟩ firstConnectOnly).1
    (freshTcpTx true connection_status.connected)
    (newRouteCommand exampleIds 7 "localhost:24201")
    (by decide) (by decide) (by decide)).2.2 [] (dataMessage "hi") ⟨1000, "localhost:24160"⟩
    (by decide) (by decide) (by decide) (by decide) (by decide)

/-! ## Shutdown: lemmas and claims -/

/-- A protocol `DISCONNECT` on route -1 takes the stream transport's loop to
`CLOSE_TX_LOOP`. -/
theorem tcp_txStep_disconnect (ids : ProtocolIds) (env : TcpTxEnv) (s : TcpTx)
    (d : ActionMessage) (hp : isProtocolCommand d = true) (hid : d.messageID = ids.DISCONNECT) :
    TcpComms.txStep ids env s (-1, d) = TcpComms.txClose ids s := by
  have h1 : ¬ ids.DISCONNECT = ids.NEW_ROUTE := fun e => ids.switch_tx.2 e.symm
  have h2 : ¬ ids.DISCONNECT = ids.CLOSE_RECEIVER := fun e => ids.switch_rx.2.2 e.symm
  simp only [TcpComms.txStep, hp, hid, true_and, if_true, h1, h2, if_false]

/-- A `CMD_PROTOCOL` or `CMD_PROTOCOL_PRIORITY` `DISCONNECT` on route -1 makes
the queue transport's loop return. -/
theorem ipc_txStep_disconnect (ids : ProtocolIds) (env : IpcTxEnv) (s : IpcTx)
    (d : ActionMessage)
    (hp : d.action = action_t.cmd_protocol ∨ d.action = action_t.cmd_protocol_priority)
    (hid : d.index = ids.DISCONNECT) :
    IpcComms.txStep ids env s (-1, d) =
      { s with tx_status := connection_status.terminated, loop := LoopState.finished } := by
  have h1 : ¬ ids.DISCONNECT = ids.NEW_ROUTE := fun e => ids.switch_tx.2 e.symm
  simp only [IpcComms.txStep, hp, hid, true_and, if_true, h1, if_false]

/-- After a stream-transport loop was fed a protocol `DISCONNECT` on route -1
it is not running. -/
theorem tcp_tx_after_disconnect (ids : ProtocolIds) (env : TcpTxEnv) (s : TcpTx)
    (before : List (Int × ActionMessage)) (d : ActionMessage)
    (hp : isProtocolCommand d = true) (hid : d.messageID = ids.DISCONNECT) :
    (TcpComms.queue_tx_function ids env s (before ++ [(-1, d)])).loop ≠ LoopState.running := by
  by_cases hr : (TcpComms.queue_tx_function ids env s before).loop = LoopState.running
  · rw [tcp_tx_snoc ids env s before _ hr, tcp_txStep_disconnect ids env _ d hp hid,
      tcp_txClose_eq]
    intro h
    exact LoopState.noConfusion h
  · rw [tcp_tx_append, tcp_tx_stopped ids env _ _ hr]
    exact hr

/-- After a queue-transport loop was fed a `CMD_PROTOCOL` or
`CMD_PROTOCOL_PRIORITY` `DISCONNECT` on route -1 it is not running. -/
theorem ipc_tx_after_disconnect (ids : ProtocolIds) (env : IpcTxEnv) (s : IpcTx)
    (before : List (Int × ActionMessage)) (d : ActionMessage)
    (hp : d.action = action_t.cmd_protocol ∨ d.action = action_t.cmd_protocol_priority)
    (hid : d.index = ids.DISCONNECT) :
    (IpcComms.queue_tx_function ids env s (before ++ [(-1, d)])).loop ≠ LoopState.running := by
  by_cases hr : (IpcComms.queue_tx_function ids env s before).loop = LoopState.running
  · rw [ipc_tx_snoc ids env s before _ hr, ipc_txStep_disconnect ids env _ d hp hid]
    intro h
    exact LoopState.noConfusion h
  · rw [ipc_tx_append, ipc_tx_stopped ids env _ _ hr]
    exact hr

/-- C9, as the claim states it, fails in the queue transport for a `DISCONNECT`
whose action is `CMD_PROTOCOL_BIG`: it is a protocol command, but the tx loop
only looks for `CMD_PROTOCOL` and `CMD_PROTOCOL_PRIORITY`, forwards it to the
local rx queue like any message for route -1, stays in the loop and sends the
item queued after it. -/
theorem C9_disconnect_stops_tx_counterexample :
    isProtocolCommand (disconnectCommand exampleIds action_t.cmd_protocol_big) = true ∧
    (disconnectCommand exampleIds action_t.cmd_protocol_big).index = exampleIds.DISCONNECT ∧
    (IpcComms.queue_tx_function exampleIds firstConnectOnly (freshIpcTx false)
      [(-1, disconnectCommand exampleIds action_t.cmd_protocol_big),
       (-1, dataMessage "late")]).trace
      = [IpcEvent.sendMessage ⟨1001, "local"⟩
            (disconnectCommand exampleIds action_t.cmd_protocol_big) 1,
         IpcEvent.sendMessage ⟨1001, "local"⟩ (dataMessage "late") 1] ∧
    (IpcComms.queue_tx_function exampleIds firstConnectOnly (freshIpcTx false)
      [(-1, disconnectCommand exampleIds action_t.cmd_protocol_big),
       (-1, dataMessage "late")]).loop = LoopState.running := by
  decide

/-- C9, amended: for every sequence of queued `(route_id, message)` items, the
stream-transport tx loop consumes nothing after a protocol command `DISCONNECT`
addressed to route -1, and the queue-transport tx loop consumes nothing after a
`DISCONNECT` addressed to route -1 whose action is `CMD_PROTOCOL` or
`CMD_PROTOCOL_PRIORITY`: the items that follow are not sent on any handle, not
pushed to the receiver and not installed as routes, the state of the loop being
what it was when it stopped at that item. -/
theorem C9_disconnect_stops_tx (ids : ProtocolIds) (tenv : TcpTxEnv) (ienv : IpcTxEnv) :
    (∀ (s : TcpTx) (before after : List (Int × ActionMessage)) (d : ActionMessage),
      isProtocolCommand d = true → d.messageID = ids.DISCONNECT →
      TcpComms.queue_tx_function ids tenv s (before ++ (-1, d) :: after) =
        TcpComms.queue_tx_function ids tenv s (before ++ [(-1, d)]) ∧
      (TcpComms.queue_tx_function ids tenv s (before ++ [(-1, d)])).loop
        ≠ LoopState.running) ∧
    (∀ (s : IpcTx) (before after : List (Int × ActionMessage)) (d : ActionMessage),
      (d.action = action_t.cmd_protocol ∨ d.action = action_t.cmd_protocol_priority) →
      d.index = ids.DISCONNECT →
      IpcComms.queue_tx_function ids ienv s (before ++ (-1, d) :: after) =
        IpcComms.queue_tx_function ids ienv s (before ++ [(-1, d)]) ∧
      (IpcComms.queue_tx_function ids ienv s (before ++ [(-1, d)])).loop
        ≠ LoopState.running) := by
  refine ⟨?_, ?_⟩
  · intro s before after d hp hid
    have hstop := tcp_tx_after_disconnect ids tenv s before d hp hid
    refine ⟨?_, hstop⟩
    have e : before ++ (-1, d) :: after = (before ++ [(-1, d)]) ++ after := by simp
    rw [e, tcp_tx_append, tcp_tx_stopped ids tenv _ _ hstop]
  · intro s before after d hp hid
    have hstop := ipc_tx_after_disconnect ids ienv s before d hp hid
    refine ⟨?_, hstop⟩
    have e : before ++ (-1, d) :: after = (before ++ [(-1, d)]) ++ after := by simp
    rw [e, ipc_tx_append, ipc_tx_stopped ids ienv _ _ hstop]

/-- C9 (amended) at a concrete input: a message and a `NEW_ROUTE` queued after
the `DISCONNECT` change nothing. -/
theorem C9_disconnect_stops_tx_witness :
    TcpComms.queue_tx_function exampleIds (firstCreateOnly false)
        (freshTcpTx true connection_status.connected)
        ([(0, dataMessage "early")] ++
          (-1, disconnectCommand exampleIds action_t.cmd_protocol) ::
          [(0, dataMessage "late"), (-1, newRouteCommand exampleIds 7 "localhost:24201")]) =
      TcpComms.queue_tx_function exampleIds (firstCreateOnly false)
        (freshTcpTx true connection_status.connected)
        ([(0, dataMessage "early")] ++
          [(-1, disconnectCommand exampleIds action_t.cmd_protocol)]) :=
  ((C9_disconnect_stops_tx exampleIds (firstCreateOnly false) firstConnectOnly).1
    (freshTcpTx true connection_status.connected) [(0, dataMessage "early")]
    [(0, dataMessage "late"), (-1, newRouteCommand exampleIds 7 "localhost:24201")]
    (disconnectCommand exampleIds action_t.cmd_protocol) (by decide) (by decide)).1

/-- C10: when the stream-transport tx loop processes `DISCONNECT` on route -1,
it closes the handle of every route in the route table and empties the table,
then pushes a `CLOSE_RECEIVER` protocol command into `rxMessageQueue` if and
only if the rx status is connected, and only after that sets the tx status to
terminated; it does nothing else and leaves the loop. -/
theorem C10_disconnect_shutdown (ids : ProtocolIds) (env : TcpTxEnv) (s : TcpTx)
    (d : ActionMessage) (hp : isProtocolCommand d = true)
    (hid : d.messageID = ids.DISCONNECT) :
    TcpComms.txStep ids env s (-1, d) =
      { s with
        trace := s.trace ++ s.routes.map (fun rt => TcpEvent.close rt.2)
          ++ (if s.rxStatus = connection_status.connected then
                [TcpEvent.rxPush
                  { ActionMessage.ofAction action_t.cmd_protocol with
                    messageID := ids.CLOSE_RECEIVER }]
              else [])
          ++ [TcpEvent.setTxStatus connection_status.terminated],
        routes := [],
        txStatus := connection_status.terminated,
        loop := LoopState.finished } := by
  rw [tcp_txStep_disconnect ids env s d hp hid, tcp_txClose_eq]
  rfl

/-- C10 at a concrete input: with routes 7 and 9 installed and the receiver
connected, the two connections are closed in key order, `CLOSE_RECEIVER` is
pushed, and the status is set last. -/
theorem C10_disconnect_shutdown_witness :
    (TcpComms.txStep exampleIds (firstCreateOnly false)
      { freshTcpTx false connection_status.connected with
        routes := [(7, ⟨0, "localhost:24201"⟩), (9, ⟨1, "localhost:24202"⟩)], created := 2 }
      (-1, disconnectCommand exampleIds action_t.cmd_protocol_priority)).trace =
      [TcpEvent.close ⟨0, "localhost:24201"⟩, TcpEvent.close ⟨1, "localhost:24202"⟩,
       TcpEvent.rxPush { ActionMessage.ofAction action_t.cmd_protocol with messageID := 1 },
       TcpEvent.setTxStatus connection_status.terminated] :=
  congrArg TcpTx.trace
    (C10_disconnect_shutdown exampleIds (firstCreateOnly false)
      { freshTcpTx false connection_status.connected with
        routes := [(7, ⟨0, "localhost:24201"⟩), (9, ⟨1, "localhost:24202"⟩)], created := 2 }
      (disconnectCommand exampleIds action_t.cmd_protocol_priority) (by decide) (by decide))

/-! ## The rx loop of the stream transport: lemmas and claims -/

/-- A function that is in neither loop pops nothing. -/
theorem tcp_rxLoops_stopped (ids : ProtocolIds) (env : TcpRxEnv) (s : TcpRx)
    (messages : List ActionMessage)
    (h : s.phase = RxPhase.binding ∨ s.phase = RxPhase.exited) :
    TcpComms.rxLoops ids env s messages = s := by
  cases messages with
  | nil => rfl
  | cons m rest =>
    rcases h with h | h <;> simp only [TcpComms.rxLoops, h]

/-- The four places the function can stand in. -/
theorem RxPhase.cases4 (p : RxPhase) :
    p = RxPhase.waiting ∨ p = RxPhase.serving ∨ p = RxPhase.binding ∨ p = RxPhase.exited := by
  cases p <;> simp

/-- An iteration of the first loop. -/
theorem tcp_rxLoops_waiting (ids : ProtocolIds) (env : TcpRxEnv) (s : TcpRx)
    (m : ActionMessage) (rest : List ActionMessage) (h : s.phase = RxPhase.waiting) :
    TcpComms.rxLoops ids env s (m :: rest) =
      TcpComms.rxLoops ids env (TcpComms.rxSettle env (TcpComms.rxWaitStep ids s m)) rest := by
  simp only [TcpComms.rxLoops, h]

/-- An iteration of the second loop. -/
theorem tcp_rxLoops_serving (ids : ProtocolIds) (env : TcpRxEnv) (s : TcpRx)
    (m : ActionMessage) (rest : List ActionMessage) (h : s.phase = RxPhase.serving) :
    TcpComms.rxLoops ids env s (m :: rest) =
      TcpComms.rxLoops ids env (TcpComms.rxServeStep ids s m) rest := by
  simp only [TcpComms.rxLoops, h]

/-- Feeding the loops two batches of messages, one after the other. -/
theorem tcp_rxLoops_append (ids : ProtocolIds) (env : TcpRxEnv)
    (before after : List ActionMessage) :
    ∀ s : TcpRx,
      TcpComms.rxLoops ids env s (before ++ after) =
        TcpComms.rxLoops ids env (TcpComms.rxLoops ids env s before) after := by
  induction before with
  | nil => intro s; rfl
  | cons m rest ih =>
    intro s
    rcases RxPhase.cases4 s.phase with hp | hp | hp | hp
    · rw [List.cons_append, tcp_rxLoops_waiting ids env s m _ hp,
        tcp_rxLoops_waiting ids env s m _ hp]
      exact ih _
    · rw [List.cons_append, tcp_rxLoops_serving ids env s m _ hp,
        tcp_rxLoops_serving ids env s m _ hp]
      exact ih _
    · rw [tcp_rxLoops_stopped ids env s _ (Or.inl hp),
        tcp_rxLoops_stopped ids env s _ (Or.inl hp),
        tcp_rxLoops_stopped ids env s _ (Or.inl hp)]
    · rw [tcp_rxLoops_stopped ids env s _ (Or.inr hp),
        tcp_rxLoops_stopped ids env s _ (Or.inr hp),
        tcp_rxLoops_stopped ids env s _ (Or.inr hp)]

/-- The assignments of two stretches of trace. -/
theorem assignedPorts_append (a b : List TcpRxEvent) :
    TcpRxEvent.assignedPorts (a ++ b) =
      TcpRxEvent.assignedPorts a ++ TcpRxEvent.assignedPorts b := by
  induction a with
  | nil => rfl
  | cons e rest ih =>
    cases e <;> simp [TcpRxEvent.assignedPorts, ih]

/-- The bind loop of an endpoint with an auto-assigned port and a broker
always reaches `server->start ()`, after one increment per failed bind. -/
theorem tcp_rxBindLoop_auto (fails : List Bool) :
    ∀ s : TcpRx, s.autoPortNumber = true → s.hasBroker = true →
      (TcpComms.rxBindLoop fails s).phase = RxPhase.serving ∧
      (TcpComms.rxBindLoop fails s).PortNumber = s.PortNumber + fails.length ∧
      TcpRxEvent.assignedPorts (TcpComms.rxBindLoop fails s).trace =
        TcpRxEvent.assignedPorts s.trace ++ TcpComms.retriedPorts s.PortNumber fails.length := by
  induction fails with
  | nil =>
    intro s _ _
    simp [TcpComms.rxBindLoop, TcpComms.retriedPorts, assignedPorts_append,
      TcpRxEvent.assignedPorts]
  | cons r rest ih =>
    intro s ha hb
    unfold TcpComms.rxBindLoop
    rw [if_pos ⟨ha, hb⟩]
    obtain ⟨h1, h2, h3⟩ := ih
      { s with PortNumber := s.PortNumber + 1,
               trace := s.trace ++
                 [TcpRxEvent.serverClose, TcpRxEvent.portNumberSet (s.PortNumber + 1),
                  TcpRxEvent.serverCreate (s.PortNumber + 1)] } ha hb
    refine ⟨h1, ?_, ?_⟩
    · rw [h2]
      simp only [List.length_cons]
      push_cast
      ring
    · rw [h3]
      simp [assignedPorts_append, TcpRxEvent.assignedPorts, TcpComms.retriedPorts]

/-- The bind loop of any other endpoint never assigns `PortNumber`. -/
theorem tcp_rxBindLoop_fixed (fails : List Bool) :
    ∀ s : TcpRx, ¬ (s.autoPortNumber = true ∧ s.hasBroker = true) →
      (TcpComms.rxBindLoop fails s).PortNumber = s.PortNumber ∧
      TcpRxEvent.assignedPorts (TcpComms.rxBindLoop fails s).trace =
        TcpRxEvent.assignedPorts s.trace ∧
      ((∀ r ∈ fails, r = true) → (TcpComms.rxBindLoop fails s).phase = RxPhase.serving) := by
  induction fails with
  | nil =>
    intro s _
    simp [TcpComms.rxBindLoop, assignedPorts_append, TcpRxEvent.assignedPorts]
  | cons r rest ih =>
    intro s hn
    unfold TcpComms.rxBindLoop
    rw [if_neg hn]
    by_cases hr : r = true
    · rw [if_pos hr]
      obtain ⟨h1, h2, h3⟩ := ih s hn
      exact ⟨h1, h2, fun hall => h3 (fun x hx => hall x (List.mem_cons_of_mem _ hx))⟩
    · rw [if_neg hr]
      refine ⟨rfl, ?_, ?_⟩
      · simp [assignedPorts_append, TcpRxEvent.assignedPorts]
      · intro hall
        exact absurd (hall r (List.mem_cons_self _ _)) hr

/-- The iteration of the first loop on a `PORT_DEFINITIONS` command. -/
theorem tcp_rxWaitStep_portdef (ids : ProtocolIds) (s : TcpRx) (m : ActionMessage)
    (hp : isProtocolCommand m = true) (hid : m.messageID = ids.PORT_DEFINITIONS) :
    TcpComms.rxWaitStep ids s m =
      TcpComms.rxWaitTest
        { s with
          openPortStart :=
            if s.openPortStart < 0 then TcpComms.derivedOpenPortStart m.source_handle
            else s.openPortStart,
          PortNumber := m.source_handle,
          trace := s.trace ++ [TcpRxEvent.portNumberSet m.source_handle] } := by
  unfold TcpComms.rxWaitStep
  rw [if_pos hp, if_pos hid]

/-- The iteration of the first loop on a message that is neither a
`PORT_DEFINITIONS` nor a close command. -/
theorem tcp_rxWaitStep_ignored (ids : ProtocolIds) (s : TcpRx) (m : ActionMessage)
    (h : ¬ (isProtocolCommand m = true ∧
        (m.messageID = ids.PORT_DEFINITIONS ∨ m.messageID = ids.CLOSE_RECEIVER
          ∨ m.messageID = ids.DISCONNECT))) :
    TcpComms.rxWaitStep ids s m = TcpComms.rxWaitTest s := by
  unfold TcpComms.rxWaitStep
  by_cases hp : isProtocolCommand m = true
  · have h1 : ¬ m.messageID = ids.PORT_DEFINITIONS := fun e => h ⟨hp, Or.inl e⟩
    have h2 : ¬ (m.messageID = ids.CLOSE_RECEIVER ∨ m.messageID = ids.DISCONNECT) :=
      fun e => h ⟨hp, Or.inr e⟩
    rw [if_pos hp, if_neg h1, if_neg h2]
  · rw [if_neg hp]

/-- The loop test with no port yet. -/
theorem tcp_rxWaitTest_neg (t : TcpRx) (h : t.PortNumber < 0) :
    TcpComms.rxWaitTest t = { t with phase := RxPhase.waiting } := by
  unfold TcpComms.rxWaitTest
  rw [if_pos h]

/-- The loop test with a port. -/
theorem tcp_rxWaitTest_nonneg (t : TcpRx) (h : 0 ≤ t.PortNumber) :
    TcpComms.rxWaitTest t = { t with phase := RxPhase.binding } := by
  unfold TcpComms.rxWaitTest
  rw [if_neg (by omega)]

/-- Nothing runs between the loops while the first loop goes on. -/
theorem tcp_rxSettle_other (env : TcpRxEnv) (t : TcpRx) (h : t.phase ≠ RxPhase.binding) :
    TcpComms.rxSettle env t = t := by
  unfold TcpComms.rxSettle
  rw [if_neg h]

/-- With a port, the code between the loops creates the server and runs the
bind loop. -/
theorem tcp_rxSettle_binding (env : TcpRxEnv) (t : TcpRx) (h : t.phase = RxPhase.binding)
    (h0 : 0 ≤ t.PortNumber) :
    TcpComms.rxSettle env t =
      TcpComms.rxBindLoop env.failedBinds
        { t with trace := t.trace ++ [TcpRxEvent.serverCreate t.PortNumber] } := by
  unfold TcpComms.rxSettle TcpComms.rxBind
  rw [if_pos h, if_neg (by omega)]

/-- The first loop over messages none of which ends the wait: close commands
are absent and every `PORT_DEFINITIONS` assigns a negative port. -/
theorem tcp_rxLoops_still_waiting (ids : ProtocolIds) (env : TcpRxEnv)
    (w : List ActionMessage) :
    ∀ s : TcpRx, s.phase = RxPhase.waiting → s.PortNumber < 0 →
      (∀ x ∈ w, ¬ TcpComms.isCloseCommand ids x ∧
        (TcpComms.isPortDefinitions ids x = true → x.source_handle < 0)) →
      (TcpComms.rxLoops ids env s w).phase = RxPhase.waiting ∧
      (TcpComms.rxLoops ids env s w).PortNumber < 0 ∧
      (TcpComms.rxLoops ids env s w).autoPortNumber = s.autoPortNumber ∧
      (TcpComms.rxLoops ids env s w).hasBroker = s.hasBroker ∧
      TcpRxEvent.assignedPorts (TcpComms.rxLoops ids env s w).trace =
        TcpRxEvent.assignedPorts s.trace ++
          (w.filter (TcpComms.isPortDefinitions ids)).map ActionMessage.source_handle := by
  induction w with
  | nil => intro s hp hn _; simp [TcpComms.rxLoops, hp, hn]
  | cons x rest ih =>
    intro s hp hn hw
    have hx := hw x (List.mem_cons_self _ _)
    have hrest : ∀ y ∈ rest, ¬ TcpComms.isCloseCommand ids y ∧
        (TcpComms.isPortDefinitions ids y = true → y.source_handle < 0) :=
      fun y hy => hw y (List.mem_cons_of_mem _ hy)
    rw [tcp_rxLoops_waiting ids env s x _ hp]
    by_cases hpd : TcpComms.isPortDefinitions ids x = true
    · have hneg := hx.2 hpd
      have hpd2 : isProtocolCommand x = true ∧ x.messageID = ids.PORT_DEFINITIONS := by
        simpa [TcpComms.isPortDefinitions] using hpd
      rw [tcp_rxWaitStep_portdef ids s x hpd2.1 hpd2.2, tcp_rxWaitTest_neg _ hneg,
        tcp_rxSettle_other env _ (fun hx => RxPhase.noConfusion hx)]
      have key := ih
        { s with
          openPortStart :=
            if s.openPortStart < 0 then TcpComms.derivedOpenPortStart x.source_handle
            else s.openPortStart,
          PortNumber := x.source_handle,
          trace := s.trace ++ [TcpRxEvent.portNumberSet x.source_handle],
          phase := RxPhase.waiting } rfl hneg hrest
      obtain ⟨h1, h2, h3, h4, h5⟩ := key
      refine ⟨h1, h2, h3, h4, ?_⟩
      rw [h5]
      simp [assignedPorts_append, TcpRxEvent.assignedPorts, List.filter_cons, hpd]
    · have hig : ¬ (isProtocolCommand x = true ∧
          (x.messageID = ids.PORT_DEFINITIONS ∨ x.messageID = ids.CLOSE_RECEIVER
            ∨ x.messageID = ids.DISCONNECT)) := by
        rintro ⟨h1, h2 | h2⟩
        · exact hpd (by simp [TcpComms.isPortDefinitions, h1, h2])
        · exact hx.1 ⟨h1, h2⟩
      have e1 : TcpComms.rxWaitTest s = s := by
        rw [tcp_rxWaitTest_neg s hn, ← hp]
      rw [tcp_rxWaitStep_ignored ids s x hig, e1,
        tcp_rxSettle_other env s (by rw [hp]; exact fun hx => RxPhase.noConfusion hx)]
      obtain ⟨h1, h2, h3, h4, h5⟩ := ih s hp hn hrest
      refine ⟨h1, h2, h3, h4, ?_⟩
      rw [h5]
      simp [List.filter_cons, hpd]

/-- The number of increments the bind loop makes. -/
theorem tcp_rxBindLoop_serving (fails : List Bool) (s : TcpRx)
    (hbind : (s.autoPortNumber = true ∧ s.hasBroker = true) ∨ ∀ r ∈ fails, r = true) :
    (TcpComms.rxBindLoop fails s).phase = RxPhase.serving ∧
    (TcpComms.rxBindLoop fails s).PortNumber =
      s.PortNumber +
        (if s.autoPortNumber = true ∧ s.hasBroker = true then (fails.length : Int) else 0) ∧
    TcpRxEvent.assignedPorts (TcpComms.rxBindLoop fails s).trace =
      TcpRxEvent.assignedPorts s.trace ++
        (if s.autoPortNumber = true ∧ s.hasBroker = true then
          TcpComms.retriedPorts s.PortNumber fails.length else []) := by
  by_cases ha : s.autoPortNumber = true ∧ s.hasBroker = true
  · obtain ⟨h1, h2, h3⟩ := tcp_rxBindLoop_auto fails s ha.1 ha.2
    rw [if_pos ha, if_pos ha]
    exact ⟨h1, h2, h3⟩
  · obtain ⟨h1, h2, h3⟩ := tcp_rxBindLoop_fixed fails s ha
    rw [if_neg ha, if_neg ha]
    rcases hbind with hb | hb
    · exact absurd hb ha
    · exact ⟨h3 hb, by rw [h1]; ring, by rw [h2]; simp⟩

/-- An endpoint that enters without a port, keeps waiting over `w`, and then
pops a `PORT_DEFINITIONS` with a non-negative port: where it stands once the
server has started. -/
theorem tcp_rx_port_assigned (ids : ProtocolIds) (env : TcpRxEnv) (s : TcpRx)
    (w : List ActionMessage) (m : ActionMessage) (hn : s.PortNumber < 0)
    (hw : ∀ x ∈ w, ¬ TcpComms.isCloseCommand ids x ∧
      (TcpComms.isPortDefinitions ids x = true → x.source_handle < 0))
    (hp : isProtocolCommand m = true) (hid : m.messageID = ids.PORT_DEFINITIONS)
    (h0 : 0 ≤ m.source_handle)
    (hbind : (s.autoPortNumber = true ∧ s.hasBroker = true) ∨
      ∀ r ∈ env.failedBinds, r = true) :
    (TcpComms.queue_rx_function ids env s (w ++ [m])).phase = RxPhase.serving ∧
    (TcpComms.queue_rx_function ids env s (w ++ [m])).PortNumber =
      m.source_handle +
        (if s.autoPortNumber = true ∧ s.hasBroker = true then
          (env.failedBinds.length : Int) else 0) ∧
    TcpRxEvent.assignedPorts (TcpComms.queue_rx_function ids env s (w ++ [m])).trace =
      TcpRxEvent.assignedPorts s.trace ++
        (w.filter (TcpComms.isPortDefinitions ids)).map ActionMessage.source_handle ++
        [m.source_handle] ++
        (if s.autoPortNumber = true ∧ s.hasBroker = true then
          TcpComms.retriedPorts m.source_handle env.failedBinds.length else []) := by
  unfold TcpComms.queue_rx_function
  rw [tcp_rxWaitTest_neg s hn, tcp_rxSettle_other env _ (fun hx => RxPhase.noConfusion hx),
    tcp_rxLoops_append]
  obtain ⟨t1, t2, t3, t4, t5⟩ :=
    tcp_rxLoops_still_waiting ids env w { s with phase := RxPhase.waiting } rfl hn hw
  generalize TcpComms.rxLoops ids env { s with phase := RxPhase.waiting } w = t at t1 t2 t3 t4 t5
  have t3' : t.autoPortNumber = s.autoPortNumber := t3
  have t4' : t.hasBroker = s.hasBroker := t4
  have t5' : TcpRxEvent.assignedPorts t.trace =
      TcpRxEvent.assignedPorts s.trace ++
        (w.filter (TcpComms.isPortDefinitions ids)).map ActionMessage.source_handle := t5
  rw [tcp_rxLoops_waiting ids env t m [] t1, tcp_rxWaitStep_portdef ids t m hp hid,
    tcp_rxWaitTest_nonneg _ h0, tcp_rxSettle_binding env _ rfl h0]
  have hb' : (t.autoPortNumber = true ∧ t.hasBroker = true) ∨
      ∀ r ∈ env.failedBinds, r = true := by
    rw [t3', t4']; exact hbind
  obtain ⟨b1, b2, b3⟩ := tcp_rxBindLoop_serving env.failedBinds
    { t with
      openPortStart :=
        if t.openPortStart < 0 then TcpComms.derivedOpenPortStart m.source_handle
        else t.openPortStart,
      PortNumber := m.source_handle,
      trace := t.trace ++ [TcpRxEvent.portNumberSet m.source_handle]
        ++ [TcpRxEvent.serverCreate m.source_handle],
      phase := RxPhase.binding } hb'
  simp only [TcpComms.rxLoops]
  refine ⟨b1, ?_, ?_⟩
  · rw [b2]
    simp only [t3', t4']
  · rw [b3]
    simp only [t3', t4', assignedPorts_append, t5', TcpRxEvent.assignedPorts,
      List.append_nil, List.append_assoc]

/-- C16: while the stream-transport rx loop waits for a port
(`PortNumber < 0`), a `PORT_DEFINITIONS` protocol command with
`source_handle = p` sets `PortNumber` to `p` (source_id 24160 and source_handle
24231 give `PortNumber == 24231`, which is still the port when the server
binds at once and starts); any message that is not a `PORT_DEFINITIONS`,
`CLOSE_RECEIVER` or `DISCONNECT` protocol command is consumed without changing
`PortNumber`, or anything else, and the loop keeps waiting. -/
theorem C16_port_definitions_sets_port (ids : ProtocolIds) (s : TcpRx) (m : ActionMessage) :
    (isProtocolCommand m = true → m.messageID = ids.PORT_DEFINITIONS →
      (TcpComms.rxWaitStep ids s m).PortNumber = m.source_handle ∧
      (TcpComms.rxWaitStep ids s m).trace =
        s.trace ++ [TcpRxEvent.portNumberSet m.source_handle]) ∧
    (¬ (isProtocolCommand m = true ∧
          (m.messageID = ids.PORT_DEFINITIONS ∨ m.messageID = ids.CLOSE_RECEIVER
            ∨ m.messageID = ids.DISCONNECT)) →
      (TcpComms.rxWaitStep ids s m).PortNumber = s.PortNumber ∧
      (s.phase = RxPhase.waiting → s.PortNumber < 0 → TcpComms.rxWaitStep ids s m = s)) ∧
    (s.PortNumber < 0 →
      (TcpComms.rxWaitStep ids s (portDefinitions ids 24160 24231)).PortNumber = 24231 ∧
      (TcpComms.queue_rx_function ids ⟨[]⟩ s [portDefinitions ids 24160 24231]).PortNumber
        = 24231 ∧
      (TcpComms.queue_rx_function ids ⟨[]⟩ s [portDefinitions ids 24160 24231]).phase
        = RxPhase.serving) := by
  refine ⟨?_, ?_, ?_⟩
  · intro hp hid
    rw [tcp_rxWaitStep_portdef ids s m hp hid]
    exact ⟨rfl, rfl⟩
  · intro h
    rw [tcp_rxWaitStep_ignored ids s m h]
    refine ⟨rfl, ?_⟩
    intro hp hn
    unfold TcpComms.rxWaitTest
    rw [if_pos hn, ← hp]
  · intro hn
    have hp : isProtocolCommand (portDefinitions ids 24160 24231) = true := rfl
    have hid : (portDefinitions ids 24160 24231).messageID = ids.PORT_DEFINITIONS := rfl
    have h0 : (0 : Int) ≤ (portDefinitions ids 24160 24231).source_handle := by
      show (0 : Int) ≤ 24231
      decide
    have key := tcp_rx_port_assigned ids ⟨[]⟩ s [] (portDefinitions ids 24160 24231) hn
      (fun x hx => absurd hx (List.not_mem_nil x)) hp hid h0
      (Or.inr (fun r hr => absurd hr (List.not_mem_nil r)))
    refine ⟨?_, ?_, key.1⟩
    · rw [tcp_rxWaitStep_portdef ids s _ hp hid]
      rfl
    · have e := key.2.1
      simp only [List.nil_append, List.length_nil, Nat.cast_zero, ite_self, add_zero] at e
      exact e

/-- C16 at a concrete input: the reply with source_handle 24231 gives port
24231, and a data message popped while waiting changes nothing. -/
theorem C16_port_definitions_sets_port_witness :
    ((TcpComms.rxWaitStep exampleIds (freshTcpRx true true)
        (portDefinitions exampleIds 24160 24231)).PortNumber = 24231 ∧
      (TcpComms.rxWaitStep exampleIds (freshTcpRx true true)
        (portDefinitions exampleIds 24160 24231)).trace
        = [] ++ [TcpRxEvent.portNumberSet 24231]) ∧
    TcpComms.rxWaitStep exampleIds (freshTcpRx true true) (dataMessage "x")
      = freshTcpRx true true :=
  ⟨(C16_port_definitions_sets_port exampleIds (freshTcpRx true true)
      (portDefinitions exampleIds 24160 24231)).1 (by decide) (by decide),
   ((C16_port_definitions_sets_port exampleIds (freshTcpRx true true)
      (dataMessage "x")).2.1 (by decide)).2 (by decide) (by decide)⟩

/-- A loop that is not running reads nothing. -/
theorem ipc_rxLoop_stopped (ids : ProtocolIds) (s : IpcRx) (messages : List ActionMessage)
    (h : s.loop ≠ LoopState.running) : IpcComms.rxLoop ids s messages = s := by
  cases messages with
  | nil => rfl
  | cons m rest => simp only [IpcComms.rxLoop, h, if_false]

/-- Feeding the loop two batches of messages, one after the other. -/
theorem ipc_rxLoop_append (ids : ProtocolIds) (before after : List ActionMessage) :
    ∀ s : IpcRx,
      IpcComms.rxLoop ids s (before ++ after) =
        IpcComms.rxLoop ids (IpcComms.rxLoop ids s before) after := by
  induction before with
  | nil => intro s; rfl
  | cons m rest ih =>
    intro s
    by_cases h : s.loop = LoopState.running
    · simp only [List.cons_append, IpcComms.rxLoop, h, if_true]
      exact ih _
    · simp only [List.cons_append, IpcComms.rxLoop, h, if_false]
      exact (ipc_rxLoop_stopped ids s after h).symm

/-- The state changes of two stretches of trace. -/
theorem stateChanges_append (a b : List IpcRxEvent) :
    IpcRxEvent.stateChanges (a ++ b) =
      IpcRxEvent.stateChanges a ++ IpcRxEvent.stateChanges b := by
  induction a with
  | nil => rfl
  | cons e rest ih =>
    cases e <;> simp [IpcRxEvent.stateChanges, ih]

/-- The iteration on a command that closes the receiver. -/
theorem ipc_rxStep_close (ids : ProtocolIds) (s : IpcRx) (cmd : ActionMessage)
    (h : IpcComms.closesReceiver ids cmd) :
    IpcComms.rxStep ids s cmd =
      { s with trace := s.trace ++ [IpcRxEvent.changeState queue_state_t.closing],
               rx_status := connection_status.terminated,
               loop := LoopState.finished } := by
  unfold IpcComms.rxStep
  rw [if_pos h.1, if_pos h.2]

/-- The block that sets the shared state to operating, spelled out. -/
theorem ipc_rxSetOperating_facts (s : IpcRx) :
    (IpcComms.rxSetOperating s).operating = true ∧
    (IpcComms.rxSetOperating s).loop = s.loop ∧
    (IpcComms.rxSetOperating s).rx_status = s.rx_status ∧
    IpcRxEvent.stateChanges (IpcComms.rxSetOperating s).trace =
      IpcRxEvent.stateChanges s.trace ++
        (if s.operating = false then [queue_state_t.operating] else []) := by
  unfold IpcComms.rxSetOperating
  by_cases h : s.operating = false
  · rw [if_pos h, if_pos h]
    refine ⟨rfl, rfl, rfl, ?_⟩
    simp [stateChanges_append, IpcRxEvent.stateChanges]
  · rw [if_neg h, if_neg h]
    refine ⟨by simpa using h, rfl, rfl, by simp⟩

/-- The iteration on a message that signals operating. -/
theorem ipc_rxStep_signal (ids : ProtocolIds) (s : IpcRx) (cmd : ActionMessage)
    (h : IpcComms.signalsOperating ids cmd) :
    (IpcComms.rxStep ids s cmd).operating = true ∧
    (IpcComms.rxStep ids s cmd).loop = s.loop ∧
    (IpcComms.rxStep ids s cmd).rx_status = s.rx_status ∧
    IpcRxEvent.stateChanges (IpcComms.rxStep ids s cmd).trace =
      IpcRxEvent.stateChanges s.trace ++
        (if s.operating = false then [queue_state_t.operating] else []) := by
  obtain ⟨f1, f2, f3, f4⟩ := ipc_rxSetOperating_facts s
  unfold IpcComms.rxStep
  rcases h with ⟨ha, hnc, hs⟩ | hg
  · rw [if_pos ha, if_neg hnc, if_pos hs]
    exact ⟨f1, f2, f3, f4⟩
  · have hna : ¬ (cmd.action = action_t.cmd_protocol ∨ cmd.action = action_t.cmd_protocol_big) := by
      rw [hg]; decide
    rw [if_neg hna]
    simp only [hg, if_true]
    refine ⟨f1, f2, f3, ?_⟩
    rw [stateChanges_append, f4]
    simp [IpcRxEvent.stateChanges]

/-- The iteration on any other message changes neither the shared state nor
`operating`, and stays in the loop. -/
theorem ipc_rxStep_neutral (ids : ProtocolIds) (s : IpcRx) (cmd : ActionMessage)
    (hc : ¬ IpcComms.closesReceiver ids cmd) (hs : ¬ IpcComms.signalsOperating ids cmd) :
    (IpcComms.rxStep ids s cmd).operating = s.operating ∧
    (IpcComms.rxStep ids s cmd).loop = s.loop ∧
    (IpcComms.rxStep ids s cmd).rx_status = s.rx_status ∧
    IpcRxEvent.stateChanges (IpcComms.rxStep ids s cmd).trace =
      IpcRxEvent.stateChanges s.trace := by
  unfold IpcComms.rxStep
  by_cases ha : cmd.action = action_t.cmd_protocol ∨ cmd.action = action_t.cmd_protocol_big
  · have h1 : ¬ cmd.index = ids.CLOSE_RECEIVER := fun e => hc ⟨ha, e⟩
    have h2 : ¬ cmd.index = SET_TO_OPERATING := fun e => hs (Or.inl ⟨ha, h1, e⟩)
    rw [if_pos ha, if_neg h1, if_neg h2]
    exact ⟨rfl, rfl, rfl, rfl⟩
  · have hg : ¬ cmd.action = action_t.cmd_init_grant := fun e => hs (Or.inr e)
    rw [if_neg ha]
    dsimp only
    rw [if_neg hg]
    refine ⟨rfl, rfl, rfl, ?_⟩
    simp [stateChanges_append, IpcRxEvent.stateChanges]

/-- The shared state changes a loop has made are told by `operating` and by
whether the loop was left. -/
theorem ipc_rxLoop_changes (ids : ProtocolIds) (messages : List ActionMessage) :
    ∀ s : IpcRx, s.loop = LoopState.running →
      IpcRxEvent.stateChanges s.trace =
        (if s.operating = true then [queue_state_t.operating] else []) →
      IpcRxEvent.stateChanges (IpcComms.rxLoop ids s messages).trace =
        (if (IpcComms.rxLoop ids s messages).operating = true then
          [queue_state_t.operating] else []) ++
        (if (IpcComms.rxLoop ids s messages).loop = LoopState.finished then
          [queue_state_t.closing] else []) := by
  induction messages with
  | nil =>
    intro s hr hc
    simp [IpcComms.rxLoop, hr, hc]
  | cons m rest ih =>
    intro s hr hc
    simp only [IpcComms.rxLoop, hr, if_true]
    by_cases hclose : IpcComms.closesReceiver ids m
    · rw [ipc_rxStep_close ids s m hclose, ipc_rxLoop_stopped ids _ _ (by simp)]
      simp [stateChanges_append, IpcRxEvent.stateChanges, hc]
    · by_cases hsig : IpcComms.signalsOperating ids m
      · obtain ⟨f1, f2, f3, f4⟩ := ipc_rxStep_signal ids s m hsig
        apply ih _ (by rw [f2]; exact hr)
        rw [f4, hc, f1]
        by_cases ho : s.operating = true
        · simp [ho]
        · simp [ho]
      · obtain ⟨f1, f2, f3, f4⟩ := ipc_rxStep_neutral ids s m hclose hsig
        apply ih _ (by rw [f2]; exact hr)
        rw [f4, f1]
        exact hc

/-- Messages that neither close the receiver nor signal operating leave the
loop running, `operating` and the shared state as they were. -/
theorem ipc_rxLoop_neutral (ids : ProtocolIds) (messages : List ActionMessage) :
    ∀ s : IpcRx, s.loop = LoopState.running →
      (∀ x ∈ messages, ¬ IpcComms.closesReceiver ids x ∧ ¬ IpcComms.signalsOperating ids x) →
      (IpcComms.rxLoop ids s messages).loop = LoopState.running ∧
      (IpcComms.rxLoop ids s messages).operating = s.operating ∧
      IpcRxEvent.stateChanges (IpcComms.rxLoop ids s messages).trace =
        IpcRxEvent.stateChanges s.trace := by
  induction messages with
  | nil => intro s hr _; exact ⟨hr, rfl, rfl⟩
  | cons m rest ih =>
    intro s hr hm
    have hx := hm m (List.mem_cons_self _ _)
    obtain ⟨f1, f2, f3, f4⟩ := ipc_rxStep_neutral ids s m hx.1 hx.2
    simp only [IpcComms.rxLoop, hr, if_true]
    obtain ⟨g1, g2, g3⟩ := ih (IpcComms.rxStep ids s m) (by rw [f2]; exact hr)
      (fun x hx => hm x (List.mem_cons_of_mem _ hx))
    exact ⟨g1, by rw [g2, f1], by rw [g3, f4]⟩

/-- C12, as the claim states it, fails for `DISCONNECT`: the rx loop of the
queue transport only leaves on `CLOSE_RECEIVER`.  A `CMD_PROTOCOL` command with
index `DISCONNECT` is read and skipped; the loop goes on to deliver the next
message, the shared state is not changed to closing and the rx status stays
connected. -/
theorem C12_ipc_rx_exit_counterexample :
    isProtocolCommand (disconnectCommand exampleIds action_t.cmd_protocol) = true ∧
    (disconnectCommand exampleIds action_t.cmd_protocol).index = exampleIds.DISCONNECT ∧
    (IpcComms.queue_rx_function exampleIds ⟨true, ""⟩ freshIpcRx
      [disconnectCommand exampleIds action_t.cmd_protocol, dataMessage "after"]).loop
      = LoopState.running ∧
    (IpcComms.queue_rx_function exampleIds ⟨true, ""⟩ freshIpcRx
      [disconnectCommand exampleIds action_t.cmd_protocol, dataMessage "after"]).rx_status
      = connection_status.connected ∧
    (IpcComms.queue_rx_function exampleIds ⟨true, ""⟩ freshIpcRx
      [disconnectCommand exampleIds action_t.cmd_protocol, dataMessage "after"]).trace
      = [IpcRxEvent.callback (dataMessage "after")] := by
  decide

/-- C12, amended: the queue-transport rx loop exits upon reading a
`CMD_PROTOCOL` or `CMD_PROTOCOL_BIG` command with index `CLOSE_RECEIVER`; it
then changes the shared state to closing and sets the rx status to terminated,
and reads nothing more.  A command with index `DISCONNECT` neither ends the
loop nor changes the rx status, whatever its action. -/
theorem C12_ipc_rx_exit (ids : ProtocolIds) :
    (∀ (s : IpcRx) (cmd : ActionMessage), IpcComms.closesReceiver ids cmd →
      IpcComms.rxStep ids s cmd =
        { s with trace := s.trace ++ [IpcRxEvent.changeState queue_state_t.closing],
                 rx_status := connection_status.terminated,
                 loop := LoopState.finished }) ∧
    (∀ (s : IpcRx) (before after : List ActionMessage) (cmd : ActionMessage),
      IpcComms.closesReceiver ids cmd →
      IpcComms.rxLoop ids s (before ++ cmd :: after) =
        IpcComms.rxLoop ids s (before ++ [cmd]) ∧
      (IpcComms.rxLoop ids s (before ++ [cmd])).loop ≠ LoopState.running) ∧
    (∀ (s : IpcRx) (cmd : ActionMessage), cmd.index = ids.DISCONNECT →
      (IpcComms.rxStep ids s cmd).loop = s.loop ∧
      (IpcComms.rxStep ids s cmd).rx_status = s.rx_status) := by
  refine ⟨?_, ?_, ?_⟩
  · intro s cmd h
    exact ipc_rxStep_close ids s cmd h
  · intro s before after cmd h
    have hstop : (IpcComms.rxLoop ids s (before ++ [cmd])).loop ≠ LoopState.running := by
      rw [ipc_rxLoop_append]
      by_cases hr : (IpcComms.rxLoop ids s before).loop = LoopState.running
      · simp only [IpcComms.rxLoop, hr, if_true, ipc_rxStep_close ids _ cmd h]
        exact fun hx => LoopState.noConfusion hx
      · rw [ipc_rxLoop_stopped ids _ _ hr]
        exact hr
    refine ⟨?_, hstop⟩
    have e : before ++ cmd :: after = (before ++ [cmd]) ++ after := by simp
    rw [e, ipc_rxLoop_append, ipc_rxLoop_stopped ids _ _ hstop]
  · intro s cmd hid
    have hnc : ¬ IpcComms.closesReceiver ids cmd := by
      intro hc
      exact ids.switch_rx.2.2 (hc.2.symm.trans hid)
    by_cases hsig : IpcComms.signalsOperating ids cmd
    · obtain ⟨_, f2, f3, _⟩ := ipc_rxStep_signal ids s cmd hsig
      exact ⟨f2, f3⟩
    · obtain ⟨_, f2, f3, _⟩ := ipc_rxStep_neutral ids s cmd hnc hsig
      exact ⟨f2, f3⟩

/-- C12 (amended) at a concrete input: a `CMD_PROTOCOL_BIG` `CLOSE_RECEIVER`
read by a connected receiver. -/
theorem C12_ipc_rx_exit_witness :
    IpcComms.rxStep exampleIds { freshIpcRx with rx_status := connection_status.connected }
        (closeReceiverCommand exampleIds action_t.cmd_protocol_big) =
      { operating := false, rx_status := connection_status.terminated,
        trace := [IpcRxEvent.changeState queue_state_t.closing],
        loop := LoopState.finished } :=
  (C12_ipc_rx_exit exampleIds).1 { freshIpcRx with rx_status := connection_status.connected }
    (closeReceiverCommand exampleIds action_t.cmd_protocol_big) (by decide)

/-- C19, as the claim states it, fails when the first `SET_TO_OPERATING`
protocol command has the action `CMD_PROTOCOL_PRIORITY`: the rx loop only takes
`CMD_PROTOCOL` and `CMD_PROTOCOL_BIG` for protocol commands, so it hands the
message to `ActionCallback` and leaves the shared state alone; the state is
changed at the later `CMD_PROTOCOL` one. -/
theorem C19_ipc_state_changes_counterexample :
    isProtocolCommand (setToOperatingCommand action_t.cmd_protocol_priority) = true ∧
    (setToOperatingCommand action_t.cmd_protocol_priority).index = 135111 ∧
    (IpcComms.queue_rx_function exampleIds ⟨true, ""⟩ freshIpcRx
      [setToOperatingCommand action_t.cmd_protocol_priority]).trace
      = [IpcRxEvent.callback (setToOperatingCommand action_t.cmd_protocol_priority)] ∧
    IpcRxEvent.stateChanges
      (IpcComms.queue_rx_function exampleIds ⟨true, ""⟩ freshIpcRx
        [setToOperatingCommand action_t.cmd_protocol_priority]).trace = [] ∧
    IpcRxEvent.stateChanges
      (IpcComms.queue_rx_function exampleIds ⟨true, ""⟩ freshIpcRx
        [setToOperatingCommand action_t.cmd_protocol_priority,
         setToOperatingCommand action_t.cmd_protocol]).trace = [queue_state_t.operating] := by
  decide

/-- C19, amended: for every sequence of messages read by the queue-transport
rx loop, the shared state is changed to operating at most once and never after
it has been changed to closing: the changes made are none, operating, closing,
or operating then closing.  The change to operating is made at the first
message that is either a `CMD_PROTOCOL` or `CMD_PROTOCOL_BIG` command with index
`SET_TO_OPERATING` (135111) or a `CMD_INIT_GRANT` message, when that message is
read before the loop is left; a `CMD_PROTOCOL_PRIORITY` command is not taken
for a protocol command by this loop. -/
theorem C19_ipc_state_changes (ids : ProtocolIds) :
    (∀ (env : IpcRxEnv) (s : IpcRx) (messages : List ActionMessage), s.trace = [] →
      IpcRxEvent.stateChanges (IpcComms.queue_rx_function ids env s messages).trace ∈
        [[], [queue_state_t.operating], [queue_state_t.closing],
         [queue_state_t.operating, queue_state_t.closing]]) ∧
    (∀ (s : IpcRx) (before : List ActionMessage) (m : ActionMessage),
      s.loop = LoopState.running → s.operating = false →
      (∀ x ∈ before, ¬ IpcComms.closesReceiver ids x ∧ ¬ IpcComms.signalsOperating ids x) →
      IpcComms.signalsOperating ids m →
      IpcRxEvent.stateChanges (IpcComms.rxLoop ids s before).trace =
        IpcRxEvent.stateChanges s.trace ∧
      IpcRxEvent.stateChanges (IpcComms.rxLoop ids s (before ++ [m])).trace =
        IpcRxEvent.stateChanges s.trace ++ [queue_state_t.operating]) := by
  refine ⟨?_, ?_⟩
  · intro env s messages ht
    unfold IpcComms.queue_rx_function
    by_cases hc : env.connected = false
    · rw [if_pos hc, ht]
      simp [IpcRxEvent.stateChanges]
    · rw [if_neg hc]
      have key := ipc_rxLoop_changes ids messages
        { s with rx_status := connection_status.connected, operating := false,
                 loop := LoopState.running } rfl (by simp [ht, IpcRxEvent.stateChanges])
      rw [key]
      split <;> split <;> simp
  · intro s before m hr ho hb hm
    obtain ⟨g1, g2, g3⟩ := ipc_rxLoop_neutral ids before s hr hb
    refine ⟨g3, ?_⟩
    rw [ipc_rxLoop_append]
    simp only [IpcComms.rxLoop, g1, if_true]
    obtain ⟨_, _, _, f4⟩ := ipc_rxStep_signal ids (IpcComms.rxLoop ids s before) m hm
    rw [f4, g3, g2, if_pos ho]

/-- C19 (amended) at a concrete input: data, then `CMD_INIT_GRANT`, then a
`SET_TO_OPERATING`, then `CLOSE_RECEIVER`, then more data. -/
theorem C19_ipc_state_changes_witness :
    IpcRxEvent.stateChanges
      (IpcComms.rxLoop exampleIds freshIpcRx
        ([dataMessage "a"] ++ [ActionMessage.ofAction action_t.cmd_init_grant])).trace =
      IpcRxEvent.stateChanges freshIpcRx.trace ++ [queue_state_t.operating] ∧
    IpcRxEvent.stateChanges
      (IpcComms.queue_rx_function exampleIds ⟨true, ""⟩ freshIpcRx
        [dataMessage "a", ActionMessage.ofAction action_t.cmd_init_grant,
         setToOperatingCommand action_t.cmd_protocol,
         closeReceiverCommand exampleIds action_t.cmd_protocol,
         ActionMessage.ofAction action_t.cmd_init_grant]).trace
      = [queue_state_t.operating, queue_state_t.closing] :=
  ⟨((C19_ipc_state_changes exampleIds).2 freshIpcRx [dataMessage "a"]
      (ActionMessage.ofAction action_t.cmd_init_grant)
      (by decide) (by decide) (by decide) (by decide)).2,
   by decide⟩

/-! ## The tx side of the queue transport: signal and start-up wait -/

/-- C20 fails on the code: the tx loop tests its local `operating` before it
sends `SET_TO_OPERATING` but never assigns it, so no iteration changes it and
every `CMD_INIT_GRANT` sends the signal again.  Two `CMD_INIT_GRANT` messages
for the broker give two `SET_TO_OPERATING` frames on the local rx queue. -/
theorem C20_set_to_operating_sent_again :
    (∀ (ids : ProtocolIds) (env : IpcTxEnv) (s : IpcTx) (item : Int × ActionMessage),
      (IpcComms.txStep ids env s item).operating = s.operating) ∧
    (IpcComms.queue_tx_function exampleIds firstConnectOnly (freshIpcTx true)
      [(0, ActionMessage.ofAction action_t.cmd_init_grant),
       (0, ActionMessage.ofAction action_t.cmd_init_grant)]).trace =
      [IpcEvent.sendMessage ⟨1001, "local"⟩ IpcComms.setToOperatingMessage 3,
       IpcEvent.sendMessage ⟨1000, "broker"⟩ (ActionMessage.ofAction action_t.cmd_init_grant) 1,
       IpcEvent.sendMessage ⟨1001, "local"⟩ IpcComms.setToOperatingMessage 3,
       IpcEvent.sendMessage ⟨1000, "broker"⟩ (ActionMessage.ofAction action_t.cmd_init_grant) 1] := by
  refine ⟨?_, by decide⟩
  intro ids env s item
  have hd : ∀ (t : IpcTx) r c p, (IpcComms.txDispatch t r c p).operating = t.operating := by
    intro t r c p
    unfold IpcComms.txDispatch
    split
    · split <;> rfl
    · split
      · rfl
      · split
        · rfl
        · split <;> rfl
  have hf : ∀ r c, (IpcComms.txForward env s r c).operating = s.operating := by
    intro r c
    unfold IpcComms.txForward
    simp only
    rw [hd, ipc_txSignalOperating_eq]
  unfold IpcComms.txStep
  simp only
  split
  · split
    · split <;> rfl
    · split
      · rfl
      · exact hf _ _
  · exact hf _ _

/-- The wait loop makes no more iterations than it takes `sleep_counter` to
pass 1700 by doubling: any larger bound gives the same result. -/
theorem txWaitLoop_fuel (rxStatusAt : Nat → connection_status) :
    ∀ (n fuel1 fuel2 k : Nat) (s : IpcTxWait), n + 1 ≤ fuel1 → n + 1 ≤ fuel2 →
      1700 < s.sleep_counter * 2 ^ (n + 1) →
      IpcComms.txWaitLoop rxStatusAt fuel1 k s = IpcComms.txWaitLoop rxStatusAt fuel2 k s := by
  intro n
  induction n with
  | zero =>
    intro fuel1 fuel2 k s h1 h2 hc
    obtain ⟨a, rfl⟩ : ∃ a, fuel1 = a + 1 := ⟨fuel1 - 1, by omega⟩
    obtain ⟨b, rfl⟩ : ∃ b, fuel2 = b + 1 := ⟨fuel2 - 1, by omega⟩
    have hc2 : s.sleep_counter * 2 > 1700 := by simpa using hc
    simp only [IpcComms.txWaitLoop, hc2, if_true]
  | succ m ih =>
    intro fuel1 fuel2 k s h1 h2 hc
    obtain ⟨a, rfl⟩ : ∃ a, fuel1 = a + 1 := ⟨fuel1 - 1, by omega⟩
    obtain ⟨b, rfl⟩ : ∃ b, fuel2 = b + 1 := ⟨fuel2 - 1, by omega⟩
    simp only [IpcComms.txWaitLoop]
    split
    · split
      · rfl
      · apply ih a b (k + 1) _ (by omega) (by omega)
        show 1700 < s.sleep_counter * 2 * 2 ^ (m + 1)
        have e : s.sleep_counter * 2 * 2 ^ (m + 1) = s.sleep_counter * 2 ^ (m + 1 + 1) := by ring
        rw [e]
        exact hc
    · rfl

/-- The sleeps of two stretches of trace. -/
theorem sleeps_append (a b : List IpcSetupEvent) :
    IpcSetupEvent.sleeps (a ++ b) = IpcSetupEvent.sleeps a ++ IpcSetupEvent.sleeps b := by
  induction a with
  | nil => rfl
  | cons e rest ih =>
    cases e <;> simp [IpcSetupEvent.sleeps, ih]

/-- C18, as the claim states it, fails on the total: with a receiver that
never leaves startup the loop sleeps 50, 100, 200, 400, 800 and 1600 ms, which
is 3150 ms and not at most 1700 ms, before it gives up. -/
theorem C18_rx_wait_backoff_counterexample :
    IpcSetupEvent.sleeps
      (IpcComms.txWaitForReceiver (fun _ => connection_status.startup) freshIpcTxWait).trace
      = [50, 100, 200, 400, 800, 1600] ∧
    (IpcSetupEvent.sleeps
      (IpcComms.txWaitForReceiver (fun _ => connection_status.startup)
        freshIpcTxWait).trace).sum = 3150 ∧
    ¬ ((IpcSetupEvent.sleeps
      (IpcComms.txWaitForReceiver (fun _ => connection_status.startup)
        freshIpcTxWait).trace).sum ≤ 1700) ∧
    (IpcComms.txWaitForReceiver (fun _ => connection_status.startup) freshIpcTxWait).returned
      = true := by
  decide

/-- C18, amended: in the queue transport, the tx loop's wait for the receiver
to leave startup is an exponential backoff capped per sleep: the first sleep
is 50 ms, each later sleep is twice the previous one, and no sleep of more than
1700 ms is made, so the sleeps are an initial part of 50, 100, 200, 400, 800,
1600.  The loop always ends: it makes at most six sleeps, and if the receiver
never comes up it gives up after exactly these six, 3150 ms in total, with
`tx_status` error and one `CMD_ERROR` message to `ActionCallback`. -/
theorem C18_rx_wait_backoff (rxStatusAt : Nat → connection_status) (s : IpcTxWait) :
    (∀ fuel, 6 ≤ fuel →
      IpcComms.txWaitLoop rxStatusAt fuel 0 { s with sleep_counter := 50 } =
        IpcComms.txWaitForReceiver rxStatusAt s) ∧
    (∃ n, n ≤ 6 ∧
      IpcSetupEvent.sleeps (IpcComms.txWaitForReceiver rxStatusAt s).trace =
        IpcSetupEvent.sleeps s.trace ++ [50, 100, 200, 400, 800, 1600].take n) ∧
    (IpcSetupEvent.sleeps (IpcComms.txWaitForReceiver rxStatusAt s).trace).sum ≤
      (IpcSetupEvent.sleeps s.trace).sum + 3150 ∧
    ((∀ k, rxStatusAt k = connection_status.startup) →
      IpcComms.txWaitForReceiver rxStatusAt s =
        { s with trace := s.trace ++
                   [IpcSetupEvent.sleep 50, IpcSetupEvent.sleep 100, IpcSetupEvent.sleep 200,
                    IpcSetupEvent.sleep 400, IpcSetupEvent.sleep 800, IpcSetupEvent.sleep 1600,
                    IpcSetupEvent.callback IpcComms.linkError],
                 sleep_counter := 3200,
                 tx_status := connection_status.error,
                 returned := true }) := by
  have hpre : ∃ n, n ≤ 6 ∧
      IpcSetupEvent.sleeps (IpcComms.txWaitForReceiver rxStatusAt s).trace =
        IpcSetupEvent.sleeps s.trace ++ [50, 100, 200, 400, 800, 1600].take n := by
    unfold IpcComms.txWaitForReceiver
    by_cases h0 : rxStatusAt 0 = connection_status.startup
    · by_cases h1 : rxStatusAt 1 = connection_status.startup
      · by_cases h2 : rxStatusAt 2 = connection_status.startup
        · by_cases h3 : rxStatusAt 3 = connection_status.startup
          · by_cases h4 : rxStatusAt 4 = connection_status.startup
            · by_cases h5 : rxStatusAt 5 = connection_status.startup
              · exact ⟨6, le_refl _, by
                  simp [IpcComms.txWaitLoop, h0, h1, h2, h3, h4, h5, sleeps_append,
                    IpcSetupEvent.sleeps]⟩
              · exact ⟨5, by omega, by
                  simp [IpcComms.txWaitLoop, h0, h1, h2, h3, h4, h5, sleeps_append,
                    IpcSetupEvent.sleeps]⟩
            · exact ⟨4, by omega, by
                simp [IpcComms.txWaitLoop, h0, h1, h2, h3, h4, sleeps_append,
                  IpcSetupEvent.sleeps]⟩
          · exact ⟨3, by omega, by
              simp [IpcComms.txWaitLoop, h0, h1, h2, h3, sleeps_append,
                IpcSetupEvent.sleeps]⟩
        · exact ⟨2, by omega, by
            simp [IpcComms.txWaitLoop, h0, h1, h2, sleeps_append, IpcSetupEvent.sleeps]⟩
      · exact ⟨1, by omega, by
          simp [IpcComms.txWaitLoop, h0, h1, sleeps_append, IpcSetupEvent.sleeps]⟩
    · exact ⟨0, by omega, by simp [IpcComms.txWaitLoop, h0]⟩
  refine ⟨?_, hpre, ?_, ?_⟩
  · intro fuel hf
    unfold IpcComms.txWaitForReceiver
    exact txWaitLoop_fuel rxStatusAt 5 fuel 6 0 _ (by omega) (by omega) (by
      show (1700 : Int) < 50 * 2 ^ (5 + 1)
      decide)
  · obtain ⟨n, hn, e⟩ := hpre
    rw [e, List.sum_append]
    have : ([50, 100, 200, 400, 800, 1600].take n : List Int).sum ≤ 3150 := by
      interval_cases n <;> decide
    omega
  · intro hall
    simp [IpcComms.txWaitForReceiver, IpcComms.txWaitLoop, hall]

/-- C18 (amended) at a concrete input: a receiver that never leaves startup. -/
theorem C18_rx_wait_backoff_witness :
    IpcComms.txWaitForReceiver (fun _ => connection_status.startup) freshIpcTxWait =
      { freshIpcTxWait with
        trace := freshIpcTxWait.trace ++
          [IpcSetupEvent.sleep 50, IpcSetupEvent.sleep 100, IpcSetupEvent.sleep 200,
           IpcSetupEvent.sleep 400, IpcSetupEvent.sleep 800, IpcSetupEvent.sleep 1600,
           IpcSetupEvent.callback IpcComms.linkError],
        sleep_counter := 3200,
        tx_status := connection_status.error,
        returned := true } :=
  (C18_rx_wait_backoff (fun _ => connection_status.startup) freshIpcTxWait).2.2.2
    (fun _ => rfl)

/-! ## Inbound data of the stream transport: lemmas and claims -/

/-- The loop of `dataReceive` consumes at least one byte per iteration: any
bound that covers the bytes left gives the same result. -/
theorem dataReceiveLoop_fuel (ids : ProtocolIds) (env : TcpRecvEnv) (connection : TcpConnection)
    (data : List Nat) :
    ∀ (fuel1 fuel2 used_total : Nat) (s : TcpRecv),
      data.length - used_total ≤ fuel1 → data.length - used_total ≤ fuel2 →
      TcpComms.dataReceiveLoop ids env connection data fuel1 used_total s =
        TcpComms.dataReceiveLoop ids env connection data fuel2 used_total s := by
  intro fuel1
  induction fuel1 with
  | zero =>
    intro fuel2 used_total s h1 _
    cases fuel2 with
    | zero => rfl
    | succ b =>
      have hn : ¬ used_total < data.length := by omega
      simp only [TcpComms.dataReceiveLoop, hn, if_false]
  | succ a ih =>
    intro fuel2 used_total s h1 h2
    cases fuel2 with
    | zero =>
      have hn : ¬ used_total < data.length := by omega
      simp only [TcpComms.dataReceiveLoop, hn, if_false]
    | succ b =>
      simp only [TcpComms.dataReceiveLoop]
      split
      · split
        · rfl
        · rename_i hu
          exact ih b _ _ (by omega) (by omega)
      · rfl

/-- The callbacks of two stretches of trace. -/
theorem callbacks_append (a b : List TcpEvent) :
    TcpEvent.callbacks (a ++ b) = TcpEvent.callbacks a ++ TcpEvent.callbacks b := by
  induction a with
  | nil => rfl
  | cons e rest ih => cases e <;> simp [TcpEvent.callbacks, ih]

/-- The pushes of two stretches of trace. -/
theorem pushes_append (a b : List TcpEvent) :
    TcpEvent.pushes (a ++ b) = TcpEvent.pushes a ++ TcpEvent.pushes b := by
  induction a with
  | nil => rfl
  | cons e rest ih => cases e <;> simp [TcpEvent.pushes, ih]

/-- The sends of two stretches of trace. -/
theorem sends_append (a b : List TcpEvent) :
    TcpEvent.sends (a ++ b) = TcpEvent.sends a ++ TcpEvent.sends b := by
  induction a with
  | nil => rfl
  | cons e rest ih => cases e <;> simp [TcpEvent.sends, ih]

/-- The reply to a `QUERY_PORTS` or `REQUEST_PORTS` protocol command is a
`CMD_PROTOCOL` message with sub-command `PORT_DEFINITIONS`. -/
theorem reply_of_answered (ids : ProtocolIds) (c : TcpComms) (m : ActionMessage)
    (h : TcpComms.isAnswered ids m = true) :
    (c.generateReplyToIncomingMessage ids m).1.action = action_t.cmd_protocol ∧
    (c.generateReplyToIncomingMessage ids m).1.messageID = ids.PORT_DEFINITIONS := by
  have h2 : isProtocolCommand m = true ∧
      (m.messageID = ids.QUERY_PORTS ∨ m.messageID = ids.REQUEST_PORTS) := by
    simpa [TcpComms.isAnswered] using h
  unfold TcpComms.generateReplyToIncomingMessage
  rw [if_pos h2.1]
  by_cases hq : m.messageID = ids.QUERY_PORTS
  · rw [if_pos hq]
    exact ⟨rfl, rfl⟩
  · rw [if_neg hq]
    have hr : m.messageID = ids.REQUEST_PORTS := h2.2.resolve_left hq
    rw [if_pos hr]
    exact ⟨rfl, rfl⟩

/-- The reply to anything else is `CMD_IGNORE`. -/
theorem reply_of_not_answered (ids : ProtocolIds) (c : TcpComms) (m : ActionMessage)
    (h : TcpComms.isAnswered ids m = false) :
    (c.generateReplyToIncomingMessage ids m).1.action = action_t.cmd_ignore := by
  unfold TcpComms.generateReplyToIncomingMessage
  by_cases hp : isProtocolCommand m = true
  · have hq : ¬ m.messageID = ids.QUERY_PORTS := by
      intro e
      simp [TcpComms.isAnswered, hp, e] at h
    have hr : ¬ m.messageID = ids.REQUEST_PORTS := by
      intro e
      simp [TcpComms.isAnswered, hp, e] at h
    rw [if_pos hp, if_neg hq, if_neg hr]
    rfl
  · rw [if_neg hp]
    rfl

/-- What processing one frame adds to the record of frames and to the
trace. -/
theorem receiveFrame_facts (ids : ProtocolIds) (env : TcpRecvEnv) (connection : TcpConnection)
    (s : TcpRecv) (m : ActionMessage) (used : Nat) :
    (TcpComms.receiveFrame ids env connection s m used).frames = s.frames ++ [(m, used)] ∧
    TcpEvent.callbacks (TcpComms.receiveFrame ids env connection s m used).trace =
      TcpEvent.callbacks s.trace ++
        (if env.hasCallback = true then [m].filter (fun x => !isProtocolCommand x) else []) ∧
    TcpEvent.pushes (TcpComms.receiveFrame ids env connection s m used).trace =
      TcpEvent.pushes s.trace ++
        [m].filter (fun x => isProtocolCommand x && !TcpComms.isAnswered ids x) ∧
    ∃ replies, TcpEvent.sends (TcpComms.receiveFrame ids env connection s m used).trace =
        TcpEvent.sends s.trace ++ replies ∧
      replies.length = ([m].filter (TcpComms.isAnswered ids)).length ∧
      ∀ x ∈ replies, x.1 = connection ∧ x.2.action = action_t.cmd_protocol ∧
        x.2.messageID = ids.PORT_DEFINITIONS := by
  unfold TcpComms.receiveFrame
  by_cases hp : isProtocolCommand m = true
  · rw [if_pos hp]
    by_cases ha : TcpComms.isAnswered ids m = true
    · obtain ⟨r1, r2⟩ := reply_of_answered ids s.comms m ha
      have hne : (s.comms.generateReplyToIncomingMessage ids m).1.action
          ≠ action_t.cmd_ignore := by rw [r1]; decide
      simp only
      rw [if_pos hne]
      refine ⟨rfl, ?_, ?_, ⟨[(connection, (s.comms.generateReplyToIncomingMessage ids m).1)],
        ?_, ?_, ?_⟩⟩
      · simp [callbacks_append, TcpEvent.callbacks, List.filter, hp]
      · simp [pushes_append, TcpEvent.pushes, List.filter, hp, ha]
      · simp [sends_append, TcpEvent.sends]
      · simp [List.filter, ha]
      · intro x hx
        rw [List.mem_singleton] at hx
        subst hx
        exact ⟨rfl, r1, r2⟩
    · have ha2 : TcpComms.isAnswered ids m = false := by simpa using ha
      have hig := reply_of_not_answered ids s.comms m ha2
      simp only
      rw [if_neg (by rw [hig]; exact fun h => h rfl)]
      refine ⟨rfl, ?_, ?_, ⟨[], ?_, ?_, ?_⟩⟩
      · simp [callbacks_append, TcpEvent.callbacks, List.filter, hp]
      · simp [pushes_append, TcpEvent.pushes, List.filter, hp, ha2]
      · simp [sends_append, TcpEvent.sends]
      · simp [List.filter, ha2]
      · intro x hx
        exact absurd hx (List.not_mem_nil x)
  · have hp2 : isProtocolCommand m = false := by simpa using hp
    have ha2 : TcpComms.isAnswered ids m = false := by simp [TcpComms.isAnswered, hp2]
    rw [if_neg hp]
    by_cases hc : env.hasCallback = true
    · rw [if_pos hc]
      refine ⟨rfl, ?_, ?_, ⟨[], ?_, ?_, ?_⟩⟩
      · simp [callbacks_append, TcpEvent.callbacks, List.filter, hp2, hc]
      · simp [pushes_append, TcpEvent.pushes, List.filter, hp2]
      · simp [sends_append, TcpEvent.sends]
      · simp [List.filter, ha2]
      · intro x hx
        exact absurd hx (List.not_mem_nil x)
    · rw [if_neg hc]
      refine ⟨rfl, ?_, ?_, ⟨[], ?_, ?_, ?_⟩⟩
      · simp [hc]
      · simp [List.filter, hp2]
      · simp
      · simp [List.filter, ha2]
      · intro x hx
        exact absurd hx (List.not_mem_nil x)

/-- The frames the loop processes and the count it returns. -/
theorem dataReceiveLoop_frames (ids : ProtocolIds) (env : TcpRecvEnv)
    (connection : TcpConnection) (data : List Nat) :
    ∀ (fuel used_total : Nat) (s : TcpRecv), data.length - used_total ≤ fuel →
      ∃ added,
        (TcpComms.dataReceiveLoop ids env connection data fuel used_total s).2.frames =
          s.frames ++ added ∧
        TcpComms.framesFrom env.depacketize data used_total added ∧
        (TcpComms.dataReceiveLoop ids env connection data fuel used_total s).1 =
          used_total + (added.map Prod.snd).sum ∧
        ((TcpComms.dataReceiveLoop ids env connection data fuel used_total s).1 < data.length →
          (env.depacketize (data.drop
            (TcpComms.dataReceiveLoop ids env connection data fuel used_total s).1)).2 = 0) ∧
        ((∀ buf, (env.depacketize buf).2 ≤ buf.length) → used_total ≤ data.length →
          (TcpComms.dataReceiveLoop ids env connection data fuel used_total s).1
            ≤ data.length) := by
  intro fuel
  induction fuel with
  | zero =>
    intro used_total s h
    refine ⟨[], by simp [TcpComms.dataReceiveLoop], trivial, by simp [TcpComms.dataReceiveLoop],
      ?_, ?_⟩
    · intro hlt
      simp only [TcpComms.dataReceiveLoop] at hlt
      omega
    · intro _ hle
      simpa [TcpComms.dataReceiveLoop] using hle
  | succ n ih =>
    intro used_total s h
    by_cases hlt : used_total < data.length
    · by_cases hz : (env.depacketize (data.drop used_total)).2 = 0
      · have e : TcpComms.dataReceiveLoop ids env connection data (n + 1) used_total s =
            (used_total, s) := by
          simp only [TcpComms.dataReceiveLoop, hlt, hz, if_true]
        rw [e]
        exact ⟨[], by simp, trivial, by simp, fun _ => hz, fun _ hle => hle⟩
      · have e : TcpComms.dataReceiveLoop ids env connection data (n + 1) used_total s =
            TcpComms.dataReceiveLoop ids env connection data n
              (used_total + (env.depacketize (data.drop used_total)).2)
              (TcpComms.receiveFrame ids env connection s
                (env.depacketize (data.drop used_total)).1
                (env.depacketize (data.drop used_total)).2) := by
          simp only [TcpComms.dataReceiveLoop, hlt, hz, if_true, if_false]
        rw [e]
        obtain ⟨added, a1, a2, a3, a4, a5⟩ := ih
          (used_total + (env.depacketize (data.drop used_total)).2)
          (TcpComms.receiveFrame ids env connection s
            (env.depacketize (data.drop used_total)).1
            (env.depacketize (data.drop used_total)).2) (by omega)
        refine ⟨env.depacketize (data.drop used_total) :: added, ?_, ?_, ?_, a4, ?_⟩
        · rw [a1, (receiveFrame_facts ids env connection s _ _).1]
          simp
        · exact ⟨hlt, rfl, hz, a2⟩
        · rw [a3]
          simp only [List.map_cons, List.sum_cons]
          omega
        · intro hb hle
          apply a5 hb
          have := hb (data.drop used_total)
          rw [List.length_drop] at this
          omega
    · have e : TcpComms.dataReceiveLoop ids env connection data (n + 1) used_total s =
          (used_total, s) := by
        simp only [TcpComms.dataReceiveLoop, hlt, if_false]
      rw [e]
      exact ⟨[], by simp, trivial, by simp, fun h2 => absurd h2 hlt, fun _ hle => hle⟩

/-- What the loop does with the frames it processes. -/
theorem dataReceiveLoop_trace (ids : ProtocolIds) (env : TcpRecvEnv)
    (connection : TcpConnection) (data : List Nat) :
    ∀ (fuel used_total : Nat) (s : TcpRecv),
      ∃ added,
        (TcpComms.dataReceiveLoop ids env connection data fuel used_total s).2.frames =
          s.frames ++ added ∧
        TcpEvent.callbacks
            (TcpComms.dataReceiveLoop ids env connection data fuel used_total s).2.trace =
          TcpEvent.callbacks s.trace ++
            (if env.hasCallback = true then
              (added.map Prod.fst).filter (fun x => !isProtocolCommand x) else []) ∧
        TcpEvent.pushes
            (TcpComms.dataReceiveLoop ids env connection data fuel used_total s).2.trace =
          TcpEvent.pushes s.trace ++
            (added.map Prod.fst).filter
              (fun x => isProtocolCommand x && !TcpComms.isAnswered ids x) ∧
        ∃ replies,
          TcpEvent.sends
              (TcpComms.dataReceiveLoop ids env connection data fuel used_total s).2.trace =
            TcpEvent.sends s.trace ++ replies ∧
          replies.length = ((added.map Prod.fst).filter (TcpComms.isAnswered ids)).length ∧
          ∀ x ∈ replies, x.1 = connection ∧ x.2.action = action_t.cmd_protocol ∧
            x.2.messageID = ids.PORT_DEFINITIONS := by
  intro fuel
  induction fuel with
  | zero =>
    intro used_total s
    exact ⟨[], by simp [TcpComms.dataReceiveLoop], by simp [TcpComms.dataReceiveLoop],
      by simp [TcpComms.dataReceiveLoop], [], by simp [TcpComms.dataReceiveLoop], rfl,
      fun x hx => absurd hx (List.not_mem_nil x)⟩
  | succ n ih =>
    intro used_total s
    have hstop : ∀ t : Nat × TcpRecv, t = (used_total, s) →
        ∃ added, t.2.frames = s.frames ++ added ∧
          TcpEvent.callbacks t.2.trace = TcpEvent.callbacks s.trace ++
            (if env.hasCallback = true then
              (added.map Prod.fst).filter (fun x => !isProtocolCommand x) else []) ∧
          TcpEvent.pushes t.2.trace = TcpEvent.pushes s.trace ++
            (added.map Prod.fst).filter
              (fun x => isProtocolCommand x && !TcpComms.isAnswered ids x) ∧
          ∃ replies, TcpEvent.sends t.2.trace = TcpEvent.sends s.trace ++ replies ∧
            replies.length = ((added.map Prod.fst).filter (TcpComms.isAnswered ids)).length ∧
            ∀ x ∈ replies, x.1 = connection ∧ x.2.action = action_t.cmd_protocol ∧
              x.2.messageID = ids.PORT_DEFINITIONS := by
      intro t ht
      subst ht
      exact ⟨[], by simp, by simp, by simp, [], by simp, rfl,
        fun x hx => absurd hx (List.not_mem_nil x)⟩
    by_cases hlt : used_total < data.length
    · by_cases hz : (env.depacketize (data.drop used_total)).2 = 0
      · apply hstop
        simp only [TcpComms.dataReceiveLoop, hlt, hz, if_true]
      · have e : TcpComms.dataReceiveLoop ids env connection data (n + 1) used_total s =
            TcpComms.dataReceiveLoop ids env connection data n
              (used_total + (env.depacketize (data.drop used_total)).2)
              (TcpComms.receiveFrame ids env connection s
                (env.depacketize (data.drop used_total)).1
                (env.depacketize (data.drop used_total)).2) := by
          simp only [TcpComms.dataReceiveLoop, hlt, hz, if_true, if_false]
        rw [e]
        obtain ⟨f1, f2, f3, fr, f4, f5, f6⟩ := receiveFrame_facts ids env connection s
          (env.depacketize (data.drop used_total)).1 (env.depacketize (data.drop used_total)).2
        obtain ⟨added, a1, a2, a3, replies, a4, a5, a6⟩ := ih
          (used_total + (env.depacketize (data.drop used_total)).2)
          (TcpComms.receiveFrame ids env connection s
            (env.depacketize (data.drop used_total)).1
            (env.depacketize (data.drop used_total)).2)
        refine ⟨env.depacketize (data.drop used_total) :: added, ?_, ?_, ?_,
          fr ++ replies, ?_, ?_, ?_⟩
        · rw [a1, f1]
          simp
        · rw [a2, f2]
          by_cases hc : env.hasCallback = true
          · simp only [hc, if_true, List.map_cons, List.append_assoc]
            rw [← List.filter_append]
            rfl
          · rw [if_neg hc, if_neg hc, if_neg hc]
            simp
        · rw [a3, f3, List.map_cons, List.append_assoc, ← List.filter_append]
          rfl
        · rw [a4, f4, List.append_assoc]
        · rw [List.length_append, a5, f5, List.map_cons, ← List.length_append,
            ← List.filter_append]
          rfl
        · intro x hx
          rcases List.mem_append.mp hx with h | h
          · exact f6 x h
          · exact a6 x h
    · apply hstop
      simp only [TcpComms.dataReceiveLoop, hlt, if_false]

/-- C13: for every buffer of `n` bytes, `dataReceive` terminates (the bound
the loop is run with is never exhausted) and returns the sum of the byte counts
reported by `depacketize` for the frames it processed, which are the frames
`depacketize` reports one after the other from offset 0; it stops at the first
position where `depacketize` reports 0 consumed bytes, processing no frame from
there on; and, provided `depacketize` never reports more bytes than it was
offered, the returned count is at most `n`, so that the unconsumed tail starts
exactly at the returned offset. -/
theorem C13_dataReceive_consumed (ids : ProtocolIds) (env : TcpRecvEnv)
    (connection : TcpConnection) (data : List Nat) (comms : TcpComms) (trace : List TcpEvent) :
    (∀ fuel, data.length ≤ fuel →
      TcpComms.dataReceiveLoop ids env connection data fuel 0 ⟨comms, trace, []⟩ =
        TcpComms.dataReceive ids env connection data ⟨comms, trace, []⟩) ∧
    (TcpComms.dataReceive ids env connection data ⟨comms, trace, []⟩).1 =
      ((TcpComms.dataReceive ids env connection data ⟨comms, trace, []⟩).2.frames.map
        Prod.snd).sum ∧
    TcpComms.framesFrom env.depacketize data 0
      (TcpComms.dataReceive ids env connection data ⟨comms, trace, []⟩).2.frames ∧
    ((TcpComms.dataReceive ids env connection data ⟨comms, trace, []⟩).1 < data.length →
      (env.depacketize (data.drop
        (TcpComms.dataReceive ids env connection data ⟨comms, trace, []⟩).1)).2 = 0) ∧
    ((∀ buf, (env.depacketize buf).2 ≤ buf.length) →
      (TcpComms.dataReceive ids env connection data ⟨comms, trace, []⟩).1 ≤ data.length ∧
      (data.drop (TcpComms.dataReceive ids env connection data ⟨comms, trace, []⟩).1).length =
        data.length - (TcpComms.dataReceive ids env connection data ⟨comms, trace, []⟩).1) := by
  obtain ⟨added, a1, a2, a3, a4, a5⟩ :=
    dataReceiveLoop_frames ids env connection data data.length 0 ⟨comms, trace, []⟩ (by omega)
  have a1' : (TcpComms.dataReceive ids env connection data ⟨comms, trace, []⟩).2.frames
      = added := by simpa using a1
  refine ⟨?_, ?_, ?_, a4, ?_⟩
  · intro fuel hf
    exact dataReceiveLoop_fuel ids env connection data fuel data.length 0 _ (by omega) (by omega)
  · rw [a1']
    unfold TcpComms.dataReceive
    rw [a3]
    omega
  · rw [a1']
    exact a2
  · intro hb
    exact ⟨a5 hb (Nat.zero_le _), List.length_drop _ _⟩

/-- C13 at a concrete input: a buffer with three complete frames of 2, 2 and 3
bytes followed by 2 bytes of an incomplete frame: 7 bytes are consumed. -/
theorem C13_dataReceive_consumed_witness :
    (TcpComms.dataReceive exampleIds ⟨exampleDepacketize exampleIds, true⟩ ⟨7, "peer"⟩
        [2, 9, 2, 1, 3, 2, 7, 5, 9] ⟨⟨24160, -1, false, ∅⟩, [], []⟩).1 = 7 ∧
    (TcpComms.dataReceive exampleIds ⟨exampleDepacketize exampleIds, true⟩ ⟨7, "peer"⟩
        [2, 9, 2, 1, 3, 2, 7, 5, 9] ⟨⟨24160, -1, false, ∅⟩, [], []⟩).1 =
      ((TcpComms.dataReceive exampleIds ⟨exampleDepacketize exampleIds, true⟩ ⟨7, "peer"⟩
        [2, 9, 2, 1, 3, 2, 7, 5, 9] ⟨⟨24160, -1, false, ∅⟩, [], []⟩).2.frames.map
        Prod.snd).sum :=
  ⟨by decide,
   (C13_dataReceive_consumed exampleIds ⟨exampleDepacketize exampleIds, true⟩ ⟨7, "peer"⟩
      [2, 9, 2, 1, 3, 2, 7, 5, 9] ⟨24160, -1, false, ∅⟩ []).2.1⟩

/-- C14: for every buffer passed to `dataReceive` with an `ActionCallback`
installed, the non-protocol frames it processes are delivered to
`ActionCallback` exactly once each and in the order they appear in the buffer,
and no protocol command is delivered to `ActionCallback`: a protocol command is
either answered on the connection with a `PORT_DEFINITIONS` reply
(`QUERY_PORTS`, `REQUEST_PORTS`) or pushed onto `rxMessageQueue`, so a protocol
command with an unknown sub-id does not affect the delivery of the other
frames. -/
theorem C14_dataReceive_delivery (ids : ProtocolIds) (env : TcpRecvEnv)
    (connection : TcpConnection) (data : List Nat) (comms : TcpComms) (trace : List TcpEvent)
    (hc : env.hasCallback = true) :
    TcpEvent.callbacks (TcpComms.dataReceive ids env connection data ⟨comms, trace, []⟩).2.trace =
      TcpEvent.callbacks trace ++
        ((TcpComms.dataReceive ids env connection data ⟨comms, trace, []⟩).2.frames.map
          Prod.fst).filter (fun x => !isProtocolCommand x) ∧
    (∀ m ∈ TcpEvent.callbacks
        (TcpComms.dataReceive ids env connection data ⟨comms, trace, []⟩).2.trace,
      m ∈ TcpEvent.callbacks trace ∨ isProtocolCommand m = false) ∧
    TcpEvent.pushes (TcpComms.dataReceive ids env connection data ⟨comms, trace, []⟩).2.trace =
      TcpEvent.pushes trace ++
        ((TcpComms.dataReceive ids env connection data ⟨comms, trace, []⟩).2.frames.map
          Prod.fst).filter (fun x => isProtocolCommand x && !TcpComms.isAnswered ids x) ∧
    ∃ replies,
      TcpEvent.sends (TcpComms.dataReceive ids env connection data ⟨comms, trace, []⟩).2.trace =
        TcpEvent.sends trace ++ replies ∧
      replies.length =
        (((TcpComms.dataReceive ids env connection data ⟨comms, trace, []⟩).2.frames.map
          Prod.fst).filter (TcpComms.isAnswered ids)).length ∧
      ∀ x ∈ replies, x.1 = connection ∧ x.2.action = action_t.cmd_protocol ∧
        x.2.messageID = ids.PORT_DEFINITIONS := by
  obtain ⟨added, a1, a2, a3, replies, a4, a5, a6⟩ :=
    dataReceiveLoop_trace ids env connection data data.length 0 ⟨comms, trace, []⟩
  have a1' : (TcpComms.dataReceive ids env connection data ⟨comms, trace, []⟩).2.frames
      = added := by simpa using a1
  rw [if_pos hc] at a2
  have hcb : TcpEvent.callbacks
      (TcpComms.dataReceive ids env connection data ⟨comms, trace, []⟩).2.trace =
      TcpEvent.callbacks trace ++
        (added.map Prod.fst).filter (fun x => !isProtocolCommand x) := a2
  refine ⟨by rw [a1']; exact hcb, ?_, by rw [a1']; exact a3,
    replies, a4, by rw [a1']; exact a5, a6⟩
  intro m hm
  rw [hcb] at hm
  rcases List.mem_append.mp hm with h | h
  · exact Or.inl h
  · right
    have := (List.mem_filter.mp h).2
    simpa using this

/-- C14 at a concrete input: a data frame, a `QUERY_PORTS`, a protocol command
with the unknown sub-command 99, and another data frame: the two data frames
reach `ActionCallback` in order, the unknown command goes to
`rxMessageQueue`. -/
theorem C14_dataReceive_delivery_witness :
    TcpEvent.callbacks
      (TcpComms.dataReceive exampleIds ⟨exampleDepacketize exampleIds, true⟩ ⟨7, "peer"⟩
        [2, 9, 2, 1, 3, 2, 7, 4, 9, 9, 9] ⟨⟨24160, -1, false, ∅⟩, [], []⟩).2.trace =
      [{ ActionMessage.ofAction (action_t.cmd_other 500) with source_id := 2 },
       { ActionMessage.ofAction (action_t.cmd_other 500) with source_id := 4 }] ∧
    TcpEvent.pushes
      (TcpComms.dataReceive exampleIds ⟨exampleDepacketize exampleIds, true⟩ ⟨7, "peer"⟩
        [2, 9, 2, 1, 3, 2, 7, 4, 9, 9, 9] ⟨⟨24160, -1, false, ∅⟩, [], []⟩).2.trace =
      TcpEvent.pushes [] ++
        ((TcpComms.dataReceive exampleIds ⟨exampleDepacketize exampleIds, true⟩ ⟨7, "peer"⟩
          [2, 9, 2, 1, 3, 2, 7, 4, 9, 9, 9] ⟨⟨24160, -1, false, ∅⟩, [], []⟩).2.frames.map
          Prod.fst).filter
          (fun x => isProtocolCommand x && !TcpComms.isAnswered exampleIds x) :=
  ⟨by decide,
   (C14_dataReceive_delivery exampleIds ⟨exampleDepacketize exampleIds, true⟩ ⟨7, "peer"⟩
      [2, 9, 2, 1, 3, 2, 7, 4, 9, 9, 9] ⟨24160, -1, false, ∅⟩ [] rfl).2.2.1⟩

/-! ## Port negotiation time-out: lemmas and claim -/

/-- One iteration of the negotiation loop, spelled out. -/
theorem negotiationLoop_step (ids : ProtocolIds) (env : BrokerEnv) (fuel k : Nat)
    (cumsleep : Int) (s : TcpSetup) :
    TcpComms.negotiationLoop ids env (fuel + 1) k cumsleep s =
      if env.portNumberAt k < 0 then
        if (TcpComms.negotiationPop ids (s.emit [TcpSetupEvent.sleep 100]) (env.tryPop k)).2
            = true then
          (false,
            ((TcpComms.negotiationPop ids (s.emit [TcpSetupEvent.sleep 100])
              (env.tryPop k)).1.emit [TcpSetupEvent.cancel]).setTxStatus
              connection_status.terminated)
        else if cumsleep + 100 ≥ s.connectionTimeout then
          (false,
            ((TcpComms.negotiationPop ids (s.emit [TcpSetupEvent.sleep 100])
              (env.tryPop k)).1.emit
                [TcpSetupEvent.cancel,
                 TcpSetupEvent.logError "port number query to broker timed out"]).setTxStatus
              connection_status.terminated)
        else
          TcpComms.negotiationLoop ids env fuel (k + 1) (cumsleep + 100)
            (TcpComms.negotiationPop ids (s.emit [TcpSetupEvent.sleep 100]) (env.tryPop k)).1
      else (true, { s with PortNumber := env.portNumberAt k }) := rfl

/-- A poll does not change `connectionTimeout`. -/
theorem negotiationPop_timeout (ids : ProtocolIds) (s : TcpSetup)
    (mess : Option (Int × ActionMessage)) :
    (TcpComms.negotiationPop ids s mess).1.connectionTimeout = s.connectionTimeout := by
  unfold TcpComms.negotiationPop
  cases mess with
  | none => rfl
  | some item =>
    simp only
    split
    · split
      · rfl
      · split <;> rfl
    · rfl

/-- The negotiation loop returns by the time `cumsleep` reaches
`connectionTimeout`: any bound that covers the polls left gives the same
result, so the bound `establishBrokerConnection` is run with is never
exhausted. -/
theorem negotiationLoop_fuel (ids : ProtocolIds) (env : BrokerEnv) :
    ∀ (n fuel1 fuel2 k : Nat) (cumsleep : Int) (s : TcpSetup),
      n + 1 ≤ fuel1 → n + 1 ≤ fuel2 → cumsleep + 100 * (n + 1) ≥ s.connectionTimeout →
      TcpComms.negotiationLoop ids env fuel1 k cumsleep s =
        TcpComms.negotiationLoop ids env fuel2 k cumsleep s := by
  intro n
  induction n with
  | zero =>
    intro fuel1 fuel2 k cumsleep s h1 h2 hT
    obtain ⟨a, rfl⟩ : ∃ a, fuel1 = a + 1 := ⟨fuel1 - 1, by omega⟩
    obtain ⟨b, rfl⟩ : ∃ b, fuel2 = b + 1 := ⟨fuel2 - 1, by omega⟩
    have hto : cumsleep + 100 ≥ s.connectionTimeout := by
      simp only [Nat.cast_zero, zero_add, mul_one] at hT
      exact hT
    rw [negotiationLoop_step, negotiationLoop_step, if_pos hto, if_pos hto]
  | succ m ih =>
    intro fuel1 fuel2 k cumsleep s h1 h2 hT
    obtain ⟨a, rfl⟩ : ∃ a, fuel1 = a + 1 := ⟨fuel1 - 1, by omega⟩
    obtain ⟨b, rfl⟩ : ∃ b, fuel2 = b + 1 := ⟨fuel2 - 1, by omega⟩
    rw [negotiationLoop_step, negotiationLoop_step]
    have key := ih a b (k + 1) (cumsleep + 100)
      (TcpComms.negotiationPop ids (s.emit [TcpSetupEvent.sleep 100]) (env.tryPop k)).1
      (by omega) (by omega) (by
        rw [negotiationPop_timeout]
        show cumsleep + 100 + 100 * ((m : Int) + 1) ≥ s.connectionTimeout
        push_cast at hT
        omega)
    rw [key]

/-- The callbacks of two stretches of a trace of the rx loop. -/
theorem ipc_callbacks_append (a b : List IpcRxEvent) :
    IpcRxEvent.callbacks (a ++ b) = IpcRxEvent.callbacks a ++ IpcRxEvent.callbacks b := by
  induction a with
  | nil => rfl
  | cons e rest ih =>
    cases e <;> simp [IpcRxEvent.callbacks, ih]

/-- The block that sets the shared state to operating calls nothing back. -/
theorem ipc_rxSetOperating_callbacks (s : IpcRx) :
    IpcRxEvent.callbacks (IpcComms.rxSetOperating s).trace = IpcRxEvent.callbacks s.trace := by
  unfold IpcComms.rxSetOperating
  by_cases h : s.operating = false
  · rw [if_pos h]
    simp [ipc_callbacks_append, IpcRxEvent.callbacks]
  · rw [if_neg h]

/-- One iteration hands the message to `ActionCallback` unless its action is
`CMD_PROTOCOL` or `CMD_PROTOCOL_BIG`, and leaves the loop exactly on a command
that closes the receiver. -/
theorem ipc_rxStep_callbacks (ids : ProtocolIds) (s : IpcRx) (cmd : ActionMessage) :
    IpcRxEvent.callbacks (IpcComms.rxStep ids s cmd).trace =
      IpcRxEvent.callbacks s.trace ++
        (if IpcComms.rxTakesForProtocol cmd = true then [] else [cmd]) ∧
    (IpcComms.rxStep ids s cmd).loop =
      (if IpcComms.closesReceiver ids cmd then LoopState.finished else s.loop) := by
  obtain ⟨_, f2, _, _⟩ := ipc_rxSetOperating_facts s
  have f5 := ipc_rxSetOperating_callbacks s
  unfold IpcComms.rxStep
  by_cases ha : cmd.action = action_t.cmd_protocol ∨ cmd.action = action_t.cmd_protocol_big
  · have ht : IpcComms.rxTakesForProtocol cmd = true := by
      unfold IpcComms.rxTakesForProtocol
      exact decide_eq_true ha
    rw [if_pos ha, if_pos ht, List.append_nil]
    by_cases hc : cmd.index = ids.CLOSE_RECEIVER
    · have hcl : IpcComms.closesReceiver ids cmd := ⟨ha, hc⟩
      rw [if_pos hc, if_pos hcl]
      refine ⟨?_, rfl⟩
      simp [ipc_callbacks_append, IpcRxEvent.callbacks]
    · have hcl : ¬ IpcComms.closesReceiver ids cmd := fun h => hc h.2
      rw [if_neg hc, if_neg hcl]
      by_cases hs : cmd.index = SET_TO_OPERATING
      · rw [if_pos hs]
        exact ⟨f5, f2⟩
      · rw [if_neg hs]
        exact ⟨rfl, rfl⟩
  · have ht : ¬ IpcComms.rxTakesForProtocol cmd = true := by
      unfold IpcComms.rxTakesForProtocol
      simpa using ha
    have hcl : ¬ IpcComms.closesReceiver ids cmd := fun h => ha h.1
    rw [if_neg ha, if_neg ht, if_neg hcl]
    dsimp only
    by_cases hg : cmd.action = action_t.cmd_init_grant
    · rw [if_pos hg]
      refine ⟨?_, f2⟩
      rw [ipc_callbacks_append, f5]
      rfl
    · rw [if_neg hg]
      refine ⟨?_, rfl⟩
      rw [ipc_callbacks_append]
      rfl

/-- What a running loop hands to `ActionCallback`. -/
theorem ipc_rxLoop_callbacks (ids : ProtocolIds) (messages : List ActionMessage) :
    ∀ s : IpcRx, s.loop = LoopState.running →
      IpcRxEvent.callbacks (IpcComms.rxLoop ids s messages).trace =
        IpcRxEvent.callbacks s.trace ++
          (IpcComms.messagesRead ids messages).filter
            (fun cmd => !IpcComms.rxTakesForProtocol cmd) := by
  induction messages with
  | nil => intro s _; simp [IpcComms.rxLoop, IpcComms.messagesRead]
  | cons m rest ih =>
    intro s hr
    obtain ⟨f1, f2⟩ := ipc_rxStep_callbacks ids s m
    simp only [IpcComms.rxLoop, hr, if_true, IpcComms.messagesRead]
    by_cases hcl : IpcComms.closesReceiver ids m
    · have ht : IpcComms.rxTakesForProtocol m = true := by
        unfold IpcComms.rxTakesForProtocol
        exact decide_eq_true hcl.1
      rw [if_pos hcl] at f2
      rw [if_pos ht] at f1
      rw [ipc_rxLoop_stopped ids _ _ (by rw [f2]; decide), f1, if_pos hcl]
      simp [ht]
    · rw [if_neg hcl] at f2
      rw [if_neg hcl, ih _ (by rw [f2]; exact hr), f1, List.filter_cons]
      by_cases ht : IpcComms.rxTakesForProtocol m = true
      · simp [ht]
      · simp [ht]

/-- C21, as the claim states it, fails for `CMD_PROTOCOL_PRIORITY`: such a
message is a protocol command, but the rx loop of the queue transport tests the
action against `CMD_PROTOCOL` and `CMD_PROTOCOL_BIG` only, so it hands the
message to `ActionCallback`. -/
theorem C21_ipc_rx_forwarding_counterexample :
    isProtocolCommand (ActionMessage.ofAction action_t.cmd_protocol_priority) = true ∧
    IpcRxEvent.callbacks
      (IpcComms.queue_rx_function exampleIds ⟨true, ""⟩ freshIpcRx
        [ActionMessage.ofAction action_t.cmd_protocol_priority]).trace
      = [ActionMessage.ofAction action_t.cmd_protocol_priority] := by
  decide

/-- C21, amended: once its queue is connected, the queue-transport rx loop
never hands a message whose action is `CMD_PROTOCOL` or `CMD_PROTOCOL_BIG` to
`ActionCallback`, and every other message it reads before it is left (a
`CMD_PROTOCOL_PRIORITY` one included) is handed to `ActionCallback` exactly
once, in arrival order: the messages called back are the messages read, up to
the first `CLOSE_RECEIVER` command, with those two actions filtered out. -/
theorem C21_ipc_rx_forwarding (ids : ProtocolIds) (env : IpcRxEnv) (s : IpcRx)
    (messages : List ActionMessage) (hc : env.connected = true) :
    IpcRxEvent.callbacks (IpcComms.queue_rx_function ids env s messages).trace =
      IpcRxEvent.callbacks s.trace ++
        (IpcComms.messagesRead ids messages).filter
          (fun cmd => !IpcComms.rxTakesForProtocol cmd) ∧
    ∀ cmd ∈ IpcRxEvent.callbacks (IpcComms.queue_rx_function ids env s messages).trace,
      cmd ∈ IpcRxEvent.callbacks s.trace ∨
        (cmd ∈ messages ∧ cmd.action ≠ action_t.cmd_protocol ∧
          cmd.action ≠ action_t.cmd_protocol_big) := by
  have hread : ∀ (l : List ActionMessage), ∀ x ∈ IpcComms.messagesRead ids l, x ∈ l := by
    intro l
    induction l with
    | nil => intro x hx; simp [IpcComms.messagesRead] at hx
    | cons m rest ih =>
      intro x hx
      unfold IpcComms.messagesRead at hx
      by_cases hcl : IpcComms.closesReceiver ids m
      · rw [if_pos hcl] at hx
        simp at hx
        simp [hx]
      · rw [if_neg hcl] at hx
        rcases List.mem_cons.mp hx with h | h
        · simp [h]
        · exact List.mem_cons_of_mem _ (ih x h)
  have key : IpcRxEvent.callbacks (IpcComms.queue_rx_function ids env s messages).trace =
      IpcRxEvent.callbacks s.trace ++
        (IpcComms.messagesRead ids messages).filter
          (fun cmd => !IpcComms.rxTakesForProtocol cmd) := by
    unfold IpcComms.queue_rx_function
    rw [if_neg (by simp [hc])]
    exact ipc_rxLoop_callbacks ids messages _ rfl
  refine ⟨key, ?_⟩
  intro cmd hmem
  rw [key] at hmem
  rcases List.mem_append.mp hmem with h | h
  · exact Or.inl h
  · right
    obtain ⟨h1, h2⟩ := List.mem_filter.mp h
    refine ⟨hread _ _ h1, ?_⟩
    unfold IpcComms.rxTakesForProtocol at h2
    simp at h2
    exact h2

/-- C21 (amended) at a concrete input: data, a `CMD_PROTOCOL_PRIORITY`
command, a `CMD_PROTOCOL` command, `CMD_INIT_GRANT`, `CLOSE_RECEIVER`, and data
that is never read. -/
theorem C21_ipc_rx_forwarding_witness :
    IpcRxEvent.callbacks
      (IpcComms.queue_rx_function exampleIds ⟨true, ""⟩ freshIpcRx
        [dataMessage "a", setToOperatingCommand action_t.cmd_protocol_priority,
         setToOperatingCommand action_t.cmd_protocol,
         ActionMessage.ofAction action_t.cmd_init_grant,
         closeReceiverCommand exampleIds action_t.cmd_protocol_big,
         dataMessage "b"]).trace
      = [dataMessage "a", setToOperatingCommand action_t.cmd_protocol_priority,
         ActionMessage.ofAction action_t.cmd_init_grant] :=
  ((C21_ipc_rx_forwarding exampleIds ⟨true, ""⟩ freshIpcRx
      [dataMessage "a", setToOperatingCommand action_t.cmd_protocol_priority,
       setToOperatingCommand action_t.cmd_protocol,
       ActionMessage.ofAction action_t.cmd_init_grant,
       closeReceiverCommand exampleIds action_t.cmd_protocol_big,
       dataMessage "b"] rfl).1).trans (by decide)

/-! ## The port block derived from an assigned port -/

/-- C28, as the claim states it, fails for the assigned ports 24229 and 24328:
both are at least 24228 and they are distinct, yet a receiver whose
`openPortStart` is negative derives 24338 from either, so the two blocks are
the same.  It also fails where the arithmetic on `int` overflows: the port
429521058 derives 24342, four above the 24338 derived from 24328. -/
theorem C28_derived_port_blocks_counterexample :
    (24228 : Int) ≤ 24229 ∧ (24228 : Int) ≤ 24328 ∧ (24229 : Int) ≠ 24328 ∧
    (freshTcpRx true true).openPortStart < 0 ∧
    (TcpComms.rxWaitStep exampleIds (freshTcpRx true true)
      (portDefinitions exampleIds 0 24229)).openPortStart = 24338 ∧
    (TcpComms.rxWaitStep exampleIds (freshTcpRx true true)
      (portDefinitions exampleIds 0 24328)).openPortStart = 24338 ∧
    (TcpComms.rxWaitStep exampleIds (freshTcpRx true true)
      (portDefinitions exampleIds 0 429521058)).openPortStart = 24342 := by
  decide

/-- C28, amended: when the stream-transport rx loop takes a `PORT_DEFINITIONS`
command, a negative `openPortStart` is replaced by the value derived from the
assigned port and a non-negative one is left unchanged.  For any two distinct
assigned ports p and q, both at least 24228 and at most 214770258 (the largest
port whose derived value fits an `int`; every valid port number is far
below), the derived values differ by at least 10, except when one port is below
24328, the other is 24328 or more, and the second is the first plus 99: in that
case the two derived values are equal. -/
theorem C28_derived_port_blocks (ids : ProtocolIds) :
    (∀ (s : TcpRx) (m : ActionMessage),
      isProtocolCommand m = true → m.messageID = ids.PORT_DEFINITIONS →
      (TcpComms.rxWaitStep ids s m).openPortStart =
        (if s.openPortStart < 0 then TcpComms.derivedOpenPortStart m.source_handle
         else s.openPortStart)) ∧
    (∀ p q : Int, 24228 ≤ p → 24228 ≤ q → p ≤ 214770258 → q ≤ 214770258 → p ≠ q →
      (((p < 24328 ∧ 24328 ≤ q ∧ q = p + 99) ∨ (q < 24328 ∧ 24328 ≤ p ∧ p = q + 99)) →
        TcpComms.derivedOpenPortStart p = TcpComms.derivedOpenPortStart q) ∧
      (¬ ((p < 24328 ∧ 24328 ≤ q ∧ q = p + 99) ∨ (q < 24328 ∧ 24328 ≤ p ∧ p = q + 99)) →
        TcpComms.derivedOpenPortStart p + 10 ≤ TcpComms.derivedOpenPortStart q ∨
        TcpComms.derivedOpenPortStart q + 10 ≤ TcpComms.derivedOpenPortStart p)) := by
  have hval : ∀ mp : Int, 24228 ≤ mp → mp ≤ 214770258 →
      TcpComms.derivedOpenPortStart mp =
        if mp < 24328 then 24328 + (mp - 24228) * 10 else 24328 + (mp - 24328) * 10 + 10 := by
    intro mp h1 h2
    simp only [TcpComms.derivedOpenPortStart, BEGIN_OPEN_PORT_RANGE,
      BEGIN_OPEN_PORT_RANGE_SUBBROKER]
    rw [if_neg (by omega)]
    by_cases h : mp < 24328
    · rw [if_pos h, if_pos h, toInt32_of_range (mp - 24228) (by omega) (by omega),
        toInt32_of_range ((mp - 24228) * 10) (by omega) (by omega),
        toInt32_of_range _ (by omega) (by omega)]
    · rw [if_neg h, if_neg h, toInt32_of_range (mp - 24328) (by omega) (by omega),
        toInt32_of_range ((mp - 24328) * 10) (by omega) (by omega),
        toInt32_of_range (24328 + (mp - 24328) * 10) (by omega) (by omega),
        toInt32_of_range _ (by omega) (by omega)]
  refine ⟨?_, ?_⟩
  · intro s m hp hid
    rw [tcp_rxWaitStep_portdef ids s m hp hid]
    rfl
  · intro p q hp hq hp2 hq2 hne
    rw [hval p hp hp2, hval q hq hq2]
    refine ⟨?_, ?_⟩
    · intro h
      split_ifs <;> omega
    · intro h
      split_ifs <;> omega

/-- C28 (amended) at concrete inputs: the ports 24228 and 24229 derive blocks
ten apart, the ports 24229 and 24328 derive the same block, and an
`openPortStart` of 30000 is kept. -/
theorem C28_derived_port_blocks_witness :
    (TcpComms.derivedOpenPortStart 24228 + 10 ≤ TcpComms.derivedOpenPortStart 24229 ∨
      TcpComms.derivedOpenPortStart 24229 + 10 ≤ TcpComms.derivedOpenPortStart 24228) ∧
    TcpComms.derivedOpenPortStart 24229 = TcpComms.derivedOpenPortStart 24328 ∧
    (TcpComms.rxWaitStep exampleIds { freshTcpRx true true with openPortStart := 30000 }
      (portDefinitions exampleIds 0 24229)).openPortStart = 30000 :=
  ⟨((C28_derived_port_blocks exampleIds).2 24228 24229 (by decide) (by decide)
      (by decide) (by decide) (by decide)).2 (by decide),
   ((C28_derived_port_blocks exampleIds).2 24229 24328 (by decide) (by decide)
      (by decide) (by decide) (by decide)).1 (Or.inl ⟨by decide, by decide, by decide⟩),
   ((C28_derived_port_blocks exampleIds).1 { freshTcpRx true true with openPortStart := 30000 }
      (portDefinitions exampleIds 0 24229) (by decide) (by decide)).trans (by decide)⟩

/-! ## The broker connection at the start of the stream transport's tx loop -/

/-- The handling of a popped message leaves `brokerConnection` alone. -/
theorem negotiationPop_connection (ids : ProtocolIds) (s : TcpSetup)
    (mess : Option (Int × ActionMessage)) :
    (TcpComms.negotiationPop ids s mess).1.brokerConnection = s.brokerConnection := by
  cases mess with
  | none => rfl
  | some item =>
    unfold TcpComms.negotiationPop
    simp only
    split_ifs <;> rfl

/-- The negotiation loop leaves `brokerConnection` alone. -/
theorem negotiationLoop_connection (ids : ProtocolIds) (env : BrokerEnv) :
    ∀ (fuel k : Nat) (cumsleep : Int) (s : TcpSetup),
      (TcpComms.negotiationLoop ids env fuel k cumsleep s).2.brokerConnection =
        s.brokerConnection := by
  intro fuel
  induction fuel with
  | zero => intro k cumsleep s; rfl
  | succ n ih =>
    intro k cumsleep s
    rw [negotiationLoop_step]
    split_ifs
    · exact negotiationPop_connection ids _ _
    · exact negotiationPop_connection ids _ _
    · rw [ih]
      exact negotiationPop_connection ids _ _
    · rfl

/-- C29, the defect: when `TcpConnection::create` throws, the outer handler of
`establishBrokerConnection` logs `e.what ()` and control reaches `return true`
with `brokerConnection` still null, so `queue_tx_function` sets the tx status to
connected on an endpoint with a broker target and no broker connection.  The
claim holds on the other paths: when the creation does not throw, the function
returns true only if `waitUntilConnected` reported the connection and
`brokerConnection` is set. -/
theorem C29_broker_connection_failure :
    ((TcpComms.establishBrokerConnection exampleIds unreachableBroker
        (freshTcpSetup 4000)).1 = true ∧
      (TcpComms.establishBrokerConnection exampleIds unreachableBroker
        (freshTcpSetup 4000)).2.brokerConnection = none ∧
      (TcpComms.queue_tx_setup exampleIds unreachableBroker (freshTcpSetup 4000)).1 = true ∧
      (TcpComms.queue_tx_setup exampleIds unreachableBroker (freshTcpSetup 4000)).2.txStatus
        = connection_status.connected ∧
      (TcpComms.queue_tx_setup exampleIds unreachableBroker
        (freshTcpSetup 4000)).2.brokerConnection = none ∧
      (TcpComms.queue_tx_setup exampleIds unreachableBroker (freshTcpSetup 4000)).2.trace
        = [TcpSetupEvent.logError "resolve: Host not found",
           TcpSetupEvent.setTxStatus connection_status.connected]) ∧
    (∀ (ids : ProtocolIds) (env : BrokerEnv) (s : TcpSetup), env.createThrows = true →
      (TcpComms.establishBrokerConnection ids env s).1 = true ∧
      (TcpComms.establishBrokerConnection ids env s).2.brokerConnection = s.brokerConnection) ∧
    (∀ (ids : ProtocolIds) (env : BrokerEnv) (s : TcpSetup), env.createThrows = false →
      (TcpComms.establishBrokerConnection ids env s).1 = true →
      env.connects = true ∧
      (TcpComms.establishBrokerConnection ids env s).2.brokerConnection
        = some ⟨0, s.brokerTarget⟩) := by
  refine ⟨by decide, ?_, ?_⟩
  · intro ids env s hthrow
    unfold TcpComms.establishBrokerConnection
    simp only [hthrow, if_true]
    refine ⟨trivial, ?_⟩
    split_ifs <;> rfl
  · intro ids env s hthrow
    have ht : s.brokerTarget =
        (if s.brokerPort < 0 then { s with brokerPort := DEFAULT_TCP_BROKER_PORT_NUMBER }
          else s).brokerTarget := by
      split_ifs <;> rfl
    unfold TcpComms.establishBrokerConnection
    simp only [hthrow, Bool.false_eq_true, if_false]
    rw [ht]
    by_cases hc : env.connects = false
    · rw [if_pos hc]
      intro h
      exact Bool.noConfusion h
    · rw [if_neg hc]
      have hc1 : env.connects = true := by simpa using hc
      split_ifs
      all_goals first
        | (intro h; exact False.elim h)
        | (intro _; exact ⟨hc1, rfl⟩)
        | (intro _; refine ⟨hc1, ?_⟩; rw [negotiationLoop_connection]; rfl)

/-! ## Two-dimensional vector subscriptions: the offset of `at` -/

/-- The loop over `ind_y` with enough iterations allowed pushes the
subscriptions of the values left, in order; no increment overflows below the
bound. -/
theorem loopY_closed (required : Bool) (ind_x endY : Int) (hmax : endY ≤ 2147483647) :
    ∀ (fuel : Nat) (ind_y : Int) (ids : List subscription_id_t),
      -2147483648 ≤ ind_y → (endY - ind_y).toNat ≤ fuel →
      VectorSubscription2d.loopY required ind_x endY fuel ind_y ids =
        ids ++ VectorSubscription2d.row required ind_x ind_y (endY - ind_y).toNat := by
  intro fuel
  induction fuel with
  | zero =>
    intro ind_y ids _ h
    have h0 : (endY - ind_y).toNat = 0 := by omega
    simp [VectorSubscription2d.loopY, VectorSubscription2d.row, h0]
  | succ n ih =>
    intro ind_y ids hmin h
    unfold VectorSubscription2d.loopY
    by_cases hlt : ind_y < endY
    · rw [if_pos hlt, toInt32_of_range (ind_y + 1) (by omega) (by omega),
        ih _ _ (by omega) (by omega)]
      obtain ⟨m, hm⟩ : ∃ m, (endY - ind_y).toNat = m + 1 := ⟨(endY - ind_y).toNat - 1, by omega⟩
      have hm1 : (endY - (ind_y + 1)).toNat = m := by omega
      rw [hm, hm1]
      simp only [VectorSubscription2d.row, List.range_succ_eq_map, List.map_cons, List.map_map,
        List.append_assoc, List.singleton_append]
      congr 2
      · simp
      · apply List.map_congr_left
        intro k _
        simp only [Function.comp]
        congr 1
        push_cast
        ring
    · rw [if_neg hlt]
      have h0 : (endY - ind_y).toNat = 0 := by omega
      simp [VectorSubscription2d.row, h0]

/-- The loop over `ind_x` with enough iterations allowed pushes the rows of the
values left, in order, when neither bound overflows. -/
theorem loopX_closed (required : Bool) (endX startIndex_y count_y : Int)
    (hmax : endX ≤ 2147483647) (hsy : -2147483648 ≤ startIndex_y)
    (hey : startIndex_y + count_y ≤ 2147483647) (hcy : 0 ≤ count_y) :
    ∀ (fuel : Nat) (ind_x : Int) (ids : List subscription_id_t),
      -2147483648 ≤ ind_x → (endX - ind_x).toNat ≤ fuel →
      VectorSubscription2d.loopX required endX startIndex_y count_y fuel ind_x ids =
        ids ++ (List.range (endX - ind_x).toNat).flatMap
          (fun (i : Nat) =>
            VectorSubscription2d.row required (ind_x + (i : Int)) startIndex_y count_y.toNat) := by
  have hend : toInt32 (startIndex_y + count_y) = startIndex_y + count_y :=
    toInt32_of_range _ (by omega) hey
  intro fuel
  induction fuel with
  | zero =>
    intro ind_x ids _ h
    have h0 : (endX - ind_x).toNat = 0 := by omega
    simp [VectorSubscription2d.loopX, h0]
  | succ n ih =>
    intro ind_x ids hmin h
    unfold VectorSubscription2d.loopX
    by_cases hlt : ind_x < endX
    · rw [if_pos hlt, toInt32_of_range (ind_x + 1) (by omega) (by omega),
        ih _ _ (by omega) (by omega), hend,
        loopY_closed _ _ _ hey _ _ _ hsy (le_refl _)]
      obtain ⟨m, hm⟩ : ∃ m, (endX - ind_x).toNat = m + 1 := ⟨(endX - ind_x).toNat - 1, by omega⟩
      have hm1 : (endX - (ind_x + 1)).toNat = m := by omega
      have hy : (startIndex_y + count_y - startIndex_y).toNat = count_y.toNat := by
        congr 1
        ring
      rw [hm, hm1, hy, List.range_succ_eq_map, List.flatMap_cons, List.flatMap_map,
        List.append_assoc]
      have e1 : ∀ k : Nat, ind_x + ((k.succ : Nat) : Int) = ind_x + 1 + (k : Int) := by
        intro k
        push_cast
        ring
      simp only [e1, Nat.cast_zero, add_zero, Function.comp]
    · rw [if_neg hlt]
      have h0 : (endX - ind_x).toNat = 0 := by omega
      simp [h0]

/-- The element at position `i * n + j` of a concatenation of lists of length
`n`. -/
theorem bind_getElem_block {α β : Type} (f : α → List β) (n : Nat) :
    ∀ (l : List α), (∀ a ∈ l, (f a).length = n) → ∀ (i j : Nat), j < n →
      (l.flatMap f)[i * n + j]? = (l[i]?).bind (fun a => (f a)[j]?) := by
  intro l
  induction l with
  | nil => intro _ i j _; simp
  | cons a rest ih =>
    intro hlen i j hj
    have ha : (f a).length = n := hlen a (List.mem_cons_self _ _)
    rw [List.flatMap_cons]
    cases i with
    | zero =>
      simp only [Nat.zero_mul, Nat.zero_add, List.getElem?_cons_zero, Option.some_bind]
      exact List.getElem?_append_left (by omega)
    | succ k =>
      have hidx : (k + 1) * n + j = (f a).length + (k * n + j) := by
        rw [ha]; ring
      rw [hidx, List.getElem?_append_right (by omega), Nat.add_sub_cancel_left,
        List.getElem?_cons_succ]
      exact ih (fun b hb => hlen b (List.mem_cons_of_mem _ hb)) k j hj

/-- The subscriptions the constructor pushes, in order, when neither
`startIndex_x + count_x` nor `startIndex_y + count_y` overflows. -/
theorem create_ids (required : Bool) (startIndex_x count_x startIndex_y count_y : Int)
    (hsx : -2147483648 ≤ startIndex_x) (hsy : -2147483648 ≤ startIndex_y)
    (hex : startIndex_x + count_x ≤ 2147483647) (hey : startIndex_y + count_y ≤ 2147483647)
    (hcx : 0 ≤ count_x) (hcy : 0 ≤ count_y) :
    (VectorSubscription2d.create required startIndex_x count_x startIndex_y count_y).ids =
      (List.range count_x.toNat).flatMap
        (fun (i : Nat) =>
          VectorSubscription2d.row required (startIndex_x + (i : Int)) startIndex_y
            count_y.toNat) := by
  have hend : toInt32 (startIndex_x + count_x) = startIndex_x + count_x :=
    toInt32_of_range _ (by omega) hex
  have h : (startIndex_x + count_x - startIndex_x).toNat = count_x.toNat := by
    congr 1
    ring
  unfold VectorSubscription2d.create
  simp only
  rw [hend, loopX_closed _ _ _ _ hex hsy hey hcy _ _ _ hsx (le_refl _), h, List.nil_append]

/-- The subscription at position `i * count_y + j`. -/
theorem create_ids_getElem (required : Bool) (startIndex_x count_x startIndex_y count_y : Int)
    (hsx : -2147483648 ≤ startIndex_x) (hsy : -2147483648 ≤ startIndex_y)
    (hex : startIndex_x + count_x ≤ 2147483647) (hey : startIndex_y + count_y ≤ 2147483647)
    (hcx : 0 ≤ count_x) (hcy : 0 ≤ count_y)
    (i j : Nat) (hi : i < count_x.toNat) (hj : j < count_y.toNat) :
    (VectorSubscription2d.create required startIndex_x count_x startIndex_y count_y).ids[
        i * count_y.toNat + j]? =
      some ⟨required, startIndex_x + (i : Int), startIndex_y + (j : Int)⟩ := by
  rw [create_ids required startIndex_x count_x startIndex_y count_y hsx hsy hex hey hcx hcy,
    bind_getElem_block _ count_y.toNat _ _ i j hj]
  · rw [List.getElem?_range hi]
    simp [VectorSubscription2d.row, List.getElem?_range hj]
  · intro a _
    simp [VectorSubscription2d.row]

/-- The number of subscriptions the constructor pushes. -/
theorem create_ids_length (required : Bool) (startIndex_x count_x startIndex_y count_y : Int)
    (hsx : -2147483648 ≤ startIndex_x) (hsy : -2147483648 ≤ startIndex_y)
    (hex : startIndex_x + count_x ≤ 2147483647) (hey : startIndex_y + count_y ≤ 2147483647)
    (hcx : 0 ≤ count_x) (hcy : 0 ≤ count_y) :
    (VectorSubscription2d.create required startIndex_x count_x startIndex_y count_y).ids.length
      = count_x.toNat * count_y.toNat := by
  rw [create_ids required startIndex_x count_x startIndex_y count_y hsx hsy hex hey hcx hcy]
  induction count_x.toNat with
  | zero => simp
  | succ n ih =>
    rw [List.range_succ, List.flatMap_append, List.length_append, ih]
    simp [VectorSubscription2d.row]
    ring

/-- The subscript of `at` on a freshly built object, as written. -/
theorem create_atIndex (required : Bool) (sx cx sy cy x y : Int) :
    (VectorSubscription2d.create required sx cx sy cy).atIndex x y =
      toInt32 (toInt32 (toInt32 (x - sx) * cy) + toInt32 (y - sy)) := rfl

/-- C30, as the claim states it, fails where `startIndex_y + count_y`
overflows: built with start indices (0, 2147483647) and counts (1, 1), the
constructor finds `ind_y < startIndex_y + count_y` false at once and pushes
nothing, so the subscript 0 that `at (0, 2147483647)` uses is no position in
`ids`.  It also fails where the product in the subscript overflows: with
start indices (0, 0) and counts (65536, 65536) the subscript of
`at (32768, 0)` is -2147483648, which is not in [0, cx * cy). -/
theorem C30_at_offset_counterexample :
    (VectorSubscription2d.create false 0 1 2147483647 1).atIndex 0 2147483647 = 0 ∧
    (VectorSubscription2d.create false 0 1 2147483647 1).ids = [] ∧
    (VectorSubscription2d.create false 0 1 2147483647 1).ids[
      ((VectorSubscription2d.create false 0 1 2147483647 1).atIndex 0 2147483647).toNat]?
      = none ∧
    (VectorSubscription2d.create false 0 65536 0 65536).atIndex 32768 0 = -2147483648 := by
  decide

/-- C30, amended: for a `VectorSubscription2d` built with start indices
(sx, sy) and positive counts (cx, cy) such that `sx + cx`, `sy + cy` and
`cx * cy` do not exceed 2147483647 (so that no operation on `int` overflows),
the constructor pushes cx * cy subscriptions, and for every sx <= x < sx + cx
and sy <= y < sy + cy the subscript `(x - sx) * cy + (y - sy)` used by
`at (x, y)` lies in [0, cx * cy) and is the position in `ids` of the
subscription registered for (x, y); the map from index pairs to subscripts is
one-to-one and onto [0, cx * cy). -/
theorem C30_at_offset (required : Bool) (sx cx sy cy : Int) (hcx : 0 < cx) (hcy : 0 < cy)
    (hsx : -2147483648 ≤ sx) (hsy : -2147483648 ≤ sy)
    (hex : sx + cx ≤ 2147483647) (hey : sy + cy ≤ 2147483647)
    (hprod : cx * cy ≤ 2147483647) :
    (VectorSubscription2d.create required sx cx sy cy).ids.length = (cx * cy).toNat ∧
    (∀ x y : Int, sx ≤ x → x < sx + cx → sy ≤ y → y < sy + cy →
      (VectorSubscription2d.create required sx cx sy cy).atIndex x y =
        (x - sx) * cy + (y - sy) ∧
      0 ≤ (VectorSubscription2d.create required sx cx sy cy).atIndex x y ∧
      (VectorSubscription2d.create required sx cx sy cy).atIndex x y < cx * cy ∧
      (VectorSubscription2d.create required sx cx sy cy).ids[
          ((VectorSubscription2d.create required sx cx sy cy).atIndex x y).toNat]?
        = some ⟨required, x, y⟩) ∧
    (∀ x y x2 y2 : Int, sx ≤ x → x < sx + cx → sy ≤ y → y < sy + cy →
      sx ≤ x2 → x2 < sx + cx → sy ≤ y2 → y2 < sy + cy →
      (VectorSubscription2d.create required sx cx sy cy).atIndex x y =
        (VectorSubscription2d.create required sx cx sy cy).atIndex x2 y2 →
      x = x2 ∧ y = y2) ∧
    (∀ k : Int, 0 ≤ k → k < cx * cy →
      ∃ x y : Int, sx ≤ x ∧ x < sx + cx ∧ sy ≤ y ∧ y < sy + cy ∧
        (VectorSubscription2d.create required sx cx sy cy).atIndex x y = k) := by
  have hpos : ∀ x y : Int, sx ≤ x → x < sx + cx → sy ≤ y → y < sy + cy →
      (VectorSubscription2d.create required sx cx sy cy).atIndex x y =
        (x - sx) * cy + (y - sy) ∧
      0 ≤ (x - sx) * cy + (y - sy) ∧ (x - sx) * cy + (y - sy) < cx * cy ∧
      (VectorSubscription2d.create required sx cx sy cy).ids[
          ((x - sx) * cy + (y - sy)).toNat]? = some ⟨required, x, y⟩ := by
    intro x y hx1 hx2 hy1 hy2
    have ha : 0 ≤ x - sx := by omega
    have hb : 0 ≤ y - sy := by omega
    have hm : 0 ≤ (x - sx) * cy := mul_nonneg ha (le_of_lt hcy)
    have hle : (x - sx) * cy ≤ (cx - 1) * cy :=
      mul_le_mul_of_nonneg_right (by omega) (le_of_lt hcy)
    have hexp : (cx - 1) * cy = cx * cy - cy := by ring
    have hcxle : cx ≤ cx * cy := le_mul_of_one_le_right (le_of_lt hcx) (by omega)
    have hcyle : cy ≤ cx * cy := le_mul_of_one_le_left (le_of_lt hcy) (by omega)
    have hat : (VectorSubscription2d.create required sx cx sy cy).atIndex x y =
        (x - sx) * cy + (y - sy) := by
      rw [create_atIndex, toInt32_of_range (x - sx) (by omega) (by omega),
        toInt32_of_range ((x - sx) * cy) (by omega) (by omega),
        toInt32_of_range (y - sy) (by omega) (by omega),
        toInt32_of_range _ (by omega) (by omega)]
    refine ⟨hat, by omega, by omega, ?_⟩
    have hi : (x - sx).toNat < cx.toNat := by omega
    have hj : (y - sy).toNat < cy.toNat := by omega
    have hidx : ((x - sx) * cy + (y - sy)).toNat = (x - sx).toNat * cy.toNat + (y - sy).toNat := by
      have e1 : ((x - sx).toNat : Int) = x - sx := Int.toNat_of_nonneg ha
      have e2 : ((y - sy).toNat : Int) = y - sy := Int.toNat_of_nonneg hb
      have e3 : (cy.toNat : Int) = cy := Int.toNat_of_nonneg (le_of_lt hcy)
      have e4 : (x - sx) * cy + (y - sy) =
          (((x - sx).toNat * cy.toNat + (y - sy).toNat : Nat) : Int) := by
        push_cast
        rw [e1, e2, e3]
      rw [e4, Int.toNat_natCast]
    rw [hidx, create_ids_getElem required sx cx sy cy hsx hsy hex hey (le_of_lt hcx)
        (le_of_lt hcy) _ _ hi hj,
      Int.toNat_of_nonneg ha, Int.toNat_of_nonneg hb]
    congr 2
    · ring
    · ring
  refine ⟨?_, ?_, ?_, ?_⟩
  · rw [create_ids_length required sx cx sy cy hsx hsy hex hey (le_of_lt hcx) (le_of_lt hcy)]
    have e : cx * cy = ((cx.toNat * cy.toNat : Nat) : Int) := by
      push_cast
      rw [Int.toNat_of_nonneg (le_of_lt hcx), Int.toNat_of_nonneg (le_of_lt hcy)]
    rw [e, Int.toNat_natCast]
  · intro x y hx1 hx2 hy1 hy2
    obtain ⟨g1, g2, g3, g4⟩ := hpos x y hx1 hx2 hy1 hy2
    rw [g1]
    exact ⟨rfl, g2, g3, g4⟩
  · intro x y x2 y2 hx1 hx2 hy1 hy2 hx3 hx4 hy3 hy4 heq
    obtain ⟨g1, _, _, g4⟩ := hpos x y hx1 hx2 hy1 hy2
    obtain ⟨k1, _, _, k4⟩ := hpos x2 y2 hx3 hx4 hy3 hy4
    rw [g1, k1] at heq
    rw [heq, k4] at g4
    have h3 := Option.some.inj g4
    exact ⟨(congrArg subscription_id_t.ind_x h3).symm, (congrArg subscription_id_t.ind_y h3).symm⟩
  · intro k hk0 hk1
    have hd0 := Int.ediv_nonneg hk0 (le_of_lt hcy)
    have hd1 : k / cy < cx := Int.ediv_lt_of_lt_mul hcy hk1
    have hm0 := Int.emod_nonneg k (ne_of_gt hcy)
    have hm1 := Int.emod_lt_of_pos k hcy
    refine ⟨sx + k / cy, sy + k % cy, by omega, by omega, by omega, by omega, ?_⟩
    rw [(hpos (sx + k / cy) (sy + k % cy) (by omega) (by omega) (by omega) (by omega)).1]
    have := Int.ediv_add_emod k cy
    have e : (sx + k / cy - sx) * cy + (sy + k % cy - sy) = cy * (k / cy) + k % cy := by ring
    rw [e]
    exact this

/-- C30 (amended) at a concrete input: a 2 by 3 block starting at (5, -1);
`at (6, 0)` reads position 4, where the subscription for (6, 0) was pushed. -/
theorem C30_at_offset_witness :
    (VectorSubscription2d.create false 5 2 (-1) 3).atIndex 6 0 = 4 ∧
    (VectorSubscription2d.create false 5 2 (-1) 3).ids[4]? = some ⟨false, 6, 0⟩ ∧
    (VectorSubscription2d.create false 5 2 (-1) 3).ids =
      [⟨false, 5, -1⟩, ⟨false, 5, 0⟩, ⟨false, 5, 1⟩,
       ⟨false, 6, -1⟩, ⟨false, 6, 0⟩, ⟨false, 6, 1⟩] :=
  ⟨by decide,
   ((C30_at_offset false 5 2 (-1) 3 (by decide) (by decide) (by decide) (by decide)
      (by decide) (by decide) (by decide)).2.1 6 0
      (by decide) (by decide) (by decide) (by decide)).2.2.2,
   by decide⟩

/-! ## The property setters of the stream transport: the property lock -/

/-- C25: for either answer of `propertyLock ()`: when it answers false,
`setBrokerPort`, `setPortNumber`, `setAutomaticPortStartPort` and
`loadNetworkInfo` leave `brokerPort`, `PortNumber`, `openPortStart`,
`autoPortNumber` and `reuse_address` unchanged (and call `propertyUnLock` not at
all); when it answers true, each of them calls `propertyUnLock` exactly once,
as its last call before returning. -/
theorem C25_property_lock (env : PropertyEnv) (c : TcpProperties) (netInfo : NetworkBrokerData)
    (port : Int) :
    (env.propertyLock = false →
      (TcpComms.setBrokerPort env port c).guarded = c.guarded ∧
      (TcpComms.setPortNumber env port c).guarded = c.guarded ∧
      (TcpComms.setAutomaticPortStartPort env port c).guarded = c.guarded ∧
      (TcpComms.loadNetworkInfo env netInfo c).guarded = c.guarded ∧
      PropertyEvent.unlocks (TcpComms.setBrokerPort env port c).trace
        = PropertyEvent.unlocks c.trace ∧
      PropertyEvent.unlocks (TcpComms.setPortNumber env port c).trace
        = PropertyEvent.unlocks c.trace ∧
      PropertyEvent.unlocks (TcpComms.setAutomaticPortStartPort env port c).trace
        = PropertyEvent.unlocks c.trace ∧
      PropertyEvent.unlocks (TcpComms.loadNetworkInfo env netInfo c).trace
        = PropertyEvent.unlocks c.trace) ∧
    (env.propertyLock = true →
      (TcpComms.setBrokerPort env port c).trace =
        c.trace ++ [PropertyEvent.propertyLock, PropertyEvent.propertyUnLock] ∧
      (TcpComms.setPortNumber env port c).trace =
        c.trace ++ [PropertyEvent.propertyLock, PropertyEvent.propertyUnLock] ∧
      (TcpComms.setAutomaticPortStartPort env port c).trace =
        c.trace ++ [PropertyEvent.propertyLock, PropertyEvent.propertyUnLock] ∧
      (TcpComms.loadNetworkInfo env netInfo c).trace =
        c.trace ++ [PropertyEvent.baseLoadNetworkInfo, PropertyEvent.propertyLock,
          PropertyEvent.propertyUnLock] ∧
      PropertyEvent.unlocks (TcpComms.setBrokerPort env port c).trace
        = PropertyEvent.unlocks c.trace + 1 ∧
      PropertyEvent.unlocks (TcpComms.setPortNumber env port c).trace
        = PropertyEvent.unlocks c.trace + 1 ∧
      PropertyEvent.unlocks (TcpComms.setAutomaticPortStartPort env port c).trace
        = PropertyEvent.unlocks c.trace + 1 ∧
      PropertyEvent.unlocks (TcpComms.loadNetworkInfo env netInfo c).trace
        = PropertyEvent.unlocks c.trace + 1) := by
  refine ⟨?_, ?_⟩
  · intro h
    simp [TcpComms.setBrokerPort, TcpComms.setPortNumber, TcpComms.setAutomaticPortStartPort,
      TcpComms.loadNetworkInfo, h, TcpProperties.guarded, PropertyEvent.unlocks,
      List.count_append]
  · intro h
    simp [TcpComms.setBrokerPort, TcpComms.setPortNumber, TcpComms.setAutomaticPortStartPort,
      TcpComms.loadNetworkInfo, h, PropertyEvent.unlocks, List.count_append]

/-- C25 at concrete inputs: with the lock refused the port 24200 is not taken
and nothing is unlocked; with the lock granted it is taken, the automatic port
is switched off, and `propertyUnLock` is called once. -/
theorem C25_property_lock_witness :
    (TcpComms.setPortNumber (plainProperties false) 24200 (freshTcpProperties "")).guarded
      = (-1, -1, -1, true, false) ∧
    (TcpComms.loadNetworkInfo (plainProperties false) ⟨24160, 24200, 24500, true⟩
      (freshTcpProperties "")).guarded = (-1, -1, -1, true, false) ∧
    (TcpComms.setPortNumber (plainProperties true) 24200 (freshTcpProperties "")).guarded
      = (-1, 24200, -1, false, false) ∧
    (TcpComms.loadNetworkInfo (plainProperties true) ⟨24160, 24200, 24500, true⟩
      (freshTcpProperties "")).guarded = (24160, 24200, 24500, false, true) ∧
    PropertyEvent.unlocks
      (TcpComms.loadNetworkInfo (plainProperties true) ⟨24160, 24200, 24500, true⟩
        (freshTcpProperties "")).trace = PropertyEvent.unlocks (freshTcpProperties "").trace + 1 :=
  ⟨((C25_property_lock (plainProperties false) (freshTcpProperties "") ⟨24160, 24200, 24500, true⟩
      24200).1 rfl).2.1,
   ((C25_property_lock (plainProperties false) (freshTcpProperties "") ⟨24160, 24200, 24500, true⟩
      24200).1 rfl).2.2.2.1,
   by decide, by decide,
   ((C25_property_lock (plainProperties true) (freshTcpProperties "") ⟨24160, 24200, 24500, true⟩
      24200).2 rfl).2.2.2.2.2.2.2⟩

/-! ## Delayed destruction: one scan -/

/-- How often an object is in `ecall` after the loop over the elements left:
once more than before exactly when it is among them and its count is one. -/
theorem collect_count (w : Holders) (t : Nat) (x : Nat) :
    ∀ (elements ecall : List Nat),
      (DelayedDestructor.collect w t elements ecall).count x =
        ecall.count x +
          (if x ∈ elements ∧ w.use_count t x + ecall.count x = 1 then 1 else 0) := by
  intro elements
  induction elements with
  | nil => intro ecall; simp [DelayedDestructor.collect]
  | cons e rest ih =>
    intro ecall
    unfold DelayedDestructor.collect
    by_cases h : w.use_count t e + ecall.count e = 1
    · rw [if_pos h, ih]
      by_cases hx : x = e
      · subst hx
        have h2 : ¬ (x ∈ rest ∧ w.use_count t x + (ecall ++ [x]).count x = 1) := by
          simp only [List.count_append, List.count_singleton_self]
          omega
        have h3 : x ∈ x :: rest ∧ w.use_count t x + ecall.count x = 1 :=
          ⟨List.mem_cons_self _ _, h⟩
        rw [if_neg h2, if_pos h3]
        simp [List.count_append]
      · have hc : (ecall ++ [e]).count x = ecall.count x := by
          simp [List.count_append, List.count_singleton, Ne.symm hx]
        rw [hc]
        simp only [List.mem_cons, hx, false_or]
    · rw [if_neg h, ih]
      by_cases hx : x = e
      · subst hx
        have h2 : ¬ (x ∈ rest ∧ w.use_count t x + ecall.count x = 1) := fun hh => h hh.2
        have h3 : ¬ (x ∈ x :: rest ∧ w.use_count t x + ecall.count x = 1) := fun hh => h hh.2
        rw [if_neg h2, if_neg h3]
      · simp only [List.mem_cons, hx, false_or]

/-- The waits of two stretches of trace. -/
theorem waits_append (a b : List DestructorEvent) :
    DestructorEvent.waits (a ++ b) = DestructorEvent.waits a ++ DestructorEvent.waits b := by
  induction a with
  | nil => rfl
  | cons e rest ih => cases e <;> simp [DestructorEvent.waits, ih]

/-- The scans and sleeps of two stretches of trace. -/
theorem schedule_append (a b : List DestructorEvent) :
    DestructorEvent.schedule (a ++ b) =
      DestructorEvent.schedule a ++ DestructorEvent.schedule b := by
  induction a with
  | nil => rfl
  | cons e rest ih => cases e <;> simp [DestructorEvent.schedule, ih]

/-- The milliseconds slept in two stretches of trace. -/
theorem sleepTotal_append (a b : List DestructorEvent) :
    DestructorEvent.sleepTotal (a ++ b) =
      DestructorEvent.sleepTotal a + DestructorEvent.sleepTotal b := by
  induction a with
  | nil => simp [DestructorEvent.sleepTotal]
  | cons e rest ih => cases e <;> simp [DestructorEvent.sleepTotal, ih, add_assoc]

/-- The number of scans in two stretches of trace. -/
theorem scans_append (a b : List DestructorEvent) :
    DestructorEvent.scans (a ++ b) = DestructorEvent.scans a + DestructorEvent.scans b := by
  simp [DestructorEvent.scans, List.count_append]

/-- Calls of the hook are neither scans nor waits. -/
theorem hooks_neutral (objects : List Nat) :
    DestructorEvent.waits (objects.map DestructorEvent.callBeforeDelete) = [] ∧
    DestructorEvent.schedule (objects.map DestructorEvent.callBeforeDelete) = [] ∧
    DestructorEvent.sleepTotal (objects.map DestructorEvent.callBeforeDelete) = 0 ∧
    DestructorEvent.scans (objects.map DestructorEvent.callBeforeDelete) = 0 := by
  induction objects with
  | nil => exact ⟨rfl, rfl, rfl, rfl⟩
  | cons x rest ih =>
    obtain ⟨h1, h2, h3, h4⟩ := ih
    refine ⟨?_, ?_, ?_, ?_⟩
    · simpa [DestructorEvent.waits] using h1
    · simpa [DestructorEvent.schedule] using h2
    · simpa [DestructorEvent.sleepTotal] using h3
    · simp only [DestructorEvent.scans] at h4 ⊢
      rw [List.map_cons, List.count_cons, h4]
      simp

/-- The discipline of the lock over calls of the hook made with the lock
released. -/
theorem hooks_disciplined (objects : List Nat) (rest : List DestructorEvent) :
    DestructorEvent.disciplined false (objects.map DestructorEvent.callBeforeDelete ++ rest) =
      DestructorEvent.disciplined false rest := by
  induction objects with
  | nil => rfl
  | cons x more ih => simpa [DestructorEvent.disciplined] using ih

/-- One scan adds a call of `destroyObjects ()` to the trace and neither sleeps
nor yields; it reads the counts twice when there are elements. -/
theorem destroyObjects_trace (w : Holders) (d : DelayedDestructor) :
    DestructorEvent.scans (DelayedDestructor.destroyObjects w d).2.trace =
      DestructorEvent.scans d.trace + 1 ∧
    DestructorEvent.waits (DelayedDestructor.destroyObjects w d).2.trace =
      DestructorEvent.waits d.trace ∧
    DestructorEvent.schedule (DelayedDestructor.destroyObjects w d).2.trace =
      DestructorEvent.schedule d.trace ++ [DestructorEvent.destroyObjects] ∧
    DestructorEvent.sleepTotal (DelayedDestructor.destroyObjects w d).2.trace =
      DestructorEvent.sleepTotal d.trace ∧
    (DelayedDestructor.destroyObjects w d).1 =
      (DelayedDestructor.destroyObjects w d).2.ElementsToBeDestroyed.length := by
  obtain ⟨h1, h2, h3, h4⟩ :=
    hooks_neutral (DelayedDestructor.collect w d.reads d.ElementsToBeDestroyed [])
  unfold DelayedDestructor.destroyObjects
  by_cases he : d.ElementsToBeDestroyed ≠ []
  · rw [if_pos he]
    by_cases hk : d.callBeforeDeleteFunction = true
    · simp only [hk, if_true, scans_append, waits_append, schedule_append, sleepTotal_append,
        h1, h2, h3, h4]
      simp [DestructorEvent.scans, DestructorEvent.waits, DestructorEvent.schedule,
        DestructorEvent.sleepTotal]
    · simp only [hk, if_false, scans_append, waits_append, schedule_append, sleepTotal_append]
      simp [DestructorEvent.scans, DestructorEvent.waits, DestructorEvent.schedule,
        DestructorEvent.sleepTotal]
  · rw [if_neg he]
    have he2 : d.ElementsToBeDestroyed = [] := by simpa using he
    simp only [scans_append, waits_append, schedule_append, sleepTotal_append]
    simp [DestructorEvent.scans, DestructorEvent.waits, DestructorEvent.schedule,
      DestructorEvent.sleepTotal, he2]

/-- The elements after one scan: those it keeps, then those handed over while
the lock was released. -/
theorem destroyObjects_elements (w : Holders) (d : DelayedDestructor) :
    (DelayedDestructor.destroyObjects w d).2.ElementsToBeDestroyed =
      d.ElementsToBeDestroyed.filter
        (fun element =>
          !decide (w.use_count (d.reads + 1) element +
            (DelayedDestructor.collect w d.reads d.ElementsToBeDestroyed []).count element
              ≤ 1)) ++
        (if d.ElementsToBeDestroyed ≠ [] then w.added d.reads else []) := by
  unfold DelayedDestructor.destroyObjects
  by_cases he : d.ElementsToBeDestroyed ≠ []
  · rw [if_pos he, if_pos he]
  · rw [if_neg he, if_neg he]
    have he2 : d.ElementsToBeDestroyed = [] := by simpa using he
    simp [he2]

/-- C22, the defect: `destroyObjects ()` does not release an object of which
the `DelayedDestructor` is the sole holder.  The copy pushed to `ecall` raises
the count of the object to two, so `std::remove_if`, which removes the elements
whose count is `<= 1`, keeps it: with one element of count one the function
returns 1 and the element is still in `ElementsToBeDestroyed`.  In general
every element whose count is one when the scan starts (and has not dropped to
zero when elements are removed) is kept.  The number returned is the number of
elements that remain. -/
theorem C22_sole_holder_not_released :
    ((DelayedDestructor.destroyObjects soleHolder (holding [7] true)).1 = 1 ∧
      (DelayedDestructor.destroyObjects soleHolder
        (holding [7] true)).2.ElementsToBeDestroyed = [7] ∧
      (DelayedDestructor.destroyObjects soleHolder (holding [7] true)).2.trace =
        [DestructorEvent.destroyObjects, DestructorEvent.lock, DestructorEvent.unlock,
         DestructorEvent.callBeforeDelete 7, DestructorEvent.lock, DestructorEvent.size 1,
         DestructorEvent.unlock]) ∧
    (∀ (w : Holders) (d : DelayedDestructor) (x : Nat),
      x ∈ d.ElementsToBeDestroyed → w.use_count d.reads x = 1 →
      1 ≤ w.use_count (d.reads + 1) x →
      x ∈ (DelayedDestructor.destroyObjects w d).2.ElementsToBeDestroyed) ∧
    (∀ (w : Holders) (d : DelayedDestructor),
      (DelayedDestructor.destroyObjects w d).1 =
        (DelayedDestructor.destroyObjects w d).2.ElementsToBeDestroyed.length) := by
  refine ⟨by decide, ?_, ?_⟩
  · intro w d x hx h1 h2
    rw [destroyObjects_elements, List.mem_append, List.mem_filter]
    refine Or.inl ⟨hx, ?_⟩
    have hc := collect_count w d.reads x d.ElementsToBeDestroyed []
    rw [if_pos ⟨hx, by simp [h1]⟩] at hc
    simp only [List.count_nil, zero_add] at hc
    rw [hc]
    simp
    omega
  · intro w d
    exact (destroyObjects_trace w d).2.2.2.2

/-- C23, as the claim states it, fails in its last part: the lock is released
for the calls of the hook, and what `addObjectsToBeDestroyed` pushes meanwhile
is in `ElementsToBeDestroyed` when the call returns.  With one element, held
elsewhere, and the object 9 handed over by another thread during the scan, the
list has two elements afterwards and the call returns 2. -/
theorem C23_held_elsewhere_kept_counterexample :
    (holding [7] false).ElementsToBeDestroyed = [7] ∧
    (DelayedDestructor.destroyObjects (handingOver [9])
      (holding [7] false)).2.ElementsToBeDestroyed = [7, 9] ∧
    (DelayedDestructor.destroyObjects (handingOver [9]) (holding [7] false)).1 = 2 ∧
    ¬ (DelayedDestructor.destroyObjects (handingOver [9])
        (holding [7] false)).2.ElementsToBeDestroyed.length ≤
      (holding [7] false).ElementsToBeDestroyed.length := by
  decide

/-- C23, amended: `destroyObjects ()` never releases an object held elsewhere:
every element whose count is greater than one when elements are removed is
still in `ElementsToBeDestroyed` afterwards, as often as before (and once more
for every time it was handed over during the call); the elements afterwards
are the surviving elements, a sublist of the elements before and so in their
relative order, followed by the objects handed over with
`addObjectsToBeDestroyed` while the lock was released; the list grows by no
more than those, and does not grow when nothing is handed over during the
call. -/
theorem C23_held_elsewhere_kept (w : Holders) (d : DelayedDestructor) :
    (∀ x ∈ d.ElementsToBeDestroyed, 1 < w.use_count (d.reads + 1) x →
      x ∈ (DelayedDestructor.destroyObjects w d).2.ElementsToBeDestroyed ∧
      (DelayedDestructor.destroyObjects w d).2.ElementsToBeDestroyed.count x =
        d.ElementsToBeDestroyed.count x + (w.added d.reads).count x) ∧
    (∃ kept : List Nat,
      (DelayedDestructor.destroyObjects w d).2.ElementsToBeDestroyed =
        kept ++ (if d.ElementsToBeDestroyed ≠ [] then w.added d.reads else []) ∧
      List.Sublist kept d.ElementsToBeDestroyed) ∧
    (DelayedDestructor.destroyObjects w d).2.ElementsToBeDestroyed.length ≤
      d.ElementsToBeDestroyed.length + (w.added d.reads).length ∧
    (w.added d.reads = [] →
      List.Sublist (DelayedDestructor.destroyObjects w d).2.ElementsToBeDestroyed
        d.ElementsToBeDestroyed ∧
      (DelayedDestructor.destroyObjects w d).2.ElementsToBeDestroyed.length ≤
        d.ElementsToBeDestroyed.length) := by
  rw [destroyObjects_elements]
  refine ⟨?_, ⟨_, rfl, List.filter_sublist _⟩, ?_, ?_⟩
  · intro x hx h1
    have hne : d.ElementsToBeDestroyed ≠ [] := List.ne_nil_of_mem hx
    have hp : (!decide (w.use_count (d.reads + 1) x +
        (DelayedDestructor.collect w d.reads d.ElementsToBeDestroyed []).count x ≤ 1)) = true := by
      simp
      omega
    rw [if_pos hne, List.count_append]
    refine ⟨List.mem_append_left _ (List.mem_filter.mpr ⟨hx, hp⟩), ?_⟩
    congr 1
    exact List.count_filter hp
  · rw [List.length_append]
    have h1 := List.length_filter_le
      (fun element =>
        !decide (w.use_count (d.reads + 1) element +
          (DelayedDestructor.collect w d.reads d.ElementsToBeDestroyed []).count element ≤ 1))
      d.ElementsToBeDestroyed
    have h2 : (if d.ElementsToBeDestroyed ≠ [] then w.added d.reads else []).length ≤
        (w.added d.reads).length := by
      split_ifs <;> simp
    omega
  · intro hnone
    rw [hnone, ite_self, List.append_nil]
    exact ⟨List.filter_sublist _, List.length_filter_le _ _⟩

/-- C23 (amended) at a concrete input: of the objects 7, 4 and 5, the objects 7
and 5 are held elsewhere; after the scan both are still listed, in their
order. -/
theorem C23_held_elsewhere_kept_witness :
    (7 ∈ (DelayedDestructor.destroyObjects (oddHeldUntil 10 100)
        (holding [7, 4, 5] true)).2.ElementsToBeDestroyed ∧
      (DelayedDestructor.destroyObjects (oddHeldUntil 10 100)
        (holding [7, 4, 5] true)).2.ElementsToBeDestroyed.count 7 =
        (holding [7, 4, 5] true).ElementsToBeDestroyed.count 7 +
          ((oddHeldUntil 10 100).added (holding [7, 4, 5] true).reads).count 7) ∧
    List.Sublist [7, 5]
      (DelayedDestructor.destroyObjects (oddHeldUntil 10 100)
        (holding [7, 4, 5] true)).2.ElementsToBeDestroyed :=
  ⟨(C23_held_elsewhere_kept (oddHeldUntil 10 100) (holding [7, 4, 5] true)).1 7
      (by decide) (by decide),
   by decide⟩

/-- How often the hook is called on an object in the calls made for `ecall`. -/
theorem hooks_count (objects : List Nat) (x : Nat) :
    (objects.map DestructorEvent.callBeforeDelete).count (DestructorEvent.callBeforeDelete x) =
      objects.count x :=
  List.count_map_of_injective objects DestructorEvent.callBeforeDelete
    (fun _ _ h => DestructorEvent.callBeforeDelete.inj h) x

/-- C24: in one call of `destroyObjects ()`, entered with `destructionLock`
free, the pre-delete hook, when one is set, is called exactly once on each
object in `ElementsToBeDestroyed` whose share count is one when the scan reads
the counts, and on no other object (and not at all when no hook is set); every
call of the hook is made with the lock released; and the call ends by taking
the lock, reading the size that is returned, and releasing the lock. -/
theorem C24_hook_outside_lock (w : Holders) (d : DelayedDestructor) :
    ∃ before : List DestructorEvent,
      (DelayedDestructor.destroyObjects w d).2.trace =
        d.trace ++ before ++
          [DestructorEvent.lock, DestructorEvent.size (DelayedDestructor.destroyObjects w d).1,
           DestructorEvent.unlock] ∧
      DestructorEvent.disciplined false
        (before ++
          [DestructorEvent.lock, DestructorEvent.size (DelayedDestructor.destroyObjects w d).1,
           DestructorEvent.unlock]) = true ∧
      ∀ x : Nat,
        before.count (DestructorEvent.callBeforeDelete x) =
          (if d.callBeforeDeleteFunction = true ∧ x ∈ d.ElementsToBeDestroyed ∧
              w.use_count d.reads x = 1 then 1 else 0) := by
  by_cases he : d.ElementsToBeDestroyed ≠ []
  · refine ⟨[DestructorEvent.destroyObjects, DestructorEvent.lock, DestructorEvent.unlock] ++
      (if d.callBeforeDeleteFunction = true then
        (DelayedDestructor.collect w d.reads d.ElementsToBeDestroyed []).map
          DestructorEvent.callBeforeDelete
       else []), ?_, ?_, ?_⟩
    · unfold DelayedDestructor.destroyObjects
      rw [if_pos he]
      simp only [List.append_assoc]
    · by_cases hk : d.callBeforeDeleteFunction = true
      · rw [if_pos hk, List.append_assoc]
        have e : ∀ rest : List DestructorEvent,
            DestructorEvent.disciplined false
              ([DestructorEvent.destroyObjects, DestructorEvent.lock, DestructorEvent.unlock] ++
                rest) = DestructorEvent.disciplined false rest := fun _ => rfl
        rw [e, hooks_disciplined]
        rfl
      · rw [if_neg hk]
        rfl
    · intro x
      have hc := collect_count w d.reads x d.ElementsToBeDestroyed []
      simp only [List.count_nil, zero_add, add_zero] at hc
      by_cases hk : d.callBeforeDeleteFunction = true
      · rw [if_pos hk, List.count_append, hooks_count, hc]
        simp [hk]
      · rw [if_neg hk]
        simp [hk]
  · have he2 : d.ElementsToBeDestroyed = [] := by simpa using he
    refine ⟨[DestructorEvent.destroyObjects], ?_, ?_, ?_⟩
    · unfold DelayedDestructor.destroyObjects
      rw [if_neg he]
      simp
    · unfold DelayedDestructor.destroyObjects
      rw [if_neg he]
      rfl
    · intro x
      simp [he2]

/-- C24 at a concrete input: of the objects 7, 4 and 5, only 4 has a share
count of one; the hook is called on it once, between the release of the lock
and the moment the lock is taken again. -/
theorem C24_hook_outside_lock_witness :
    (DelayedDestructor.destroyObjects (oddHeldUntil 10 100) (holding [7, 4, 5] true)).2.trace =
      [DestructorEvent.destroyObjects, DestructorEvent.lock, DestructorEvent.unlock,
       DestructorEvent.callBeforeDelete 4,
       DestructorEvent.lock, DestructorEvent.size 3, DestructorEvent.unlock] ∧
    ∃ before : List DestructorEvent,
      (DelayedDestructor.destroyObjects (oddHeldUntil 10 100) (holding [7, 4, 5] true)).2.trace =
        (holding [7, 4, 5] true).trace ++ before ++
          [DestructorEvent.lock,
           DestructorEvent.size
             (DelayedDestructor.destroyObjects (oddHeldUntil 10 100) (holding [7, 4, 5] true)).1,
           DestructorEvent.unlock] :=
  ⟨by decide,
   (C24_hook_outside_lock (oddHeldUntil 10 100) (holding [7, 4, 5] true)).imp
     (fun _ h => h.1)⟩

/-! ## Delayed destruction: the destructor -/

/-- One test of the loop of `~DelayedDestructor ()` and the iteration that
follows, spelled out. -/
theorem destructorLoop_step (w : Holders) (fuel : Nat) (ii : Int) (d : DelayedDestructor) :
    DelayedDestructor.destructorLoop w (fuel + 1) ii d =
      if d.ElementsToBeDestroyed ≠ [] then
        if (DelayedDestructor.destroyObjects w d).2.ElementsToBeDestroyed ≠ [] then
          if w.isTripped (DelayedDestructor.destroyObjects w d).2.reads = true then
            some (ii + 1, (DelayedDestructor.destroyObjects w d).2)
          else if ii + 1 > 4 then
            some (ii + 1,
              (DelayedDestructor.destroyObjects w (DelayedDestructor.destroyObjects w d).2).2)
          else if (ii + 1) % 2 = 0 then
            DelayedDestructor.destructorLoop w fuel (ii + 1)
              { (DelayedDestructor.destroyObjects w d).2 with
                trace := (DelayedDestructor.destroyObjects w d).2.trace ++
                  [DestructorEvent.sleep 100] }
          else
            DelayedDestructor.destructorLoop w fuel (ii + 1)
              { (DelayedDestructor.destroyObjects w d).2 with
                trace := (DelayedDestructor.destroyObjects w d).2.trace ++
                  [DestructorEvent.yield] }
        else DelayedDestructor.destructorLoop w fuel (ii + 1) (DelayedDestructor.destroyObjects w d).2
      else some (ii, d) := rfl

/-- The waits the loop adds between iteration `ii` and iteration `last`. -/
theorem backoff_none (ii last : Int) (h0 : 0 ≤ ii) (h1 : last ≤ ii + 1) (h5 : ii ≤ 5) :
    (DelayedDestructor.backoff.take (last.toNat - 1)).drop ii.toNat = [] := by
  apply List.drop_eq_nil_of_le
  rw [List.length_take]
  omega

/-- The wait after iteration `ii + 1`, followed by the waits of the later
iterations. -/
theorem backoff_cons (ii last : Int) (h0 : 0 ≤ ii) (h1 : ii + 2 ≤ last) (h5 : last ≤ 5) :
    (if (ii + 1) % 2 = 0 then DestructorEvent.sleep 100 else DestructorEvent.yield) ::
        (DelayedDestructor.backoff.take (last.toNat - 1)).drop (ii + 1).toNat =
      (DelayedDestructor.backoff.take (last.toNat - 1)).drop ii.toNat := by
  have hi : ii = 0 ∨ ii = 1 ∨ ii = 2 ∨ ii = 3 := by omega
  have hl : last = 2 ∨ last = 3 ∨ last = 4 ∨ last = 5 := by omega
  rcases hi with rfl | rfl | rfl | rfl <;> rcases hl with rfl | rfl | rfl | rfl <;>
    first
      | (exfalso; omega)
      | decide

/-- The milliseconds slept are those of the waits. -/
theorem sleepTotal_waits (trace : List DestructorEvent) :
    DestructorEvent.sleepTotal (DestructorEvent.waits trace) =
      DestructorEvent.sleepTotal trace := by
  induction trace with
  | nil => rfl
  | cons e rest ih => cases e <;> simp [DestructorEvent.waits, DestructorEvent.sleepTotal, ih]

/-- The loop of `~DelayedDestructor ()`, entered after `ii` iterations with
enough tests allowed, returns after at most five iterations in all, with at
most one scan more than iterations and the waits of the iterations between. -/
theorem destructorLoop_spec (w : Holders) :
    ∀ (fuel : Nat) (ii : Int) (d : DelayedDestructor),
      0 ≤ ii → ii ≤ 4 → (4 - ii).toNat + 2 ≤ fuel →
      ∃ (last : Int) (r : DelayedDestructor),
        DelayedDestructor.destructorLoop w fuel ii d = some (last, r) ∧
        ii ≤ last ∧ last ≤ 5 ∧ (d.ElementsToBeDestroyed ≠ [] → ii < last) ∧
        DestructorEvent.scans r.trace ≤ DestructorEvent.scans d.trace + (last - ii).toNat + 1 ∧
        DestructorEvent.waits r.trace =
          DestructorEvent.waits d.trace ++
            (DelayedDestructor.backoff.take (last.toNat - 1)).drop ii.toNat := by
  intro fuel
  induction fuel with
  | zero => intro ii d _ _ h; omega
  | succ n ih =>
    intro ii d h0 h4 hf
    obtain ⟨s1, s2, _, _, _⟩ := destroyObjects_trace w d
    rw [destructorLoop_step]
    by_cases he : d.ElementsToBeDestroyed ≠ []
    · rw [if_pos he]
      have hstop : ∃ (last : Int) (r : DelayedDestructor),
          some (ii + 1, (DelayedDestructor.destroyObjects w d).2) = some (last, r) ∧
          ii ≤ last ∧ last ≤ 5 ∧ (d.ElementsToBeDestroyed ≠ [] → ii < last) ∧
          DestructorEvent.scans r.trace ≤
            DestructorEvent.scans d.trace + (last - ii).toNat + 1 ∧
          DestructorEvent.waits r.trace =
            DestructorEvent.waits d.trace ++
              (DelayedDestructor.backoff.take (last.toNat - 1)).drop ii.toNat := by
        refine ⟨ii + 1, _, rfl, by omega, by omega, fun _ => by omega, ?_, ?_⟩
        · rw [s1]; omega
        · rw [s2, backoff_none ii (ii + 1) h0 (le_refl _) (by omega), List.append_nil]
      by_cases he1 : (DelayedDestructor.destroyObjects w d).2.ElementsToBeDestroyed ≠ []
      · rw [if_pos he1]
        by_cases ht : w.isTripped (DelayedDestructor.destroyObjects w d).2.reads = true
        · rw [if_pos ht]
          exact hstop
        · rw [if_neg ht]
          by_cases h5 : ii + 1 > 4
          · rw [if_pos h5]
            obtain ⟨t1, t2, _, _, _⟩ :=
              destroyObjects_trace w (DelayedDestructor.destroyObjects w d).2
            refine ⟨ii + 1, _, rfl, by omega, by omega, fun _ => by omega, ?_, ?_⟩
            · rw [t1, s1]; omega
            · rw [t2, s2, backoff_none ii (ii + 1) h0 (le_refl _) (by omega), List.append_nil]
          · rw [if_neg h5]
            have hwait : ∀ e : DestructorEvent,
                e = (if (ii + 1) % 2 = 0 then DestructorEvent.sleep 100
                      else DestructorEvent.yield) →
                ∃ (last : Int) (r : DelayedDestructor),
                  DelayedDestructor.destructorLoop w n (ii + 1)
                    { (DelayedDestructor.destroyObjects w d).2 with
                      trace := (DelayedDestructor.destroyObjects w d).2.trace ++ [e] }
                    = some (last, r) ∧
                  ii ≤ last ∧ last ≤ 5 ∧ (d.ElementsToBeDestroyed ≠ [] → ii < last) ∧
                  DestructorEvent.scans r.trace ≤
                    DestructorEvent.scans d.trace + (last - ii).toNat + 1 ∧
                  DestructorEvent.waits r.trace =
                    DestructorEvent.waits d.trace ++
                      (DelayedDestructor.backoff.take (last.toNat - 1)).drop ii.toNat := by
              intro e hev
              obtain ⟨last, r, g1, g2, g3, g4, g5, g6⟩ := ih (ii + 1)
                { (DelayedDestructor.destroyObjects w d).2 with
                  trace := (DelayedDestructor.destroyObjects w d).2.trace ++ [e] }
                (by omega) (by omega) (by omega)
              have g4b : ii + 1 < last := g4 he1
              have hw : DestructorEvent.waits [e] = [e] := by
                rw [hev]
                split_ifs <;> rfl
              have hs : DestructorEvent.scans [e] = 0 := by
                rw [hev]
                split_ifs <;> rfl
              refine ⟨last, r, g1, by omega, g3, fun _ => by omega, ?_, ?_⟩
              · rw [scans_append, s1, hs] at g5
                omega
              · rw [g6, waits_append, s2, hw, List.append_assoc, List.singleton_append, hev,
                  backoff_cons ii last h0 (by omega) g3]
            by_cases hm : (ii + 1) % 2 = 0
            · rw [if_pos hm]
              exact hwait _ (by rw [if_pos hm])
            · rw [if_neg hm]
              exact hwait _ (by rw [if_neg hm])
      · rw [if_neg he1]
        have he2 : ¬ (DelayedDestructor.destroyObjects w d).2.ElementsToBeDestroyed ≠ [] := he1
        obtain ⟨m, rfl⟩ : ∃ m, n = m + 1 := ⟨n - 1, by omega⟩
        rw [destructorLoop_step, if_neg he2]
        exact hstop
    · rw [if_neg he]
      refine ⟨ii, d, rfl, le_refl _, by omega, fun h => absurd h he, by omega, ?_⟩
      rw [backoff_none ii ii h0 (by omega) (by omega), List.append_nil]

/-- C26: `~DelayedDestructor ()` always returns, whatever the share counts of
the elements do: after at most five iterations of its loop, hence at most six
scans, having yielded after the unsuccessful first and third iteration and
slept 100 ms after the unsuccessful second and fourth (at most 200 ms in all).
When a scan leaves elements and the tripwire is tripped it returns at once,
with no further scan or wait; when the fifth iteration leaves elements it
makes one more call of `destroyObjects ()` and returns whatever that leaves. -/
theorem C26_destructor_terminates (w : Holders) (d : DelayedDestructor) :
    (∃ (last : Int) (r : DelayedDestructor),
      DelayedDestructor.destructor w d = some (last, r) ∧
      0 ≤ last ∧ last ≤ 5 ∧
      DestructorEvent.scans r.trace ≤ DestructorEvent.scans d.trace + last.toNat + 1 ∧
      DestructorEvent.scans r.trace ≤ DestructorEvent.scans d.trace + 6 ∧
      DestructorEvent.waits r.trace =
        DestructorEvent.waits d.trace ++ DelayedDestructor.backoff.take (last.toNat - 1) ∧
      DestructorEvent.sleepTotal r.trace ≤ DestructorEvent.sleepTotal d.trace + 200) ∧
    (∀ (fuel : Nat) (ii : Int),
      d.ElementsToBeDestroyed ≠ [] →
      (DelayedDestructor.destroyObjects w d).2.ElementsToBeDestroyed ≠ [] →
      w.isTripped (DelayedDestructor.destroyObjects w d).2.reads = true →
      DelayedDestructor.destructorLoop w (fuel + 1) ii d =
        some (ii + 1, (DelayedDestructor.destroyObjects w d).2)) ∧
    (∀ (fuel : Nat) (ii : Int),
      4 < ii + 1 →
      d.ElementsToBeDestroyed ≠ [] →
      (DelayedDestructor.destroyObjects w d).2.ElementsToBeDestroyed ≠ [] →
      w.isTripped (DelayedDestructor.destroyObjects w d).2.reads = false →
      DelayedDestructor.destructorLoop w (fuel + 1) ii d =
        some (ii + 1,
          (DelayedDestructor.destroyObjects w (DelayedDestructor.destroyObjects w d).2).2)) := by
  refine ⟨?_, ?_, ?_⟩
  · obtain ⟨last, r, g1, g2, g3, _, g5, g6⟩ :=
      destructorLoop_spec w 6 0 d (le_refl _) (by decide) (by decide)
    have hw : DestructorEvent.waits r.trace =
        DestructorEvent.waits d.trace ++ DelayedDestructor.backoff.take (last.toNat - 1) := by
      rw [g6]
      rfl
    refine ⟨last, r, g1, g2, g3, ?_, ?_, hw, ?_⟩
    · simpa using g5
    · have : (last - 0).toNat ≤ 5 := by omega
      omega
    · rw [← sleepTotal_waits r.trace, hw, sleepTotal_append, sleepTotal_waits]
      have hl : last = 0 ∨ last = 1 ∨ last = 2 ∨ last = 3 ∨ last = 4 ∨ last = 5 := by omega
      have hb : DestructorEvent.sleepTotal
          (DelayedDestructor.backoff.take (last.toNat - 1)) ≤ 200 := by
        rcases hl with rfl | rfl | rfl | rfl | rfl | rfl <;> decide
      omega
  · intro fuel ii he he1 ht
    rw [destructorLoop_step, if_pos he, if_pos he1, if_pos ht]
  · intro fuel ii h5 he he1 ht
    rw [destructorLoop_step, if_pos he, if_pos he1, if_neg (by simp [ht]), if_pos (by omega)]

/-- C26 at concrete inputs: with an object that stays held elsewhere the
destructor makes five iterations and six scans, waits yield, 100 ms, yield,
100 ms, and returns with the object still listed; with the tripwire tripped
it returns after the first scan. -/
theorem C26_destructor_terminates_witness :
    (DelayedDestructor.destructor (oddHeldUntil 100 100) (holding [7] false)).map
        (fun out =>
          (out.1, DestructorEvent.scans out.2.trace, DestructorEvent.waits out.2.trace,
            out.2.ElementsToBeDestroyed)) =
      some (5, 6, DelayedDestructor.backoff, [7]) ∧
    DelayedDestructor.destructorLoop (oddHeldUntil 100 0) (5 + 1) 0 (holding [7] false) =
      some (0 + 1, (DelayedDestructor.destroyObjects (oddHeldUntil 100 0) (holding [7] false)).2) :=
  ⟨by decide,
   (C26_destructor_terminates (oddHeldUntil 100 0) (holding [7] false)).2.1 5 0
     (by decide) (by decide) (by decide)⟩

/-! ## Delayed destruction: the timed scan -/

/-- One test of the loop of `destroyObjects (delay)` and the iteration that
follows, spelled out. -/
theorem timedLoop_step (w : Holders) (delayTime delayCount : Int) (fuel : Nat) (cnt : Int)
    (d : DelayedDestructor) :
    DelayedDestructor.timedLoop w delayTime delayCount (fuel + 1) cnt d =
      if d.ElementsToBeDestroyed ≠ [] ∧ cnt < delayCount then
        DelayedDestructor.timedLoop w delayTime delayCount fuel (cnt + 1)
          (if (if cnt > 0 then
                { d with trace := d.trace ++
                    [DestructorEvent.unlock, DestructorEvent.sleep delayTime,
                     DestructorEvent.lock] }
              else d).ElementsToBeDestroyed ≠ [] then
            { (DelayedDestructor.destroyObjects w
                { (if cnt > 0 then
                    { d with trace := d.trace ++
                        [DestructorEvent.unlock, DestructorEvent.sleep delayTime,
                         DestructorEvent.lock] }
                  else d) with
                  trace := (if cnt > 0 then
                    { d with trace := d.trace ++
                        [DestructorEvent.unlock, DestructorEvent.sleep delayTime,
                         DestructorEvent.lock] }
                  else d).trace ++ [DestructorEvent.unlock] }).2 with
              trace := (DelayedDestructor.destroyObjects w
                { (if cnt > 0 then
                    { d with trace := d.trace ++
                        [DestructorEvent.unlock, DestructorEvent.sleep delayTime,
                         DestructorEvent.lock] }
                  else d) with
                  trace := (if cnt > 0 then
                    { d with trace := d.trace ++
                        [DestructorEvent.unlock, DestructorEvent.sleep delayTime,
                         DestructorEvent.lock] }
                  else d).trace ++ [DestructorEvent.unlock] }).2.trace ++
                [DestructorEvent.lock] }
          else
            (if cnt > 0 then
              { d with trace := d.trace ++
                  [DestructorEvent.unlock, DestructorEvent.sleep delayTime,
                   DestructorEvent.lock] }
            else d))
      else some d := rfl

/-- The state after an iteration of the loop of `destroyObjects (delay)` that
is entered with elements in the list: the schedule gains a sleep, unless `cnt`
is zero, and a scan. -/
theorem timedLoop_iteration (w : Holders) (delayTime delayCount : Int) (fuel : Nat) (cnt : Int)
    (d : DelayedDestructor) (he : d.ElementsToBeDestroyed ≠ []) (hc : cnt < delayCount) :
    ∃ d2 : DelayedDestructor,
      DelayedDestructor.timedLoop w delayTime delayCount (fuel + 1) cnt d =
        DelayedDestructor.timedLoop w delayTime delayCount fuel (cnt + 1) d2 ∧
      DestructorEvent.schedule d2.trace =
        DestructorEvent.schedule d.trace ++
          (if cnt > 0 then [DestructorEvent.sleep delayTime] else []) ++
          [DestructorEvent.destroyObjects] := by
  rw [timedLoop_step, if_pos ⟨he, hc⟩]
  by_cases h0 : cnt > 0
  · simp only [h0, if_true, if_pos he]
    refine ⟨_, rfl, ?_⟩
    simp only [schedule_append, (destroyObjects_trace w _).2.2.1]
    simp [DestructorEvent.schedule]
  · simp only [h0, if_false, if_pos he]
    refine ⟨_, rfl, ?_⟩
    simp only [schedule_append, (destroyObjects_trace w _).2.2.1]
    simp [DestructorEvent.schedule]

/-- The loop of `destroyObjects (delay)`, entered after the first iteration
with enough tests allowed, returns after a sleep and a scan for each further
iteration; it is left with elements in the list only when `cnt` has reached
`delayCount`. -/
theorem timedLoop_spec (w : Holders) (delayTime delayCount : Int) :
    ∀ (fuel : Nat) (cnt : Int) (d : DelayedDestructor),
      0 < cnt → (delayCount - cnt).toNat + 1 ≤ fuel →
      ∃ (r : DelayedDestructor) (k : Nat),
        DelayedDestructor.timedLoop w delayTime delayCount fuel cnt d = some r ∧
        k ≤ (delayCount - cnt).toNat ∧
        DestructorEvent.schedule r.trace =
          DestructorEvent.schedule d.trace ++ DelayedDestructor.slices delayTime k ∧
        (r.ElementsToBeDestroyed ≠ [] → k = (delayCount - cnt).toNat) := by
  intro fuel
  induction fuel with
  | zero => intro cnt d _ h; omega
  | succ n ih =>
    intro cnt d h0 hf
    by_cases hcond : d.ElementsToBeDestroyed ≠ [] ∧ cnt < delayCount
    · obtain ⟨d2, e1, e2⟩ := timedLoop_iteration w delayTime delayCount n cnt d hcond.1 hcond.2
      obtain ⟨r, k, g1, g2, g3, g4⟩ := ih (cnt + 1) d2 (by omega) (by omega)
      refine ⟨r, k + 1, by rw [e1, g1], by omega, ?_, fun h => by have := g4 h; omega⟩
      rw [g3, e2, if_pos h0]
      simp [DelayedDestructor.slices]
    · rw [timedLoop_step, if_neg hcond]
      refine ⟨d, 0, rfl, Nat.zero_le _, by simp [DelayedDestructor.slices], ?_⟩
      intro h
      have : ¬ cnt < delayCount := fun hc => hcond ⟨h, hc⟩
      omega

/-- The scans and the milliseconds slept are those of the schedule. -/
theorem schedule_totals (trace : List DestructorEvent) :
    DestructorEvent.scans (DestructorEvent.schedule trace) = DestructorEvent.scans trace ∧
    DestructorEvent.sleepTotal (DestructorEvent.schedule trace) =
      DestructorEvent.sleepTotal trace := by
  induction trace with
  | nil => exact ⟨rfl, rfl⟩
  | cons e rest ih =>
    obtain ⟨h1, h2⟩ := ih
    simp only [DestructorEvent.scans] at h1 ⊢
    cases e <;>
      simp [DestructorEvent.schedule, DestructorEvent.sleepTotal, h1, h2, List.count_cons]

/-- The scans and the milliseconds slept in a run of slices. -/
theorem slices_totals (delayTime : Int) (k : Nat) :
    DestructorEvent.scans (DelayedDestructor.slices delayTime k) = k ∧
    DestructorEvent.sleepTotal (DelayedDestructor.slices delayTime k) = delayTime * k := by
  induction k with
  | zero => exact ⟨rfl, by simp [DelayedDestructor.slices, DestructorEvent.sleepTotal]⟩
  | succ n ih =>
    obtain ⟨h1, h2⟩ := ih
    simp only [DestructorEvent.scans] at h1 ⊢
    refine ⟨?_, ?_⟩
    · simp [DelayedDestructor.slices, List.count_cons, h1]
    · simp only [DelayedDestructor.slices, DestructorEvent.sleepTotal, h2]
      push_cast
      ring

/-- The scans and the milliseconds slept in a timed schedule. -/
theorem timedSchedule_totals (delayTime : Int) (k : Nat) :
    DestructorEvent.scans (DelayedDestructor.timedSchedule delayTime k) = k ∧
    DestructorEvent.sleepTotal (DelayedDestructor.timedSchedule delayTime k) =
      delayTime * ((k - 1 : Nat) : Int) := by
  cases k with
  | zero => exact ⟨rfl, by simp [DelayedDestructor.timedSchedule, DestructorEvent.sleepTotal]⟩
  | succ n =>
    obtain ⟨h1, h2⟩ := slices_totals delayTime n
    simp only [DestructorEvent.scans] at h1 ⊢
    refine ⟨?_, ?_⟩
    · simp [DelayedDestructor.timedSchedule, List.count_cons, h1]
    · simp [DelayedDestructor.timedSchedule, DestructorEvent.sleepTotal, h2]

/-- The loop of `destroyObjects (delay)` from its first test: it returns
within the tests allowed, after at most `delayCount` scans with a sleep before
each but the first; it is left with elements in the list only when all of them
have been made. -/
theorem timedLoop_first (w : Holders) (delayTime delayCount : Int) (d : DelayedDestructor) :
    ∃ (r : DelayedDestructor) (k : Nat),
      DelayedDestructor.timedLoop w delayTime delayCount (delayCount.toNat + 1) 0 d = some r ∧
      k ≤ delayCount.toNat ∧
      DestructorEvent.schedule r.trace =
        DestructorEvent.schedule d.trace ++ DelayedDestructor.timedSchedule delayTime k ∧
      (d.ElementsToBeDestroyed = [] → k = 0) ∧
      (r.ElementsToBeDestroyed ≠ [] → k = delayCount.toNat) := by
  by_cases hcond : d.ElementsToBeDestroyed ≠ [] ∧ 0 < delayCount
  · obtain ⟨d2, e1, e2⟩ :=
      timedLoop_iteration w delayTime delayCount delayCount.toNat 0 d hcond.1 hcond.2
    obtain ⟨r, k, g1, g2, g3, g4⟩ :=
      timedLoop_spec w delayTime delayCount delayCount.toNat (0 + 1) d2 (by omega) (by omega)
    refine ⟨r, k + 1, by rw [e1, g1], by omega, ?_, fun h => absurd h hcond.1,
      fun h => by have := g4 h; omega⟩
    rw [g3, e2]
    simp [DelayedDestructor.timedSchedule]
  · rw [timedLoop_step, if_neg hcond]
    refine ⟨d, 0, rfl, Nat.zero_le _, by simp [DelayedDestructor.timedSchedule], fun _ => rfl, ?_⟩
    intro h
    have : ¬ 0 < delayCount := fun hc => hcond ⟨h, hc⟩
    omega

/-- C27: the timed `destroyObjects (delay)` always returns, with the number of
elements that remain, after `k` scans with a sleep of `delayTime` before each
but the first.  For a delay of 100 ms or more the sleeps are of 50 ms, `k` is at
most `delay / 50` and the total sleep, `50 * (k - 1)`, is at most the delay; for
a delay below 100 ms there is at most one scan and no sleep.  The loop is left
as soon as the list is found empty (with no scan at all when it is empty at the
start), and with elements left only after `delayCount` scans. -/
theorem C27_timed_destroyObjects (w : Holders) (delay : Int) (d : DelayedDestructor) :
    (∃ (n : Nat) (r : DelayedDestructor) (k : Nat),
      DelayedDestructor.destroyObjectsDelay w delay d = some (n, r) ∧
      n = r.ElementsToBeDestroyed.length ∧
      DestructorEvent.schedule r.trace =
        DestructorEvent.schedule d.trace ++
          DelayedDestructor.timedSchedule (DelayedDestructor.delayTime delay) k ∧
      DestructorEvent.scans r.trace = DestructorEvent.scans d.trace + k ∧
      (d.ElementsToBeDestroyed = [] → k = 0) ∧
      (r.ElementsToBeDestroyed ≠ [] → k = (DelayedDestructor.delayCount delay).toNat) ∧
      (100 ≤ delay →
        (k : Int) ≤ delay / 50 ∧ DelayedDestructor.delayTime delay = 50 ∧
        DestructorEvent.sleepTotal r.trace =
          DestructorEvent.sleepTotal d.trace + 50 * ((k - 1 : Nat) : Int) ∧
        DestructorEvent.sleepTotal r.trace ≤ DestructorEvent.sleepTotal d.trace + delay) ∧
      (delay < 100 →
        k ≤ 1 ∧ DestructorEvent.sleepTotal r.trace = DestructorEvent.sleepTotal d.trace)) ∧
    (∀ (fuel : Nat) (cnt : Int) (e : DelayedDestructor), e.ElementsToBeDestroyed = [] →
      DelayedDestructor.timedLoop w (DelayedDestructor.delayTime delay)
        (DelayedDestructor.delayCount delay) (fuel + 1) cnt e = some e) := by
  refine ⟨?_, ?_⟩
  · obtain ⟨r, k, g1, g2, g3, g4, g5⟩ :=
      timedLoop_first w (DelayedDestructor.delayTime delay) (DelayedDestructor.delayCount delay)
        { d with trace := d.trace ++ [DestructorEvent.lock] }
    have hs : DestructorEvent.schedule
        (r.trace ++ [DestructorEvent.size r.ElementsToBeDestroyed.length,
          DestructorEvent.unlock]) =
        DestructorEvent.schedule d.trace ++
          DelayedDestructor.timedSchedule (DelayedDestructor.delayTime delay) k := by
      rw [schedule_append, g3, schedule_append]
      simp [DestructorEvent.schedule]
    obtain ⟨t1, t2⟩ := timedSchedule_totals (DelayedDestructor.delayTime delay) k
    have hscans : DestructorEvent.scans
        (r.trace ++ [DestructorEvent.size r.ElementsToBeDestroyed.length,
          DestructorEvent.unlock]) = DestructorEvent.scans d.trace + k := by
      rw [← (schedule_totals _).1, hs, scans_append, (schedule_totals _).1, t1]
    have hsleep : DestructorEvent.sleepTotal
        (r.trace ++ [DestructorEvent.size r.ElementsToBeDestroyed.length,
          DestructorEvent.unlock]) =
        DestructorEvent.sleepTotal d.trace +
          DelayedDestructor.delayTime delay * ((k - 1 : Nat) : Int) := by
      rw [← (schedule_totals _).2, hs, sleepTotal_append, (schedule_totals _).2, t2]
    refine ⟨r.ElementsToBeDestroyed.length,
      { r with trace := r.trace ++
          [DestructorEvent.size r.ElementsToBeDestroyed.length, DestructorEvent.unlock] },
      k, ?_, rfl, hs, hscans, g4, g5, ?_, ?_⟩
    · unfold DelayedDestructor.destroyObjectsDelay
      rw [g1]
    · intro h100
      have hdt : DelayedDestructor.delayTime delay = 50 := by
        unfold DelayedDestructor.delayTime
        rw [if_neg (by omega)]
      have hdc : DelayedDestructor.delayCount delay ≤ delay / 50 := by
        unfold DelayedDestructor.delayCount toInt32
        rw [if_neg (by omega)]
        omega
      have hk : (k : Int) ≤ delay / 50 := by omega
      refine ⟨hk, hdt, ?_, ?_⟩
      · rw [hsleep, hdt]
      · rw [hsleep, hdt]
        omega
    · intro h100
      have hdc : DelayedDestructor.delayCount delay = 1 := by
        unfold DelayedDestructor.delayCount
        rw [if_pos h100]
      rw [hdc] at g2
      have hk : k ≤ 1 := by simpa using g2
      refine ⟨hk, ?_⟩
      rw [hsleep]
      have : k - 1 = 0 := by omega
      rw [this]
      simp
  · intro fuel cnt e he
    rw [timedLoop_step, if_neg (fun h => h.1 he)]

/-- C27 at concrete inputs: with a delay of 220 ms and an object released
during the second scan there are two scans, one sleep of 50 ms between them,
and 0 is returned; with a delay of 99 ms and an object that stays held there is
one scan, no sleep, and 1 is returned. -/
theorem C27_timed_destroyObjects_witness :
    (DelayedDestructor.destroyObjectsDelay (oddHeldUntil 3 100) 220 (holding [7] false)).map
        (fun out => (out.1, DestructorEvent.schedule out.2.trace)) =
      some (0, [DestructorEvent.destroyObjects, DestructorEvent.sleep 50,
        DestructorEvent.destroyObjects]) ∧
    (DelayedDestructor.destroyObjectsDelay (oddHeldUntil 100 100) 99 (holding [7] false)).map
        (fun out => (out.1, DestructorEvent.schedule out.2.trace)) =
      some (1, [DestructorEvent.destroyObjects]) ∧
    DelayedDestructor.timedLoop (oddHeldUntil 3 100) (DelayedDestructor.delayTime 220)
        (DelayedDestructor.delayCount 220) (3 + 1) 2 (holding [] false) =
      some (holding [] false) :=
  ⟨by decide, by decide,
   (C27_timed_destroyObjects (oddHeldUntil 3 100) 220 (holding [7] false)).2 3 2
     (holding [] false) rfl⟩

end helics
